import Mathlib

/-!
# Lorebel: list query builder, authentication and write handlers

A shallow embedding of the backend of the repository.
* `getProducts` (backend/controllers/productController.js) and `getCategorias`
  (backend/controllers/categoriaController.js): the construction of the store
  filter from the query string, the coercion of `page` / `limit`, the window
  fetched from the store and the pagination descriptor placed in the response.
* `protect` and `generateToken` (backend/middleware/auth.js), `register`,
  `login` and `getProfile` (backend/controllers/authController.js) with the
  `pre('save')` hook of backend/models/User.js.
* `createCategoria`, `updateCategoria`, `deleteCategoria` and `createProduct`,
  as functions from the store before the request to the response and the
  store after it.

Modelling conventions.
* A JavaScript string is a Lean `String`; the functions that scan one work on
  its list of characters.  The regular expressions involved are built from
  ASCII characters only, so a character outside the Basic Multilingual Plane is
  passed through unchanged both by the code-unit based regex of the source and
  by the character based model.
* A query parameter is `Option String`: `none` is JavaScript `undefined`.
  Array- and object-valued parameters are not modelled.
* The libraries (`jsonwebtoken`, `bcryptjs`, the ObjectId and Number casts of
  Mongoose) are the fields of `Env`; the clock is a number of whole seconds.
* A JavaScript number that holds an integer is an exact `Int`
  (the model is exact within the safe-integer range of a double, and negative
  zero is identified with zero); `NaN` and the infinities that a division by
  zero yields are separate values.
-/

namespace Lorebel

/-! ## JavaScript values -/

/-- JavaScript truthiness of a query parameter: `undefined` and the empty
string are falsy, every other string is truthy. -/
def truthy : Option String → Bool
  | none => false
  | some s => s.toList != []

/-! ## `String.prototype.replace` with the escaping regex -/

/-- Source text of the character class of the regex literal
`/[.*+?^$\x7b\x7d()|[\]\\]/g` of `getProducts`: what stands between the outer
brackets. -/
def escapeClassSource : List Char :=
  ['.', '*', '+', '?', '^', '$', '\x7b', '\x7d', '(', ')', '|', '[', '\\', ']', '\\', '\\']

/-- Members of a character class body without ranges: a backslash followed by
a non-alphanumeric character denotes that character (identity escape), every
other character denotes itself.  Class escapes such as `\d` and ranges are
not part of the model (`none`). -/
def parseClassAtoms : List Char → Option (List Char)
  | [] => some []
  | '\\' :: c :: rest =>
      if c.isAlphanum then none else (parseClassAtoms rest).map (c :: ·)
  | c :: rest =>
      if c = '\\' ∨ c = '-' then none else (parseClassAtoms rest).map (c :: ·)

/-- A character class: negated when the body starts with `^`. -/
def parseClass : List Char → Option (Bool × List Char)
  | '^' :: body => (parseClassAtoms body).map fun l => (true, l)
  | body => (parseClassAtoms body).map fun l => (false, l)

/-- Test of one character against the class of the escaping regex. -/
def escapeClass (c : Char) : Bool :=
  match parseClass escapeClassSource with
  | some (neg, members) => members.contains c != neg
  | none => false

/-- The replacement string literal `'\\$&'` of the source: a backslash, then
the pattern `$&`. -/
def escapeReplacement : List Char := ['\\', '$', '&']

/-- Expansion of a replacement template for one match: `$$` is a dollar sign,
`$&` is the matched text, any other character stands for itself (the template
of the source uses no other replacement pattern). -/
def expandReplacement (matched : List Char) : List Char → List Char
  | [] => []
  | '$' :: '$' :: rest => '$' :: expandReplacement matched rest
  | '$' :: '&' :: rest => matched ++ expandReplacement matched rest
  | c :: rest => c :: expandReplacement matched rest

/-- `str.replace(/[class]/g, template)` for a regex that is one character
class: scanning left to right, every character of the class is a match and is
replaced by the expanded template, every other character is copied. -/
def replaceClassGlobal (cls : Char → Bool) (template : List Char) : List Char → List Char
  | [] => []
  | c :: rest =>
      if cls c then expandReplacement [c] template ++ replaceClassGlobal cls template rest
      else c :: replaceClassGlobal cls template rest

/-- The escaping step of productController.js line 50:
`search.replace(/[.*+?^$\x7b\x7d()|[\]\\]/g, '\\$&')`. -/
def escapeRegex (search : String) : String :=
  String.mk (replaceClassGlobal escapeClass escapeReplacement search.toList)

/-! ## Numbers -/

/-- A JavaScript number as the handlers meet it: an integer, `NaN`, or one of
the infinities. -/
inductive JSNum
  | int (n : Int)
  | nan
  | posInf
  | negInf
deriving DecidableEq, Repr

namespace JSNum

/-- Sign of a number that is not `NaN`: `-1`, `0` or `1`. -/
def sign : JSNum → Int
  | int n => Int.sign n
  | posInf => 1
  | negInf => -1
  | nan => 0

/-- Infinity carrying the given sign. -/
def infOfSign (s : Int) : JSNum := if 0 < s then posInf else negInf

/-- The `-` operator. -/
def sub : JSNum → JSNum → JSNum
  | int a, int b => int (a - b)
  | nan, _ => nan
  | _, nan => nan
  | posInf, posInf => nan
  | negInf, negInf => nan
  | posInf, _ => posInf
  | negInf, _ => negInf
  | int _, posInf => negInf
  | int _, negInf => posInf

/-- The `*` operator. -/
def mul : JSNum → JSNum → JSNum
  | int a, int b => int (a * b)
  | nan, _ => nan
  | _, nan => nan
  | a, b => if a.sign * b.sign = 0 then nan else infOfSign (a.sign * b.sign)

/-- The `<` operator; a comparison with `NaN` is false. -/
def lt : JSNum → JSNum → Bool
  | int a, int b => decide (a < b)
  | nan, _ => false
  | _, nan => false
  | negInf, negInf => false
  | negInf, _ => true
  | _, posInf => true
  | _, _ => false

/-- The `>` operator. -/
def gt (a b : JSNum) : Bool := lt b a

/-- The expression `Math.ceil(a / b)`.  The quotient of two integers is the
exact rational; a division by zero gives `NaN` for `0 / 0` and an infinity
otherwise. -/
def ceilDiv : JSNum → JSNum → JSNum
  | int a, int b =>
      if b = 0 then (if a = 0 then nan else infOfSign (Int.sign a))
      else int ⌈(a : ℚ) / (b : ℚ)⌉
  | nan, _ => nan
  | _, nan => nan
  | int _, _ => int 0
  | a, int b => if b = 0 then a else infOfSign (a.sign * Int.sign b)
  | _, _ => nan

/-- Falsy numbers are `0` and `NaN`. -/
def truthy : JSNum → Bool
  | int n => n != 0
  | nan => false
  | _ => true

/-- The expression `a || b` on numbers. -/
def orElse (a b : JSNum) : JSNum := if a.truthy then a else b

end JSNum

/-! ## `parseInt` -/

/-- White space and line terminators skipped at the start of the input of
`parseInt` (the StrWhiteSpaceChar production). -/
def isStrWhiteSpace (c : Char) : Bool :=
  let n := c.toNat
  n = 0x09 || n = 0x0A || n = 0x0B || n = 0x0C || n = 0x0D || n = 0x20 || n = 0xA0
    || n = 0x1680 || (0x2000 ≤ n && n ≤ 0x200A) || n = 0x2028 || n = 0x2029
    || n = 0x202F || n = 0x205F || n = 0x3000 || n = 0xFEFF

/-- Value of a character as a digit in radixes up to 36. -/
def digitValue (c : Char) : Option Nat :=
  if '0' ≤ c ∧ c ≤ '9' then some (c.toNat - '0'.toNat)
  else if 'a' ≤ c ∧ c ≤ 'z' then some (c.toNat - 'a'.toNat + 10)
  else if 'A' ≤ c ∧ c ≤ 'Z' then some (c.toNat - 'A'.toNat + 10)
  else none

/-- The longest prefix made of digits of the radix, as digit values. -/
def takeDigits (radix : Nat) : List Char → List Nat
  | [] => []
  | c :: rest =>
      match digitValue c with
      | some d => if d < radix then d :: takeDigits radix rest else []
      | none => []

/-- Value of a digit sequence, most significant digit first. -/
def digitsValue (radix : Nat) (ds : List Nat) : Nat :=
  ds.foldl (fun acc d => acc * radix + d) 0

/-- Sign prefix of the trimmed input: the sign and the remaining text. -/
def splitSign : List Char → Int × List Char
  | '-' :: rest => (-1, rest)
  | '+' :: rest => (1, rest)
  | s => (1, s)

/-- Removal of a `0x` / `0X` prefix; the flag tells whether one was removed. -/
def stripHexPrefix : List Char → Bool × List Char
  | '0' :: 'x' :: rest => (true, rest)
  | '0' :: 'X' :: rest => (true, rest)
  | s => (false, s)

/-- The number of halvings that bring `n` below `2^53`; `fuel` bounds the
count. -/
def excessBits : Nat → Nat → Nat
  | 0, _ => 0
  | fuel + 1, n => if n < 9007199254740992 then 0 else excessBits fuel (n / 2) + 1

/-- The `Number` value of a mathematical integer `n ≥ 0`: `n` itself below
`2^53`, else the double nearest to it, ties to the even mantissa, and
`Infinity` when that is `2^1024` or more. -/
def roundToDouble (n : Nat) : JSNum :=
  if n < 9007199254740992 then JSNum.int n
  else
    let e := excessBits n n
    let q := n / 2 ^ e
    let r := n % 2 ^ e
    let m := if 2 ^ e < 2 * r ∨ (2 * r = 2 ^ e ∧ q % 2 = 1) then q + 1 else q
    if m * 2 ^ e < 2 ^ 1024 then JSNum.int ((m * 2 ^ e : Nat) : Int) else JSNum.posInf

/-- The sign read by `parseInt` applied to the value of the digits. -/
def applySign (sgn : Int) : JSNum → JSNum
  | JSNum.int n => JSNum.int (sgn * n)
  | JSNum.posInf => if sgn < 0 then JSNum.negInf else JSNum.posInf
  | JSNum.negInf => if sgn < 0 then JSNum.posInf else JSNum.negInf
  | JSNum.nan => JSNum.nan

/-- The global function `parseInt(input, radix)`; radix `0` stands for an
absent radix argument.  Leading white space is skipped, a sign is read, a hex
prefix is honoured when the radix is absent or 16, and the longest run of
digits is converted to the nearest double, an infinity for a run too long for
a double (309 decimal digits or more); no digit at all gives `NaN`. -/
def parseInt (input : String) (radix : Nat) : JSNum :=
  let trimmed := input.toList.dropWhile isStrWhiteSpace
  let (sgn, body) := splitSign trimmed
  if radix ≠ 0 ∧ (radix < 2 ∨ 36 < radix) then JSNum.nan
  else
    let (hex, digits) :=
      if radix = 0 ∨ radix = 16 then stripHexPrefix body else (false, body)
    let r := if hex then 16 else if radix = 0 then 10 else radix
    match takeDigits r digits with
    | [] => JSNum.nan
    | ds => applySign sgn (roundToDouble (digitsValue r ds))

/-! ## Query parameters and store filters -/

/-- The text fields a search condition can address. -/
inductive Field
  | nombre
  | descripcion
deriving DecidableEq, Repr

/-- A condition `\x7b $regex: regex, $options: options \x7d`. -/
structure RegexCond where
  regex : String
  options : String
deriving DecidableEq, Repr

/-- The two-element array assigned to `$or`: the same regex condition on
`nombre` and on `descripcion`. -/
def searchDisjunction (regex : String) : List (Field × RegexCond) :=
  [(Field.nombre, ⟨regex, "i"⟩), (Field.descripcion, ⟨regex, "i"⟩)]

/-- The parameters `getProducts` destructures from `req.query`. -/
structure ProductQuery where
  categoria : Option String := none
  minPrecio : Option String := none
  maxPrecio : Option String := none
  search : Option String := none
  sort : Option String := none
  page : Option String := none
  limit : Option String := none
deriving DecidableEq, Repr

/-- The object assigned to `filter.precio`; an absent key is `none`. -/
structure PrecioRange (ν : Type) where
  gte : Option ν := none
  lte : Option ν := none
deriving DecidableEq, Repr

/-- The `filter` object of `getProducts`; an absent key is `none`. -/
structure ProductFilter (ν : Type) where
  categoria : Option String := none
  precio : Option (PrecioRange ν) := none
  or : Option (List (Field × RegexCond)) := none
deriving DecidableEq, Repr

/-- Lines 34 to 55 of productController.js: the filter built from the query.
`toNumber` is the global `Number` conversion applied to the price bounds. -/
def productFilter {ν : Type} (toNumber : String → ν) (q : ProductQuery) : ProductFilter ν :=
  { categoria := if truthy q.categoria then q.categoria else none
    precio :=
      if truthy q.minPrecio || truthy q.maxPrecio then
        some { gte := if truthy q.minPrecio then q.minPrecio.map toNumber else none
               lte := if truthy q.maxPrecio then q.maxPrecio.map toNumber else none }
      else none
    or :=
      match q.search with
      | some search =>
          if truthy (some search) then some (searchDisjunction (escapeRegex search)) else none
      | none => none }

/-- The parameters `getCategorias` reads from `req.query`. -/
structure CategoriaQuery where
  search : Option String := none
  activo : Option String := none
  page : Option String := none
  limit : Option String := none
deriving DecidableEq, Repr

/-- The `query` object of `getCategorias`; an absent key is `none`. -/
structure CategoriaFilter where
  or : Option (List (Field × RegexCond)) := none
  activo : Option Bool := none
deriving DecidableEq, Repr

/-- Lines 23 to 36 of categoriaController.js: the filter built from the
query.  The search term is used as the regex as received. -/
def categoriaFilter (q : CategoriaQuery) : CategoriaFilter :=
  { or :=
      match q.search with
      | some search => if truthy (some search) then some (searchDisjunction search) else none
      | none => none
    activo := q.activo.map fun a => decide (a = "true") }

/-! ## The `$regex` operator of the store

The store evaluates `$regex` with a PCRE engine.  The model covers the part of
the pattern language made of literal characters, identity escapes, the dot and
the quantifiers `*`, `+`, `?`; any other construct (groups, alternation,
classes, anchors, counted repetition, class escapes) is outside the model and
the pattern is then not evaluated (`none`). -/

/-- Characters with a special meaning in a pattern, outside a class. -/
def patternMetacharacters : List Char :=
  ['\\', '^', '$', '.', '[', '|', '(', ')', '?', '*', '+', '\x7b']

/-- Lexical elements of a pattern: a literal character (written plainly or as
an identity escape) or a metacharacter. -/
inductive Token
  | chr (c : Char)
  | special (c : Char)
deriving DecidableEq, Repr

/-- Lexing of a pattern.  A backslash makes the next non-alphanumeric
character literal; a backslash before an alphanumeric character or at the end
of the pattern is not modelled. -/
def tokenize : List Char → Option (List Token)
  | [] => some []
  | c :: rest =>
      if c = '\\' then
        match rest with
        | [] => none
        | d :: rest2 =>
            if d.isAlphanum then none else (tokenize rest2).map (Token.chr d :: ·)
      else if c ∈ patternMetacharacters then (tokenize rest).map (Token.special c :: ·)
      else (tokenize rest).map (Token.chr c :: ·)

/-- What one pattern position accepts: a given character, or any character
but a newline. -/
inductive Atom
  | chr (c : Char)
  | any
deriving DecidableEq, Repr

/-- Repetition attached to an atom. -/
inductive Quant
  | one
  | star
  | plus
  | opt
deriving DecidableEq, Repr

/-- An atom with its repetition. -/
structure Piece where
  atom : Atom
  quant : Quant
deriving DecidableEq, Repr

/-- The atom a token denotes, if it denotes one. -/
def Token.toAtom : Token → Option Atom
  | Token.chr c => some (Atom.chr c)
  | Token.special c => if c = '.' then some Atom.any else none

/-- The quantifier a token denotes, if it denotes one. -/
def Token.toQuant : Token → Option Quant
  | Token.chr _ => none
  | Token.special c =>
      if c = '*' then some Quant.star
      else if c = '+' then some Quant.plus
      else if c = '?' then some Quant.opt
      else none

/-- Grouping of the tokens into pieces: an atom and the quantifier that may
follow it. -/
def parsePieces : List Token → Option (List Piece)
  | [] => some []
  | t :: rest =>
      match t.toAtom with
      | none => none
      | some a =>
          match rest with
          | [] => some [⟨a, Quant.one⟩]
          | u :: rest2 =>
              match u.toQuant with
              | some qn => (parsePieces rest2).map (⟨a, qn⟩ :: ·)
              | none => (parsePieces (u :: rest2)).map (⟨a, Quant.one⟩ :: ·)

/-- Whether an atom accepts a character; `fold` is the case mapping in force
(the identity for a case-sensitive match). -/
def Atom.accepts (fold : Char → Char) : Atom → Char → Bool
  | Atom.chr c, d => fold c == fold d
  | Atom.any, d => d != '\n'

/-- One character accepted, then the continuation. -/
def matchOne (accepts : Char → Bool) (k : List Char → Bool) : List Char → Bool
  | [] => false
  | d :: t => accepts d && k t

/-- Any number of accepted characters, then the continuation. -/
def matchStar (accepts : Char → Bool) (k : List Char → Bool) : List Char → Bool
  | [] => k []
  | d :: t => k (d :: t) || (accepts d && matchStar accepts k t)

/-- Whether the pieces match a prefix of the text. -/
def matchHere (fold : Char → Char) : List Piece → List Char → Bool
  | [] => fun _ => true
  | ⟨a, Quant.one⟩ :: ps => matchOne (a.accepts fold) (matchHere fold ps)
  | ⟨a, Quant.opt⟩ :: ps => fun t =>
      matchOne (a.accepts fold) (matchHere fold ps) t || matchHere fold ps t
  | ⟨a, Quant.star⟩ :: ps => matchStar (a.accepts fold) (matchHere fold ps)
  | ⟨a, Quant.plus⟩ :: ps =>
      matchOne (a.accepts fold) (matchStar (a.accepts fold) (matchHere fold ps))

/-- Whether the continuation succeeds at some position of the text: an
unanchored regex matches anywhere. -/
def matchAnywhere (k : List Char → Bool) : List Char → Bool
  | [] => k []
  | d :: t => k (d :: t) || matchAnywhere k t

/-- The pieces of the pattern of a condition, when the model covers it. -/
def RegexCond.compile (cond : RegexCond) : Option (List Piece) :=
  (tokenize cond.regex.toList).bind parsePieces

/-- Evaluation of a regex condition on a field value.  `caseFold` is the case
mapping of the store, applied when the options contain `i`.  A missing field
does not match. -/
def RegexCond.test (caseFold : Char → Char) (cond : RegexCond) (value : Option String) :
    Option Bool :=
  cond.compile.map fun ps =>
    match value with
    | none => false
    | some text =>
        matchAnywhere
          (matchHere (if cond.options.toList.contains 'i' then caseFold else id) ps)
          text.toList

/-- Evaluation of a `$or` array on a document given by its text fields: some
clause holds.  The query is not evaluated when a pattern is not. -/
def evalDisjunction (caseFold : Char → Char) (text : Field → Option String) :
    List (Field × RegexCond) → Option Bool
  | [] => some false
  | (f, cond) :: rest =>
      match cond.test caseFold (text f), evalDisjunction caseFold text rest with
      | some a, some b => some (a || b)
      | _, _ => none

/-- Evaluation of the search part of a filter: an absent `$or` constrains
nothing. -/
def evalSearch (caseFold : Char → Char) (text : Field → Option String) :
    Option (List (Field × RegexCond)) → Option Bool
  | none => some true
  | some clauses => evalDisjunction caseFold text clauses

/-- The text fields of a product document. -/
structure Product where
  nombre : String
  descripcion : String
deriving DecidableEq, Repr

/-- Field access on a product. -/
def Product.text (p : Product) : Field → Option String
  | Field.nombre => some p.nombre
  | Field.descripcion => some p.descripcion

/-- The text fields of a category document; `descripcion` is optional. -/
structure Categoria where
  nombre : String
  descripcion : Option String := none
deriving DecidableEq, Repr

/-- Field access on a category. -/
def Categoria.text (c : Categoria) : Field → Option String
  | Field.nombre => some c.nombre
  | Field.descripcion => c.descripcion

/-- Case-insensitive literal substring: the folded term is a contiguous part
of the folded text. -/
def containsIgnoreCase (caseFold : Char → Char) (term text : String) : Prop :=
  (term.toList.map caseFold) <:+: (text.toList.map caseFold)

instance (caseFold : Char → Char) (term text : String) :
    Decidable (containsIgnoreCase caseFold term text) := by
  unfold containsIgnoreCase; infer_instance

/-! ## The store -/

/-- A collection of the store as the list handlers see it.  `matching` gives
the documents a filter selects, or the error with which the store rejects the
filter; `sortBy` orders documents by a sort key. -/
structure Collection (F D : Type) where
  matching : F → Except String (List D)
  sortBy : String → List D → List D
  sortBy_perm : ∀ key docs, (sortBy key docs).Perm docs

/-- `Model.countDocuments(filter)`: the number of matching documents. -/
def Collection.countDocuments {F D : Type} (db : Collection F D) (filter : F) :
    Except String Nat :=
  match db.matching filter with
  | Except.ok docs => Except.ok docs.length
  | Except.error e => Except.error e

/-- The cursor modifiers `.skip(skip).limit(limit)` on an ordered result.  A
negative or non-integer skip is rejected by the store, as is a non-integer
limit; a limit of zero means no limit and a negative limit is taken by its
absolute value. -/
def cursorWindow {D : Type} (docs : List D) : JSNum → JSNum → Except String (List D)
  | JSNum.int skip, JSNum.int limit =>
      if skip < 0 then Except.error "skip must be non-negative"
      else if limit = 0 then Except.ok (docs.drop skip.toNat)
      else Except.ok ((docs.drop skip.toNat).take limit.natAbs)
  | _, _ => Except.error "skip and limit must be integers"

/-- `Model.find(filter).sort(sort).skip(skip).limit(limit)`.  The `populate`
steps only expand references inside each document and are left out. -/
def Collection.find {F D : Type} (db : Collection F D) (filter : F) (sort : String)
    (skip limit : JSNum) : Except String (List D) :=
  match db.matching filter with
  | Except.ok docs => cursorWindow (db.sortBy sort docs) skip limit
  | Except.error e => Except.error e

/-- A collection held in memory in insertion order.  `holds` evaluates a
filter on a document; the filter is rejected when it cannot be evaluated on
some document. -/
def memoryCollection {F D : Type} (docs : List D) (holds : F → D → Option Bool) :
    Collection F D where
  matching := fun filter =>
    if docs.all (fun d => (holds filter d).isSome) then
      Except.ok (docs.filter fun d => holds filter d == some true)
    else Except.error "invalid filter"
  sortBy := fun _ l => l
  sortBy_perm := fun _ l => List.Perm.refl l

/-! ## The list handlers -/

/-- The `pagination` object of a list response. -/
structure Pagination where
  current : JSNum
  total : JSNum
  perPage : JSNum
  totalItems : Nat
  hasNext : Bool
  hasPrev : Bool
deriving DecidableEq, Repr

/-- The response of a list handler: the success body
`\x7b success: true, count, pagination, data \x7d`, or the body of the `catch`
block sent with a status code. -/
inductive Response (D : Type)
  | success (count : Nat) (pagination : Pagination) (data : List D)
  | failure (status : Nat) (message : String) (error : String)
deriving DecidableEq, Repr

/-- The pagination descriptor of a response, when it has one. -/
def Response.pagination? {D : Type} : Response D → Option Pagination
  | Response.success _ pagination _ => some pagination
  | Response.failure _ _ _ => none

/-- The data list of a response, when it has one. -/
def Response.data? {D : Type} : Response D → Option (List D)
  | Response.success _ _ data => some data
  | Response.failure _ _ _ => none

/-- The `count` field of a response, when it has one. -/
def Response.count? {D : Type} : Response D → Option Nat
  | Response.success count _ _ => some count
  | Response.failure _ _ _ => none

/-- `pageNum` of `getProducts`: `parseInt(page, 10)` where `page` is the
query parameter, or the number `1` (printed `"1"`) when it is `undefined`. -/
def productPageNum (q : ProductQuery) : JSNum := parseInt (q.page.getD "1") 10

/-- `limitNum` of `getProducts`: `parseInt(limit, 10)` with the default `10`
for an `undefined` parameter. -/
def productLimitNum (q : ProductQuery) : JSNum := parseInt (q.limit.getD "10") 10

/-- The handler `getProducts` of productController.js. -/
def getProducts {ν D : Type} (toNumber : String → ν) (db : Collection (ProductFilter ν) D)
    (q : ProductQuery) : Response D :=
  let sort := q.sort.getD "-createdAt"
  let filter := productFilter toNumber q
  let pageNum := productPageNum q
  let limitNum := productLimitNum q
  let startIndex := (pageNum.sub (JSNum.int 1)).mul limitNum
  let endIndex := pageNum.mul limitNum
  match db.countDocuments filter with
  | Except.error e => Response.failure 500 "Error al obtener productos" e
  | Except.ok total =>
      match db.find filter sort startIndex limitNum with
      | Except.error e => Response.failure 500 "Error al obtener productos" e
      | Except.ok products =>
          Response.success products.length
            { current := pageNum
              total := JSNum.ceilDiv (JSNum.int total) limitNum
              perPage := limitNum
              totalItems := total
              hasNext := endIndex.lt (JSNum.int total)
              hasPrev := startIndex.gt (JSNum.int 0) }
            products

/-- `page` of `getCategorias`: `parseInt(req.query.page) || 1`; an
`undefined` parameter is printed `"undefined"` by `parseInt`. -/
def categoriaPage (q : CategoriaQuery) : JSNum :=
  (parseInt (q.page.getD "undefined") 0).orElse (JSNum.int 1)

/-- `limit` of `getCategorias`: `parseInt(req.query.limit) || 10`. -/
def categoriaLimit (q : CategoriaQuery) : JSNum :=
  (parseInt (q.limit.getD "undefined") 0).orElse (JSNum.int 10)

/-- The handler `getCategorias` of categoriaController.js. -/
def getCategorias {D : Type} (db : Collection CategoriaFilter D) (q : CategoriaQuery) :
    Response D :=
  let page := categoriaPage q
  let limit := categoriaLimit q
  let skip := (page.sub (JSNum.int 1)).mul limit
  let query := categoriaFilter q
  match db.countDocuments query with
  | Except.error e => Response.failure 500 "Error al obtener categorías" e
  | Except.ok total =>
      match db.find query "nombre" skip limit with
      | Except.error e => Response.failure 500 "Error al obtener categorías" e
      | Except.ok categorias =>
          Response.success categorias.length
            { current := page
              total := JSNum.ceilDiv (JSNum.int total) limit
              perPage := limit
              totalItems := total
              hasNext := (page.mul limit).lt (JSNum.int total)
              hasPrev := skip.gt (JSNum.int 0) }
            categorias

/-! ## Specification vocabulary for the parameters -/

/-- A parameter is present when it was sent with a non-empty value. -/
def IsPresent (param : Option String) : Prop := ∃ s, param = some s ∧ s ≠ ""

/-- A parameter that is absent or whose text `parseInt` cannot turn into an
integer under the given radix argument. -/
def NotAnInteger (radix : ℕ) : Option String → Prop
  | none => True
  | some s => parseInt s radix = JSNum.nan

/-- Evaluation of a `precio` range on a price with the inclusive comparison
`le` of the store: `$gte` is a lower bound, `$lte` an upper bound, and a
missing key constrains nothing. -/
def PrecioRange.holds {ν : Type} (le : ν → ν → Bool) (r : PrecioRange ν) (precio : ν) : Bool :=
  (match r.gte with
    | some lo => le lo precio
    | none => true)
  && (match r.lte with
    | some hi => le precio hi
    | none => true)

/-! ## Specification of the page count -/

/-- The number of pages as the specification words it: `n` is the least
integer with `n * limit ≥ totalItems`. -/
def IsLeastPageCount (n : ℤ) (totalItems limit : ℕ) : Prop :=
  (totalItems : ℤ) ≤ n * limit ∧ ∀ m : ℤ, (totalItems : ℤ) ≤ m * limit → n ≤ m

/-! ## Specification of the escaping -/

/-- The fourteen regex metacharacters named by the specification. -/
def regexMetacharacters : List Char :=
  ['.', '*', '+', '?', '^', '$', '\x7b', '\x7d', '(', ')', '|', '[', ']', '\\']

/-- The term with one backslash inserted before every metacharacter, all other
characters kept in place: the escaping as the specification words it. -/
def insertBackslashes (s : String) : String :=
  String.mk (s.toList.flatMap fun c => if c ∈ regexMetacharacters then ['\\', c] else [c])

/-! ## Responses of the write and authentication handlers -/

/-- A value inside a JSON object of a response: a string, a boolean, `null`,
or an object of strings (a populated reference). -/
inductive JsonAtom
  | str (s : String)
  | bool (b : Bool)
  | null
  | object (fields : List (String × String))
deriving DecidableEq, Repr

/-- A JSON object: its keys with their values, in order. -/
abbrev JsonObject := List (String × JsonAtom)

/-- The keys of a JSON object. -/
def JsonObject.keys (o : JsonObject) : List String := o.map Prod.fst

/-- The `data` member of a response body. -/
inductive Payload
  | null
  | object (o : JsonObject)
deriving DecidableEq, Repr

/-- What a handler sends: the status code given to `res.status` (200 when
the handler calls `res.json` directly) and the members of the JSON body; an
absent member is `none` (`errors`: the empty list). -/
structure HttpResponse where
  status : Nat
  success : Bool
  message : Option String := none
  data : Option Payload := none
  error : Option String := none
  errors : List String := []
deriving DecidableEq, Repr

/-! ## Documents and the store -/

/-- A user document; timestamps and the version key are left out. -/
structure UserDoc where
  _id : String
  username : String
  email : String
  password : String
deriving DecidableEq, Repr

/-- A category document; timestamps and the version key are left out. -/
structure CategoriaDoc where
  _id : String
  nombre : String
  descripcion : Option String := none
  icono : String := "📦"
  activo : Bool := true
  createdBy : String
deriving DecidableEq, Repr

/-- A product document; `precio` and `stock` keep the text of the number
received.  Timestamps and the version key are left out. -/
structure ProductDoc where
  _id : String
  nombre : String
  descripcion : String
  precio : String
  stock : String
  categoria : String
  imagen : Option String := none
  activo : Bool := true
  createdBy : String
deriving DecidableEq, Repr

/-- The three collections, each in insertion order. -/
structure Store where
  users : List UserDoc := []
  categorias : List CategoriaDoc := []
  productos : List ProductDoc := []
deriving DecidableEq, Repr

/-- The serialisation and signature scheme of the `jsonwebtoken` package:
`encode secret claims` is the compact token, `decode secret token` gives the
claims of a well-formed token whose signature is valid under the secret. -/
structure JwtCodec (C : Type) where
  encode : String → C → String
  decode : String → String → Option C

/-- The contract of the token scheme: a token decodes, under the secret that
signed it, to the claims it was made from; and a compact token is a non-empty
text without spaces (base64url characters and dots). -/
structure JwtCodec.Lawful {C : Type} (codec : JwtCodec C) : Prop where
  decode_encode : ∀ secret claims, codec.decode secret (codec.encode secret claims) = some claims
  encode_no_space : ∀ secret claims, ' ' ∉ (codec.encode secret claims).toList
  encode_ne_empty : ∀ secret claims, (codec.encode secret claims).toList ≠ []

/-- The payload of a token: the `id` member written by `generateToken` (absent
in a payload signed without it), the issue time and the expiry time, in
seconds. -/
structure Claims where
  id : Option String
  iat : Nat
  exp : Option Nat
deriving DecidableEq, Repr

/-- What the handlers take from their environment: the libraries and the
process configuration.
* `validId`: the texts Mongoose casts to an ObjectId;
* `castNumber`: the cast of a `Number` path, `none` when it fails;
* `emailPattern`: the `match` regex of the user schema;
* `uniqueIndexes`: whether the store enforces the `unique` indexes;
* `hash`, `compare`: `bcrypt.hash(password, salt)` and
  `bcrypt.compare(candidate, stored)`;
* `codec`, `secret`: the token scheme and `process.env.JWT_SECRET`. -/
structure Env where
  validId : String → Bool
  castNumber : String → Option ℚ
  emailPattern : String → Bool
  uniqueIndexes : Bool
  hash : String → String → String
  compare : String → String → Bool
  codec : JwtCodec Claims
  secret : String

/-! ## Tokens -/

/-- The errors `jwt.verify` throws, told apart by their `name`. -/
inductive JwtError
  | jsonWebTokenError
  | tokenExpiredError
deriving DecidableEq, Repr

/-- The `name` property of a token error. -/
def JwtError.name : JwtError → String
  | JwtError.jsonWebTokenError => "JsonWebTokenError"
  | JwtError.tokenExpiredError => "TokenExpiredError"

/-- Milliseconds of a time unit of the `ms` package (short forms; an absent
unit is milliseconds). -/
def unitMilliseconds (unit : String) : Option Nat :=
  if unit = "" ∨ unit = "ms" then some 1
  else if unit = "s" then some 1000
  else if unit = "m" then some 60000
  else if unit = "h" then some 3600000
  else if unit = "d" then some 86400000
  else if unit = "w" then some 604800000
  else if unit = "y" then some 31557600000
  else none

/-- The `ms` package on a text made of a whole number followed by a short
unit, such as `30d`: the duration in milliseconds.  Other spellings are not
modelled (`none`). -/
def msParse (text : String) : Option Nat :=
  let ds := takeDigits 10 text.toList
  if ds = [] then none
  else (unitMilliseconds (String.mk (text.toList.drop ds.length))).map fun u =>
    digitsValue 10 ds * u

/-- `jwt.sign(\x7b id \x7d, secret, \x7b expiresIn \x7d)` at clock time `now` (seconds):
the payload receives `iat = now` and `exp = floor(now + ms(expiresIn) / 1000)`.
An `expiresIn` that `ms` does not read makes the call throw. -/
def jwtSign (env : Env) (id : String) (expiresIn : String) (now : Nat) : Except String String :=
  match msParse expiresIn with
  | none => Except.error "invalid expiresIn option"
  | some ms =>
      Except.ok (env.codec.encode env.secret
        { id := some id, iat := now, exp := some (now + ms / 1000) })

/-- The function `generateToken` of middleware/auth.js. -/
def generateToken (env : Env) (id : String) (now : Nat) : Except String String :=
  jwtSign env id "30d" now

/-- `jwt.verify(token, secret)` at clock time `now` (seconds).  A missing or
empty token, a malformed token and a bad signature throw
`JsonWebTokenError`; a token whose `exp` is not after `now` throws
`TokenExpiredError`; otherwise the payload is returned. -/
def jwtVerify (env : Env) (token : Option String) (now : Nat) : Except JwtError Claims :=
  if truthy token then
    match token.bind (env.codec.decode env.secret) with
    | none => Except.error JwtError.jsonWebTokenError
    | some claims =>
        match claims.exp with
        | some exp =>
            if exp ≤ now then Except.error JwtError.tokenExpiredError else Except.ok claims
        | none => Except.ok claims
  else Except.error JwtError.jsonWebTokenError

/-! ## The user collection -/

/-- A user document as a JSON object. -/
def UserDoc.toJson (u : UserDoc) : JsonObject :=
  [("_id", JsonAtom.str u._id), ("username", JsonAtom.str u.username),
    ("email", JsonAtom.str u.email), ("password", JsonAtom.str u.password)]

/-- The projection `.select('-' + key)`: the object without that key. -/
def selectWithout (key : String) (o : JsonObject) : JsonObject :=
  o.filter fun kv => kv.1 != key

/-- The string value of a key of a JSON object. -/
def JsonObject.getStr (o : JsonObject) (key : String) : Option String :=
  match o.find? fun kv => kv.1 == key with
  | some (_, JsonAtom.str s) => some s
  | _ => none

/-- `User.findById(id)`: `null` for an absent id, a cast error for a text
that is not an ObjectId, else the user with that `_id`. -/
def findUserById (env : Env) (users : List UserDoc) : Option String → Except String (Option UserDoc)
  | none => Except.ok none
  | some id =>
      if env.validId id then Except.ok (users.find? fun u => u._id == id)
      else Except.error "CastError"

/-! ## The middleware `protect` -/

/-- What a middleware does with a request: it sends a response, or it calls
`next()` after attaching `req.user`. -/
inductive MiddlewareEffect
  | respond (response : HttpResponse)
  | next (user : JsonObject)
deriving DecidableEq, Repr

/-- `str.split(' ')`: the segments between single spaces. -/
def splitSpaces : List Char → List (List Char)
  | [] => [[]]
  | c :: rest =>
      if c = ' ' then [] :: splitSpaces rest
      else
        match splitSpaces rest with
        | [] => [[c]]
        | seg :: segs => (c :: seg) :: segs

/-- The expression `authorization.split(' ')[1]`. -/
def bearerToken (authorization : String) : Option String :=
  ((splitSpaces authorization.toList)[1]?).map String.mk

/-- A 401 response with a message. -/
def unauthorized (message : String) : HttpResponse :=
  { status := 401, success := false, message := some message }

/-- The response the `catch` block of `protect` sends for an error with the
given `name`. -/
def protectCatch (name : String) : HttpResponse :=
  if name = "JsonWebTokenError" then unauthorized "Token no válido"
  else if name = "TokenExpiredError" then unauthorized "Token expirado"
  else unauthorized "No autorizado, token inválido"

/-- The middleware `protect` of middleware/auth.js, as the list of its
effects in order.  Every branch of the first `if` but the call of `next`
returns; after `next()` the final `if (!token)` is still evaluated. -/
def protect (env : Env) (store : Store) (authorization : Option String) (now : Nat) :
    List MiddlewareEffect :=
  if truthy authorization && "Bearer".toList.isPrefixOf (authorization.getD "").toList then
    let token := bearerToken (authorization.getD "")
    match jwtVerify env token now with
    | Except.error e => [MiddlewareEffect.respond (protectCatch e.name)]
    | Except.ok decoded =>
        match findUserById env store.users decoded.id with
        | Except.error name => [MiddlewareEffect.respond (protectCatch name)]
        | Except.ok none => [MiddlewareEffect.respond (unauthorized "Usuario no encontrado")]
        | Except.ok (some user) =>
            MiddlewareEffect.next (selectWithout "password" user.toJson)
              :: (if truthy token then []
                  else [MiddlewareEffect.respond (unauthorized "No autorizado, no hay token")])
  else [MiddlewareEffect.respond (unauthorized "No autorizado, no hay token")]

/-! ## Registration, login, profile

The handlers receive `errors`, the array of `validationResult(req)`, and the
body left by the sanitizers of the route (`trim`, `normalizeEmail`); on such
values the `trim` and `lowercase` setters of the schemas change nothing and
are not modelled. -/

/-- The response to a request that failed validation. -/
def validationFailure (errors : List String) : HttpResponse :=
  { status := 400, success := false, message := some "Errores de validación", errors := errors }

/-- The response of a `catch` block: status 500, a fixed message and the
message of the error caught. -/
def serverError (message error : String) : HttpResponse :=
  { status := 500, success := false, message := some message, error := some error }

/-- The `length` of a JavaScript string, in UTF-16 code units. -/
def jsLength (s : String) : Nat :=
  (s.toList.map fun c => if c.toNat < 0x10000 then 1 else 2).sum

/-- The body of `POST /api/auth/register`. -/
structure RegisterBody where
  username : String
  email : String
  password : String
deriving DecidableEq, Repr

/-- The body of `POST /api/auth/login`. -/
structure LoginBody where
  email : String
  password : String
deriving DecidableEq, Repr

/-- Validation of a new user against the schema of models/User.js, run on
the plaintext password before the `pre('save')` hook. -/
def userSchemaValid (env : Env) (body : RegisterBody) : Bool :=
  body.username != "" && decide (3 ≤ jsLength body.username)
    && decide (jsLength body.username ≤ 50)
    && body.email != "" && env.emailPattern body.email
    && body.password != "" && decide (6 ≤ jsLength body.password)

/-- The `data` object of a successful registration or login. -/
def authData (user : UserDoc) (token : String) : JsonObject :=
  [("_id", JsonAtom.str user._id), ("username", JsonAtom.str user.username),
    ("email", JsonAtom.str user.email), ("token", JsonAtom.str token)]

/-- The handler `register` of authController.js: the response and the store
afterwards.  `newId` is the `_id` given to the new document, `salt` the
result of `bcrypt.genSalt(10)`, `now` the clock in seconds. -/
def register (env : Env) (store : Store) (errors : List String) (body : RegisterBody)
    (newId salt : String) (now : Nat) : HttpResponse × Store :=
  if errors ≠ [] then (validationFailure errors, store)
  else
    match store.users.find? fun u => u.email == body.email || u.username == body.username with
    | some userExists =>
        ({ status := 400, success := false,
           message := some (if userExists.email = body.email then "El email ya está registrado"
             else "El nombre de usuario ya está en uso") }, store)
    | none =>
        if userSchemaValid env body then
          let user : UserDoc :=
            { _id := newId, username := body.username, email := body.email,
              password := env.hash body.password salt }
          let saved : Store := { store with users := store.users ++ [user] }
          match generateToken env user._id now with
          | Except.error e => (serverError "Error al registrar usuario" e, saved)
          | Except.ok token =>
              ({ status := 201, success := true,
                 message := some "Usuario registrado exitosamente",
                 data := some (Payload.object (authData user token)) }, saved)
        else (serverError "Error al registrar usuario" "User validation failed", store)

/-- The handler `login` of authController.js. -/
def login (env : Env) (store : Store) (errors : List String) (body : LoginBody) (now : Nat) :
    HttpResponse :=
  if errors ≠ [] then validationFailure errors
  else
    match store.users.find? fun u => u.email == body.email with
    | none => { status := 401, success := false, message := some "Credenciales inválidas" }
    | some user =>
        if env.compare body.password user.password then
          match generateToken env user._id now with
          | Except.error e => serverError "Error al iniciar sesión" e
          | Except.ok token =>
              { status := 200, success := true, message := some "Login exitoso",
                data := some (Payload.object (authData user token)) }
        else { status := 401, success := false, message := some "Credenciales inválidas" }

/-- The handler `getProfile` of authController.js; `reqUser` is the `req.user`
attached by `protect`. -/
def getProfile (env : Env) (store : Store) (reqUser : JsonObject) : HttpResponse :=
  match findUserById env store.users (reqUser.getStr "_id") with
  | Except.error e => serverError "Error al obtener perfil" e
  | Except.ok none => { status := 200, success := true, data := some Payload.null }
  | Except.ok (some user) =>
      { status := 200, success := true,
        data := some (Payload.object (selectWithout "password" user.toJson)) }

/-! ## Category and product writes -/

/-- A 404 response with a message. -/
def notFound (message : String) : HttpResponse :=
  { status := 404, success := false, message := some message }

/-- A 400 response with a message. -/
def badRequest (message : String) : HttpResponse :=
  { status := 400, success := false, message := some message }

/-- The body of a category write; an absent member is `none`.  `createdBy`
stands for a member the client adds and no handler reads. -/
structure CategoriaBody where
  nombre : Option String := none
  descripcion : Option String := none
  icono : Option String := none
  activo : Option Bool := none
  createdBy : Option String := none
deriving DecidableEq, Repr

/-- The body of a product write; an absent member is `none`.  `createdBy`
stands for a member the client adds and no handler reads. -/
structure ProductBody where
  nombre : Option String := none
  descripcion : Option String := none
  precio : Option String := none
  stock : Option String := none
  categoria : Option String := none
  imagen : Option String := none
  activo : Option Bool := none
  createdBy : Option String := none
deriving DecidableEq, Repr

/-- `Categoria.findById(id)`: a cast error for a text that is not an
ObjectId, else the category with that `_id`, if any. -/
def findCategoriaById (env : Env) (categorias : List CategoriaDoc) (id : String) :
    Except String (Option CategoriaDoc) :=
  if env.validId id then Except.ok (categorias.find? fun c => c._id == id)
  else Except.error "CastError"

/-- `Categoria.findOne(\x7b nombre \x7d)`; an absent name finds nothing. -/
def findCategoriaByNombre (categorias : List CategoriaDoc) : Option String → Option CategoriaDoc
  | none => none
  | some nombre => categorias.find? fun c => c.nombre == nombre

/-- The validators of the `nombre` path of the category schema: required,
at least 2 and at most 50 code units. -/
def categoriaNombreValid (nombre : String) : Bool :=
  nombre != "" && decide (2 ≤ jsLength nombre) && decide (jsLength nombre ≤ 50)

/-- The validator of the `descripcion` path of the category schema. -/
def categoriaDescripcionValid : Option String → Bool
  | none => true
  | some d => decide (jsLength d ≤ 200)

/-- A reference populated with the `username` and `email` of the user. -/
def populateUser (users : List UserDoc) (id : String) : JsonAtom :=
  match users.find? fun u => u._id == id with
  | some u => JsonAtom.object [("_id", u._id), ("username", u.username), ("email", u.email)]
  | none => JsonAtom.null

/-- A reference populated with the `nombre` and `icono` of the category. -/
def populateCategoria (categorias : List CategoriaDoc) (id : String) : JsonAtom :=
  match categorias.find? fun c => c._id == id with
  | some c => JsonAtom.object [("_id", c._id), ("nombre", c.nombre), ("icono", c.icono)]
  | none => JsonAtom.null

/-- A category document as sent in a response, `createdBy` populated. -/
def CategoriaDoc.toJson (users : List UserDoc) (c : CategoriaDoc) : JsonObject :=
  [("_id", JsonAtom.str c._id), ("nombre", JsonAtom.str c.nombre)]
    ++ (match c.descripcion with
        | some d => [("descripcion", JsonAtom.str d)]
        | none => [])
    ++ [("icono", JsonAtom.str c.icono), ("activo", JsonAtom.bool c.activo),
        ("createdBy", populateUser users c.createdBy)]

/-- A product document as sent in a response, `createdBy` and `categoria`
populated. -/
def ProductDoc.toJson (store : Store) (p : ProductDoc) : JsonObject :=
  [("_id", JsonAtom.str p._id), ("nombre", JsonAtom.str p.nombre),
    ("descripcion", JsonAtom.str p.descripcion), ("precio", JsonAtom.str p.precio),
    ("stock", JsonAtom.str p.stock), ("categoria", populateCategoria store.categorias p.categoria)]
    ++ (match p.imagen with
        | some i => [("imagen", JsonAtom.str i)]
        | none => [])
    ++ [("activo", JsonAtom.bool p.activo), ("createdBy", populateUser store.users p.createdBy)]

/-- The handler `createCategoria`: the response and the store afterwards.
`userId` is `req.user._id`, `newId` the `_id` given to the new document. -/
def createCategoria (env : Env) (store : Store) (errors : List String) (body : CategoriaBody)
    (userId newId : String) : HttpResponse × Store :=
  if errors ≠ [] then (validationFailure errors, store)
  else
    match findCategoriaByNombre store.categorias body.nombre with
    | some _ => (badRequest "Ya existe una categoría con ese nombre", store)
    | none =>
        match body.nombre with
        | none => (serverError "Error al crear categoría" "Categoria validation failed", store)
        | some nombre =>
            if categoriaNombreValid nombre && categoriaDescripcionValid body.descripcion then
              if env.uniqueIndexes && store.categorias.any (fun c => c.nombre == nombre) then
                (serverError "Error al crear categoría" "E11000 duplicate key error", store)
              else
                let categoria : CategoriaDoc :=
                  { _id := newId, nombre := nombre, descripcion := body.descripcion,
                    icono := body.icono.getD "📦", createdBy := userId }
                ({ status := 201, success := true,
                   message := some "Categoría creada exitosamente",
                   data := some (Payload.object (categoria.toJson store.users)) },
                 { store with categorias := store.categorias ++ [categoria] })
            else (serverError "Error al crear categoría" "Categoria validation failed", store)

/-- The list with its first element satisfying `p` replaced: the effect of an
update of one document on a collection. -/
def replaceFirst {α : Type} (p : α → Bool) (new : α) : List α → List α
  | [] => []
  | x :: rest => if p x then new :: rest else x :: replaceFirst p new rest

/-- The assignments of `updateCategoria`: each member of the body that is not
`undefined` replaces the field. -/
def CategoriaDoc.assign (c : CategoriaDoc) (body : CategoriaBody) : CategoriaDoc :=
  { c with
    nombre := body.nombre.getD c.nombre
    descripcion := match body.descripcion with
      | some d => some d
      | none => c.descripcion
    icono := body.icono.getD c.icono
    activo := body.activo.getD c.activo }

/-- The handler `updateCategoria`: the response and the store afterwards.
`save()` validates the paths whose value changed and the store applies its
unique index to a changed `nombre`. -/
def updateCategoria (env : Env) (store : Store) (errors : List String) (id : String)
    (body : CategoriaBody) : HttpResponse × Store :=
  if errors ≠ [] then (validationFailure errors, store)
  else
    match findCategoriaById env store.categorias id with
    | Except.error _ => (notFound "Categoría no encontrada", store)
    | Except.ok none => (notFound "Categoría no encontrada", store)
    | Except.ok (some categoria) =>
        if truthy body.nombre && body.nombre != some categoria.nombre
            && (findCategoriaByNombre store.categorias body.nombre).isSome then
          (badRequest "Ya existe una categoría con ese nombre", store)
        else
          let updated := categoria.assign body
          if (updated.nombre == categoria.nombre || categoriaNombreValid updated.nombre)
              && (updated.descripcion == categoria.descripcion
                || categoriaDescripcionValid updated.descripcion) then
            if env.uniqueIndexes && updated.nombre != categoria.nombre
                && store.categorias.any (fun c => c.nombre == updated.nombre) then
              (serverError "Error al actualizar categoría" "E11000 duplicate key error", store)
            else
              let saved : Store :=
                { store with
                  categorias :=
                    replaceFirst (fun c => c._id == categoria._id) updated store.categorias }
              ({ status := 200, success := true,
                 message := some "Categoría actualizada exitosamente",
                 data := some (Payload.object (updated.toJson store.users)) }, saved)
          else (serverError "Error al actualizar categoría" "Categoria validation failed", store)

/-- The message of `deleteCategoria` for a category that products refer to. -/
def deleteBlockedMessage (productosAsociados : Nat) : String :=
  "No se puede eliminar la categoría porque tiene " ++ toString productosAsociados
    ++ " producto(s) asociado(s). Primero elimina o reasigna los productos."

/-- The handler `deleteCategoria`: the response and the store afterwards. -/
def deleteCategoria (env : Env) (store : Store) (id : String) : HttpResponse × Store :=
  match findCategoriaById env store.categorias id with
  | Except.error _ => (notFound "Categoría no encontrada", store)
  | Except.ok none => (notFound "Categoría no encontrada", store)
  | Except.ok (some categoria) =>
      let productosAsociados := (store.productos.filter fun p => p.categoria == id).length
      if productosAsociados > 0 then (badRequest (deleteBlockedMessage productosAsociados), store)
      else
        ({ status := 200, success := true, message := some "Categoría eliminada exitosamente",
           data := some (Payload.object [("id", JsonAtom.str id)]) },
         { store with categorias := store.categorias.eraseP fun c => c._id == categoria._id })

/-- `String.prototype.trim`. -/
def jsTrim (s : String) : String :=
  String.mk ((s.toList.dropWhile isStrWhiteSpace).reverse.dropWhile isStrWhiteSpace).reverse

/-- A required string path with length bounds, in code units. -/
def requiredLength (min max : Nat) : Option String → Bool
  | none => false
  | some s => s != "" && decide (min ≤ jsLength s) && decide (jsLength s ≤ max)

/-- A `Number` path with `min: 0`: the text casts to a number that is not
negative. -/
def nonNegativeNumber (env : Env) (text : String) : Bool :=
  match env.castNumber text with
  | some v => decide (0 ≤ v)
  | none => false

/-- Validation of a new product against the schema of models/Product.js:
`nombre`, `descripcion`, `precio` and `categoria` are required, `stock`
defaults to `0`.  The empty text is no value of the required `categoria`
path. -/
def productSchemaValid (env : Env) (body : ProductBody) : Bool :=
  requiredLength 2 100 body.nombre && requiredLength 10 500 body.descripcion
    && (match body.precio with
        | some precio => nonNegativeNumber env precio
        | none => false)
    && (match body.stock with
        | some stock => nonNegativeNumber env stock
        | none => true)
    && (match body.categoria with
        | some categoria => categoria != "" && env.validId categoria
        | none => false)

/-- Lines 171 to 197 of productController.js: the document is built from the
body, `imagen` kept only when it is not blank, validated and inserted. -/
def insertProduct (env : Env) (store : Store) (body : ProductBody) (userId newId : String) :
    HttpResponse × Store :=
  if productSchemaValid env body then
    let product : ProductDoc :=
      { _id := newId
        nombre := body.nombre.getD ""
        descripcion := body.descripcion.getD ""
        precio := body.precio.getD ""
        stock := body.stock.getD "0"
        categoria := body.categoria.getD ""
        imagen := if truthy body.imagen && jsTrim (body.imagen.getD "") != "" then body.imagen
          else none
        createdBy := userId }
    let saved : Store := { store with productos := store.productos ++ [product] }
    ({ status := 201, success := true, message := some "Producto creado exitosamente",
       data := some (Payload.object (product.toJson saved)) }, saved)
  else (serverError "Error al crear producto" "Product validation failed", store)

/-- The handler `createProduct`: the response and the store afterwards.
`userId` is `req.user._id`, `newId` the `_id` given to the new document. -/
def createProduct (env : Env) (store : Store) (errors : List String) (body : ProductBody)
    (userId newId : String) : HttpResponse × Store :=
  if errors ≠ [] then (validationFailure errors, store)
  else if truthy body.categoria then
    match findCategoriaById env store.categorias (body.categoria.getD "") with
    | Except.error e => (serverError "Error al crear producto" e, store)
    | Except.ok none => (badRequest "La categoría seleccionada no existe", store)
    | Except.ok (some _) => insertProduct env store body userId newId
  else insertProduct env store body userId newId

/-! ## Sequences of category writes -/

/-- A validated write request on categories, with what the handler takes from
the request and from the document factory. -/
inductive CategoriaWrite
  | create (body : CategoriaBody) (userId newId : String)
  | update (id : String) (body : CategoriaBody)
  | delete (id : String)
deriving DecidableEq, Repr

/-- One request handled: the handler runs on the store with an empty
validation result. -/
def CategoriaWrite.handle (env : Env) (store : Store) : CategoriaWrite → HttpResponse × Store
  | CategoriaWrite.create body userId newId => createCategoria env store [] body userId newId
  | CategoriaWrite.update id body => updateCategoria env store [] id body
  | CategoriaWrite.delete id => deleteCategoria env store id

/-- Requests handled one at a time, each on the store left by the previous
one. -/
def runCategoriaWrites (env : Env) : Store → List CategoriaWrite → Store
  | store, [] => store
  | store, request :: rest => runCategoriaWrites env (request.handle env store).2 rest

/-- All `nombre` values of the categories are pairwise distinct. -/
def NombresDistinct (store : Store) : Prop := (store.categorias.map fun c => c.nombre).Nodup

/-! ## A reference token scheme

A small scheme that meets the contract of `JwtCodec.Lawful`, used to run the
handlers on concrete requests: the secret and the claims are written as a
list of numbers, each number in unary and closed by a dot. -/

/-- Unary rendering of a list of numbers. -/
def unaryEncode : List Nat → List Char
  | [] => []
  | n :: rest => List.replicate n 'a' ++ '.' :: unaryEncode rest

/-- Reading of a unary rendering; `acc` is the length of the run being read. -/
def unaryDecode (acc : Nat) : List Char → List Nat
  | [] => []
  | c :: rest => if c = '.' then acc :: unaryDecode 0 rest else unaryDecode (acc + 1) rest

/-- The character codes of a text. -/
def charCodes (text : String) : List Nat := text.toList.map Char.toNat

/-- An optional number as a number: `0` when absent. -/
def optionCode : Option Nat → Nat
  | none => 0
  | some n => n + 1

/-- Inverse of `optionCode`. -/
def optionOfCode : Nat → Option Nat
  | 0 => none
  | n + 1 => some n

/-- The numbers of a payload: the optional `id` with its length, `iat`, `exp`. -/
def payloadNumbers (claims : Claims) : List Nat :=
  (match claims.id with
    | none => [0]
    | some id => (id.toList.length + 1) :: charCodes id)
  ++ [claims.iat, optionCode claims.exp]

/-- Inverse of `payloadNumbers`. -/
def readPayload : List Nat → Option Claims
  | [] => none
  | 0 :: rest =>
      match rest with
      | [iat, e] => some { id := none, iat := iat, exp := optionOfCode e }
      | _ => none
  | (k + 1) :: rest =>
      match rest.drop k with
      | [iat, e] =>
          some { id := some (String.mk ((rest.take k).map Char.ofNat)), iat := iat,
                 exp := optionOfCode e }
      | _ => none

/-- The numbers of a token: the secret with its length, then the payload. -/
def tokenNumbers (secret : String) (claims : Claims) : List Nat :=
  (secret.toList.length :: charCodes secret) ++ payloadNumbers claims

/-- Inverse of `tokenNumbers` under a secret: the payload when the token
starts with that secret. -/
def readToken (secret : String) : List Nat → Option Claims
  | [] => none
  | n :: rest =>
      if n = secret.toList.length ∧ rest.take n = charCodes secret then readPayload (rest.drop n)
      else none

/-- The reference token scheme. -/
def referenceCodec : JwtCodec Claims where
  encode := fun secret claims => String.mk (unaryEncode (tokenNumbers secret claims))
  decode := fun secret token => readToken secret (unaryDecode 0 token.toList)

/-! ## Reference environment

Stand-ins for the libraries, used to run the handlers on concrete requests:
an ObjectId is a text of 24 hexadecimal digits, a number is a run of decimal
digits, the stored password is the salt, a dollar sign and the password. -/

/-- A text of 24 hexadecimal digits. -/
def isHex24 (s : String) : Bool :=
  s.toList.length == 24 && s.toList.all fun c => (digitValue c).any fun d => d < 16

/-- Reading of a run of decimal digits as a number. -/
def decimalNumber (s : String) : Option ℚ :=
  if s.toList ≠ [] ∧ (takeDigits 10 s.toList).length = s.toList.length then
    some (digitsValue 10 (takeDigits 10 s.toList) : ℕ)
  else none

/-- The reference environment. -/
def referenceEnv : Env where
  validId := isHex24
  castNumber := decimalNumber
  emailPattern := fun email => email.toList.contains '@'
  uniqueIndexes := true
  hash := fun password salt => salt ++ "$" ++ password
  compare := fun candidate stored =>
    ((stored.toList.dropWhile fun c => c != '$').drop 1) == candidate.toList
  codec := referenceCodec
  secret := "s"

/-! ## Specification vocabulary for the middleware -/

/-- The text `token` stands in `text` after the first space and runs to the
next space or to the end. -/
def IsSecondSegment (text token : List Char) : Prop :=
  ∃ pre rest, text = pre ++ ' ' :: token ++ rest ∧ ' ' ∉ pre ∧ ' ' ∉ token
    ∧ (rest = [] ∨ ∃ r, rest = ' ' :: r)

/-- The token verifies against the signing secret at time `now` with the
payload `claims`: it is not empty, the token scheme reads it under the secret
as `claims`, and its expiry time, if it has one, is after `now`. -/
def Verifies (env : Env) (token : String) (now : Nat) (claims : Claims) : Prop :=
  token ≠ "" ∧ env.codec.decode env.secret token = some claims
    ∧ ∀ exp, claims.exp = some exp → now < exp

/-- The id resolves to the existing user `user`: it is a well-formed id and
`user` is the user of the collection that has it as `_id` (the first one,
should several have it). -/
def ResolvesTo (env : Env) (users : List UserDoc) (id : String) (user : UserDoc) : Prop :=
  env.validId id = true ∧ user._id = id
    ∧ ∃ before after, users = before ++ user :: after ∧ ∀ u ∈ before, u._id ≠ id

/-- The request is authorized as `user`: the Authorization header is present
and starts with `Bearer`, the token after its first space verifies at time
`now`, and the id of its payload resolves to `user`, a user of the store. -/
def Authorized (env : Env) (store : Store) (authorization : Option String) (now : Nat)
    (user : UserDoc) : Prop :=
  ∃ header token claims id,
    authorization = some header ∧ "Bearer".toList <+: header.toList
      ∧ IsSecondSegment header.toList token.toList
      ∧ Verifies env token now claims
      ∧ claims.id = some id ∧ ResolvesTo env store.users id user

/-! ## The pagination control of the frontend -/

/-- An entry of the array built by `getPageNumbers`: a page number or the
marker `'...'`. -/
inductive PageItem
  | page (n : ℤ)
  | ellipsis
deriving DecidableEq, Repr

/-- The function `getPageNumbers` of components/Pagination.jsx, for the
`current` and `total` of the descriptor. -/
def getPageNumbers (current total : ℤ) : List PageItem :=
  if total ≤ 5 then (List.range total.toNat).map fun i => PageItem.page ((i : ℤ) + 1)
  else if current ≤ 3 then
    [PageItem.page 1, PageItem.page 2, PageItem.page 3, PageItem.page 4, PageItem.ellipsis,
      PageItem.page total]
  else if current ≥ total - 2 then
    [PageItem.page 1, PageItem.ellipsis, PageItem.page (total - 3), PageItem.page (total - 2),
      PageItem.page (total - 1), PageItem.page total]
  else
    [PageItem.page 1, PageItem.ellipsis, PageItem.page (current - 1), PageItem.page current,
      PageItem.page (current + 1), PageItem.ellipsis, PageItem.page total]

/-- The page numbers among the entries, in order. -/
def pageNumbers : List PageItem → List ℤ
  | [] => []
  | PageItem.page n :: rest => n :: pageNumbers rest
  | PageItem.ellipsis :: rest => pageNumbers rest

/-- The entries that follow the page number `a`: every marker among them
stands between two page numbers that differ by at least 2. -/
def MarkersAfter (a : ℤ) : List PageItem → Prop
  | [] => True
  | PageItem.page b :: rest => MarkersAfter b rest
  | PageItem.ellipsis :: PageItem.page b :: rest => a + 2 ≤ b ∧ MarkersAfter b rest
  | PageItem.ellipsis :: _ => False

/-- Every marker stands between two page numbers that differ by at least 2. -/
def MarkersHidePages : List PageItem → Prop
  | [] => True
  | PageItem.page a :: rest => MarkersAfter a rest
  | PageItem.ellipsis :: _ => False

/-- The `disabled` attribute of the "Siguiente" button: `current === total`. -/
def nextDisabled (pagination : Pagination) : Bool :=
  match pagination.current, pagination.total with
  | JSNum.nan, _ => false
  | _, JSNum.nan => false
  | a, b => a == b

/-- The `disabled` attribute of the "Anterior" button: `current === 1`. -/
def prevDisabled (pagination : Pagination) : Bool := pagination.current == JSNum.int 1

/-! ## Specification vocabulary for the descriptor flags -/

/-- The flags of a descriptor for page `p`, limit `l` and `totalItems`
matching documents agree with the page count: `hasNext` says that `p` is
before the last page, `hasPrev` that `p` is after the first, and the buttons
of the frontend are disabled accordingly. -/
def FlagsAgree (pagination : Pagination) (p l totalItems : ℕ) : Prop :=
  pagination.current = JSNum.int p
    ∧ pagination.total = JSNum.int ⌈(totalItems : ℚ) / (l : ℚ)⌉
    ∧ (pagination.hasNext = true ↔ (p : ℤ) < ⌈(totalItems : ℚ) / (l : ℚ)⌉)
    ∧ (pagination.hasNext = true ↔ p * l < totalItems)
    ∧ (pagination.hasPrev = true ↔ 1 < p)
    ∧ (nextDisabled pagination = true → pagination.hasNext = false)
    ∧ ((p : ℤ) ≤ ⌈(totalItems : ℚ) / (l : ℚ)⌉ →
        (nextDisabled pagination = true ↔ pagination.hasNext = false))
    ∧ (prevDisabled pagination = true ↔ pagination.hasPrev = false)

/-! ## Product updates and deletions

Ids are held in the text an ObjectId prints, so a reference and the `_id` it
refers to are the same text. -/

/-- `Product.findById(id)`: a cast error for a text that is not an ObjectId,
else the product with that `_id`, if any. -/
def findProductById (env : Env) (productos : List ProductDoc) (id : String) :
    Except String (Option ProductDoc) :=
  if env.validId id then Except.ok (productos.find? fun p => p._id == id)
  else Except.error "CastError"

/-- Lines 235 to 243 of productController.js: when `categoria` is not
`undefined`, `Categoria.findById(categoria)` must find a category.  The result
is whether the handler goes on, or the cast error thrown. -/
def categoriaExiste (env : Env) (store : Store) : Option String → Except String Bool
  | none => Except.ok true
  | some categoria =>
      match findCategoriaById env store.categorias categoria with
      | Except.error e => Except.error e
      | Except.ok found => Except.ok found.isSome

/-- The assignments of `updateProduct`: each member of the body that is not
`undefined` replaces the field; an `imagen` that is empty or blank leaves the
field `null`. -/
def ProductDoc.assign (p : ProductDoc) (body : ProductBody) : ProductDoc :=
  { p with
    nombre := body.nombre.getD p.nombre
    descripcion := body.descripcion.getD p.descripcion
    precio := body.precio.getD p.precio
    stock := body.stock.getD p.stock
    categoria := body.categoria.getD p.categoria
    imagen := match body.imagen with
      | some imagen => if truthy (some imagen) && jsTrim imagen != "" then some imagen else none
      | none => p.imagen
    activo := body.activo.getD p.activo }

/-- Validation run by `product.save()` on the paths whose value changed,
against the schema of models/Product.js. -/
def productSaveValid (env : Env) (old new : ProductDoc) : Bool :=
  (new.nombre == old.nombre || requiredLength 2 100 (some new.nombre))
    && (new.descripcion == old.descripcion || requiredLength 10 500 (some new.descripcion))
    && (new.precio == old.precio || nonNegativeNumber env new.precio)
    && (new.stock == old.stock || nonNegativeNumber env new.stock)
    && (new.categoria == old.categoria || (new.categoria != "" && env.validId new.categoria))

/-- The handler `updateProduct`: the response and the store afterwards.  A
cast error has `kind` `ObjectId`, which the `catch` block answers with 404. -/
def updateProduct (env : Env) (store : Store) (errors : List String) (id : String)
    (body : ProductBody) : HttpResponse × Store :=
  if errors ≠ [] then (validationFailure errors, store)
  else
    match findProductById env store.productos id with
    | Except.error _ => (notFound "Producto no encontrado", store)
    | Except.ok none => (notFound "Producto no encontrado", store)
    | Except.ok (some product) =>
        match categoriaExiste env store body.categoria with
        | Except.error _ => (notFound "Producto no encontrado", store)
        | Except.ok false => (badRequest "La categoría seleccionada no existe", store)
        | Except.ok true =>
            let updated := product.assign body
            if productSaveValid env product updated then
              let saved : Store :=
                { store with
                  productos :=
                    replaceFirst (fun p => p._id == product._id) updated store.productos }
              ({ status := 200, success := true,
                 message := some "Producto actualizado exitosamente",
                 data := some (Payload.object (updated.toJson saved)) }, saved)
            else (serverError "Error al actualizar producto" "Product validation failed", store)

/-- The handler `deleteProduct`: the response and the store afterwards. -/
def deleteProduct (env : Env) (store : Store) (id : String) : HttpResponse × Store :=
  match findProductById env store.productos id with
  | Except.error _ => (notFound "Producto no encontrado", store)
  | Except.ok none => (notFound "Producto no encontrado", store)
  | Except.ok (some product) =>
      ({ status := 200, success := true, message := some "Producto eliminado exitosamente",
         data := some (Payload.object [("id", JsonAtom.str id)]) },
       { store with productos := store.productos.eraseP fun p => p._id == product._id })

/-! ## Sequences of writes -/

/-- A validated write request on products or categories, with what the
handler takes from the request and from the document factory. -/
inductive WriteRequest
  | productCreate (body : ProductBody) (userId newId : String)
  | productUpdate (id : String) (body : ProductBody)
  | productDelete (id : String)
  | categoriaCreate (body : CategoriaBody) (userId newId : String)
  | categoriaUpdate (id : String) (body : CategoriaBody)
  | categoriaDelete (id : String)
deriving DecidableEq, Repr

/-- One request handled: the handler runs on the store with an empty
validation result. -/
def WriteRequest.handle (env : Env) (store : Store) : WriteRequest → HttpResponse × Store
  | WriteRequest.productCreate body userId newId => createProduct env store [] body userId newId
  | WriteRequest.productUpdate id body => updateProduct env store [] id body
  | WriteRequest.productDelete id => deleteProduct env store id
  | WriteRequest.categoriaCreate body userId newId =>
      createCategoria env store [] body userId newId
  | WriteRequest.categoriaUpdate id body => updateCategoria env store [] id body
  | WriteRequest.categoriaDelete id => deleteCategoria env store id

/-- Requests handled one at a time, each on the store left by the previous
one. -/
def runWrites (env : Env) : Store → List WriteRequest → Store
  | store, [] => store
  | store, request :: rest => runWrites env (request.handle env store).2 rest

/-- Every product's `categoria` is the `_id` of a category of the store. -/
def ReferentialIntegrity (store : Store) : Prop :=
  ∀ p ∈ store.productos, ∃ c ∈ store.categorias, c._id = p.categoria

/-! ## Specification vocabulary for updates -/

/-- The update contract on one field: an absent member keeps the previous
value, a supplied member becomes the value of the field. -/
def FieldTakes {α : Type} (supplied : Option α) (old new : α) : Prop :=
  match supplied with
  | none => new = old
  | some value => new = value

/-- The update contract on `imagen`: as `FieldTakes`, but a supplied text
that is empty or blank clears the field. -/
def ImagenTakes (supplied : Option String) (old new : Option String) : Prop :=
  match supplied with
  | none => new = old
  | some value => new = if jsTrim value = "" then none else some value

/-- The record `new` is the product `old` updated with the body: `_id` and
`createdBy` are kept, every other field follows the contract. -/
def ProductUpdated (body : ProductBody) (old new : ProductDoc) : Prop :=
  new._id = old._id ∧ new.createdBy = old.createdBy
    ∧ FieldTakes body.nombre old.nombre new.nombre
    ∧ FieldTakes body.descripcion old.descripcion new.descripcion
    ∧ FieldTakes body.precio old.precio new.precio
    ∧ FieldTakes body.stock old.stock new.stock
    ∧ FieldTakes body.categoria old.categoria new.categoria
    ∧ ImagenTakes body.imagen old.imagen new.imagen
    ∧ FieldTakes body.activo old.activo new.activo

/-- The record `new` is the category `old` updated with the body: `_id` and
`createdBy` are kept, every other field follows the contract. -/
def CategoriaUpdated (body : CategoriaBody) (old new : CategoriaDoc) : Prop :=
  new._id = old._id ∧ new.createdBy = old.createdBy
    ∧ FieldTakes body.nombre old.nombre new.nombre
    ∧ FieldTakes (body.descripcion.map some) old.descripcion new.descripcion
    ∧ FieldTakes body.icono old.icono new.icono
    ∧ FieldTakes body.activo old.activo new.activo

/-! ## The validation chains of the routes

`express-validator` runs every validator of a chain on the text of the field
(`undefined` is the empty text) after the sanitizers before it, and records
the message of each validator that fails. -/

/-- The validators of `validator.js` whose grammar is left to the library:
`isFloat` with `min: 0`, `isInt` with `min: 0`, and `isURL`. -/
structure Validators where
  isFloat : String → Bool
  isInt : String → Bool
  isURL : String → Bool

/-- The text a validator sees for a member of the body. -/
def fieldText : Option String → String
  | none => ""
  | some text => text

/-- The length `isLength` measures: a surrogate pair counts once and the
variation selectors U+FE0E and U+FE0F are not counted. -/
def validatorLength (text : String) : Nat :=
  (text.toList.filter fun c => c.toNat != 0xFE0E && c.toNat != 0xFE0F).length

/-- The validator `isLength` with the bounds `min` and `max`. -/
def isLength (min max : Nat) (text : String) : Bool :=
  decide (min ≤ validatorLength text) && decide (validatorLength text ≤ max)

/-- What one validator adds to the errors: its message when it fails. -/
def check (passes : Bool) (message : String) : List String :=
  if passes then [] else [message]

/-- The chain `productValidation` of routes/productRoutes.js: the messages of
`validationResult(req).array()`. -/
def productValidation (v : Validators) (body : ProductBody) : List String :=
  let nombre := jsTrim (fieldText body.nombre)
  let descripcion := jsTrim (fieldText body.descripcion)
  let precio := fieldText body.precio
  let stock := fieldText body.stock
  let categoria := fieldText body.categoria
  check (nombre != "") "El nombre es requerido"
    ++ check (isLength 2 100 nombre) "El nombre debe tener entre 2 y 100 caracteres"
    ++ check (descripcion != "") "La descripción es requerida"
    ++ check (isLength 10 500 descripcion)
        "La descripción debe tener entre 10 y 500 caracteres"
    ++ check (precio != "") "El precio es requerido"
    ++ check (v.isFloat precio) "El precio debe ser un número mayor o igual a 0"
    ++ check (stock != "") "El stock es requerido"
    ++ check (v.isInt stock) "El stock debe ser un número entero mayor o igual a 0"
    ++ check (categoria != "") "La categoría es requerida"
    ++ check (isHex24 categoria) "ID de categoría no válido"
    ++ (if truthy body.imagen then
          check (v.isURL (fieldText body.imagen)) "La imagen debe ser una URL válida"
        else [])

/-- The body the product handlers receive: the `trim` sanitizers have rewritten
`nombre` and `descripcion`. -/
def productSanitized (body : ProductBody) : ProductBody :=
  { body with nombre := body.nombre.map jsTrim, descripcion := body.descripcion.map jsTrim }

/-- The chain `categoriaValidation` of routes/categoriaRoutes.js. -/
def categoriaValidation (body : CategoriaBody) : List String :=
  let nombre := jsTrim (fieldText body.nombre)
  check (nombre != "") "El nombre es requerido"
    ++ check (isLength 2 50 nombre) "El nombre debe tener entre 2 y 50 caracteres"
    ++ (match body.descripcion with
        | some descripcion =>
            check (isLength 0 200 (jsTrim descripcion))
              "La descripción no puede exceder 200 caracteres"
        | none => [])

/-- The body the category handlers receive: the `trim` sanitizers have
rewritten `nombre`, and `descripcion` and `icono` when present. -/
def categoriaSanitized (body : CategoriaBody) : CategoriaBody :=
  { body with
    nombre := body.nombre.map jsTrim
    descripcion := body.descripcion.map jsTrim
    icono := body.icono.map jsTrim }

/-- A PUT request of an authenticated client: `PUT /api/products/:id` or
`PUT /api/categorias/:id` with its body. -/
inductive PutRequest
  | product (id : String) (body : ProductBody)
  | categoria (id : String) (body : CategoriaBody)
deriving DecidableEq, Repr

/-- The errors the validation chain of the route records for the request. -/
def PutRequest.validation (v : Validators) : PutRequest → List String
  | PutRequest.product _ body => productValidation v body
  | PutRequest.categoria _ body => categoriaValidation body

/-- The routes `router.put('/:id', productValidation, updateProduct)` and
`.put(categoriaValidation, updateCategoria)`: the chain runs, then the handler
with its result. -/
def PutRequest.handle (env : Env) (v : Validators) (store : Store) :
    PutRequest → HttpResponse × Store
  | PutRequest.product id body =>
      updateProduct env store (productValidation v body) id (productSanitized body)
  | PutRequest.categoria id body =>
      updateCategoria env store (categoriaValidation body) id (categoriaSanitized body)

/-- The body omits a field that the chain of its route requires: `nombre`,
`descripcion`, `precio`, `stock` or `categoria` of a product, `nombre` of a
category. -/
def PutRequest.OmitsRequired : PutRequest → Prop
  | PutRequest.product _ body =>
      body.nombre = none ∨ body.descripcion = none ∨ body.precio = none ∨ body.stock = none
        ∨ body.categoria = none
  | PutRequest.categoria _ body => body.nombre = none

/-- Stand-ins for the validators of the library, used to run the chains on
concrete requests: a number is a run of decimal digits, a URL starts with
`http://` or `https://`. -/
def referenceValidators : Validators where
  isFloat := fun text => (decimalNumber text).isSome
  isInt := fun text => (decimalNumber text).isSome
  isURL := fun text =>
    "http://".toList.isPrefixOf text.toList || "https://".toList.isPrefixOf text.toList

/-! ## Error responses -/

/-- The handler of uncaught errors of server.js (lines 54 to 61); `nodeEnv`
is `process.env.NODE_ENV`, `message` the `message` of the error. -/
def globalErrorHandler (nodeEnv : Option String) (message : String) : HttpResponse :=
  { status := 500, success := false, message := some "Error interno del servidor",
    error := if nodeEnv = some "development" then some message else none }

/-- A collection whose store rejects every query with the given error
message. -/
def failingCollection {F D : Type} (message : String) : Collection F D where
  matching := fun _ => Except.error message
  sortBy := fun _ docs => docs
  sortBy_perm := fun _ docs => List.Perm.refl docs

/-! ## Sample data -/

/-- A category. -/
def sampleCategoria : CategoriaDoc :=
  { _id := "0123456789abcdef0123456a", nombre := "Ropa",
    createdBy := "0123456789abcdef01234560" }

/-- A product of the sample category, with an image. -/
def sampleProduct : ProductDoc :=
  { _id := "0123456789abcdef0123456d", nombre := "Camisa", descripcion := "una camisa azul",
    precio := "10", stock := "2", categoria := "0123456789abcdef0123456a",
    imagen := some "https://example.com/camisa.png",
    createdBy := "0123456789abcdef01234560" }

/-- A store with one user, the sample category and the sample product. -/
def sampleStore : Store :=
  { users :=
      [{ _id := "0123456789abcdef01234560", username := "ana", email := "ana@example.com",
         password := "salt$secreto" }]
    categorias := [sampleCategoria]
    productos := [sampleProduct] }

/-! # Theorems -/

/-! ## Escaping of the search term -/

theorem escapeClass_eq (c : Char) : escapeClass c = decide (c ∈ regexMetacharacters) := by
  have h : parseClass escapeClassSource = some (false, regexMetacharacters) := by decide
  simp [escapeClass, h]

theorem replaceClassGlobal_escape (l : List Char) :
    replaceClassGlobal escapeClass escapeReplacement l
      = l.flatMap fun c => if c ∈ regexMetacharacters then ['\\', c] else [c] := by
  induction l with
  | nil => rfl
  | cons c rest ih =>
    simp only [replaceClassGlobal, List.flatMap_cons, ih, escapeClass_eq]
    by_cases h : c ∈ regexMetacharacters
    · simp [h, escapeReplacement, expandReplacement]
    · simp [h]

theorem escapeRegex_eq (s : String) : escapeRegex s = insertBackslashes s := by
  simp [escapeRegex, insertBackslashes, replaceClassGlobal_escape]

theorem truthy_some_of_ne_empty (s : String) (h : s ≠ "") : truthy (some s) = true := by
  cases s with
  | mk l =>
    cases l with
    | nil => exact absurd rfl h
    | cons c t => rfl

theorem truthy_some_empty : truthy (some "") = false := rfl

/-- C1: in `getProducts`, for every non-empty search string `s` the `$regex`
value of both clauses of `$or` is `s` with one backslash inserted before each
occurrence of the fourteen metacharacters and every other character kept in
place (and the option is `i`). -/
theorem getProducts_search_regex_escaped {ν : Type} (toNumber : String → ν) (q : ProductQuery)
    (s : String) (hs : q.search = some s) (hne : s ≠ "") :
    (productFilter toNumber q).or
      = some [(Field.nombre, ⟨insertBackslashes s, "i"⟩),
              (Field.descripcion, ⟨insertBackslashes s, "i"⟩)] := by
  simp [productFilter, hs, truthy_some_of_ne_empty s hne, searchDisjunction, escapeRegex_eq]

theorem getProducts_search_regex_escaped_witness :
    (productFilter id { search := some "a.b*c(x)\\" }).or
      = some [(Field.nombre, ⟨"a\\.b\\*c\\(x\\)\\\\", "i"⟩),
              (Field.descripcion, ⟨"a\\.b\\*c\\(x\\)\\\\", "i"⟩)] :=
  getProducts_search_regex_escaped id { search := some "a.b*c(x)\\" } "a.b*c(x)\\" rfl
    (by decide)

/-! ## The escaped term as a pattern -/

theorem not_isAlphanum_of_metacharacter (c : Char) (h : c ∈ regexMetacharacters) :
    c.isAlphanum = false := by
  simp only [regexMetacharacters, List.mem_cons, List.mem_singleton, List.not_mem_nil,
    or_false] at h
  rcases h with h | h | h | h | h | h | h | h | h | h | h | h | h | h <;> subst h <;> decide

theorem not_patternMetacharacter (c : Char) (h : c ∉ regexMetacharacters) :
    c ≠ '\\' ∧ c ∉ patternMetacharacters := by
  simp only [regexMetacharacters, List.mem_cons, List.mem_singleton, List.not_mem_nil,
    or_false, not_or] at h
  simp only [patternMetacharacters, List.mem_cons, List.mem_singleton, List.not_mem_nil,
    or_false, not_or]
  tauto

theorem tokenize_escaped (l : List Char) :
    tokenize (l.flatMap fun c => if c ∈ regexMetacharacters then ['\\', c] else [c])
      = some (l.map Token.chr) := by
  induction l with
  | nil => rfl
  | cons c rest ih =>
    by_cases h : c ∈ regexMetacharacters
    · simp [List.flatMap_cons, h, tokenize, not_isAlphanum_of_metacharacter c h, ih]
    · obtain ⟨h1, h2⟩ := not_patternMetacharacter c h
      simp only [List.flatMap_cons, h, if_false, List.singleton_append, List.map_cons]
      rw [tokenize.eq_def]
      simp [h1, h2, ih]

theorem parsePieces_literals (l : List Char) :
    parsePieces (l.map Token.chr) = some (l.map fun c => ⟨Atom.chr c, Quant.one⟩) := by
  induction l with
  | nil => rfl
  | cons c rest ih =>
    cases rest with
    | nil => rfl
    | cons d rest2 =>
      simp only [List.map_cons] at ih ⊢
      simp [parsePieces, Token.toAtom, Token.toQuant, ih]

theorem matchHere_literals (fold : Char → Char) (l t : List Char) :
    matchHere fold (l.map fun c => ⟨Atom.chr c, Quant.one⟩) t = true
      ↔ (l.map fold) <+: (t.map fold) := by
  induction l generalizing t with
  | nil => simp [matchHere]
  | cons c rest ih =>
    cases t with
    | nil => simp [matchHere, matchOne]
    | cons d t2 =>
      simp [matchHere, matchOne, Atom.accepts, ih, List.cons_prefix_cons]

theorem matchAnywhere_literals (fold : Char → Char) (l t : List Char) :
    matchAnywhere (matchHere fold (l.map fun c => ⟨Atom.chr c, Quant.one⟩)) t = true
      ↔ (l.map fold) <:+: (t.map fold) := by
  induction t with
  | nil =>
    simp only [matchAnywhere, matchHere_literals, List.map_nil, List.prefix_nil,
      List.infix_nil]
  | cons d t2 ih =>
    simp only [matchAnywhere, Bool.or_eq_true, matchHere_literals, ih, List.map_cons,
      List.infix_cons_iff]

theorem compile_escaped (s options : String) :
    RegexCond.compile ⟨insertBackslashes s, options⟩
      = some (s.toList.map fun c => ⟨Atom.chr c, Quant.one⟩) := by
  simp [RegexCond.compile, insertBackslashes, tokenize_escaped, parsePieces_literals]

theorem test_escaped (fold : Char → Char) (s text : String) :
    RegexCond.test fold ⟨insertBackslashes s, "i"⟩ (some text)
      = some (decide (containsIgnoreCase fold s text)) := by
  have hi : ("i" : String).toList.contains 'i' = true := by decide
  simp only [RegexCond.test, compile_escaped, Option.map_some', hi, if_true]
  congr 1
  rw [Bool.eq_iff_iff, matchAnywhere_literals]
  simp [containsIgnoreCase]

/-- C2: for every search term `s` and every product, the search part of the
filter built by `getProducts` holds on the product exactly when `s` occurs,
case-insensitively and literally, inside its `nombre` or its `descripcion`. -/
theorem getProducts_search_literal_substring {ν : Type} (toNumber : String → ν)
    (caseFold : Char → Char) (q : ProductQuery) (s : String) (p : Product)
    (hs : q.search = some s) :
    evalSearch caseFold p.text (productFilter toNumber q).or = some true
      ↔ containsIgnoreCase caseFold s p.nombre ∨ containsIgnoreCase caseFold s p.descripcion := by
  by_cases hne : s = ""
  · subst hne
    simp [productFilter, hs, truthy_some_empty, evalSearch, containsIgnoreCase]
  · simp [productFilter, hs, truthy_some_of_ne_empty s hne, searchDisjunction, escapeRegex_eq,
      evalSearch, evalDisjunction, test_escaped, Product.text]

theorem getProducts_search_literal_substring_witness :
    (evalSearch Char.toLower (Product.text ⟨"axbbc", "pattern-like text"⟩)
        (productFilter id { search := some "a.b*c" }).or ≠ some true)
      ∧ (evalSearch Char.toLower (Product.text ⟨"Model A.B*C", "literal text"⟩)
        (productFilter id { search := some "a.b*c" }).or = some true) :=
  ⟨fun h =>
      absurd ((getProducts_search_literal_substring id Char.toLower { search := some "a.b*c" }
        "a.b*c" ⟨"axbbc", "pattern-like text"⟩ rfl).mp h) (by decide),
    (getProducts_search_literal_substring id Char.toLower { search := some "a.b*c" }
      "a.b*c" ⟨"Model A.B*C", "literal text"⟩ rfl).mpr (by decide)⟩

/-! ## The unescaped search of `getCategorias` -/

/-- C3: in `getCategorias` the search term reaches `$regex` as received, not
escaped as in `getProducts`: for the term `a.b*c` the pattern is `a.b*c`
itself, it differs from the escaped term, and a category named `axbbc`, which
does not contain the term, satisfies the filter. -/
theorem getCategorias_search_regex_unescaped :
    (categoriaFilter { search := some "a.b*c" }).or
        = some [(Field.nombre, ⟨"a.b*c", "i"⟩), (Field.descripcion, ⟨"a.b*c", "i"⟩)]
      ∧ (productFilter id { search := some "a.b*c" }).or
        = some [(Field.nombre, ⟨"a\\.b\\*c", "i"⟩), (Field.descripcion, ⟨"a\\.b\\*c", "i"⟩)]
      ∧ evalSearch Char.toLower (Categoria.text ⟨"axbbc", none⟩)
          (categoriaFilter { search := some "a.b*c" }).or = some true
      ∧ ¬ containsIgnoreCase Char.toLower "a.b*c" "axbbc" := by
  decide

/-! ## Pagination arithmetic -/

theorem countDocuments_ok {F D : Type} (db : Collection F D) (filter : F) (docs : List D)
    (h : db.matching filter = Except.ok docs) :
    db.countDocuments filter = Except.ok docs.length := by
  simp [Collection.countDocuments, h]

theorem find_ok {F D : Type} (db : Collection F D) (filter : F) (sort : String)
    (skip limit : JSNum) (docs : List D) (h : db.matching filter = Except.ok docs) :
    db.find filter sort skip limit = cursorWindow (db.sortBy sort docs) skip limit := by
  simp [Collection.find, h]

theorem cursorWindow_nat {D : Type} (docs : List D) (k l : ℕ) (hl : 1 ≤ l) :
    cursorWindow docs (JSNum.int (k : ℤ)) (JSNum.int (l : ℤ))
      = Except.ok ((docs.drop k).take l) := by
  have h0 : ¬ ((k : ℤ) < 0) := by omega
  have h1 : ¬ ((l : ℤ) = 0) := by omega
  simp [cursorWindow, h0, h1]

theorem skip_nat (p l : ℕ) (hp : 1 ≤ p) :
    ((p : ℤ) - 1) * (l : ℤ) = (((p - 1) * l : ℕ) : ℤ) := by
  obtain ⟨k, rfl⟩ : ∃ k, p = k + 1 := ⟨p - 1, by omega⟩
  simp

theorem ceilDiv_nat (n l : ℕ) (hl : 1 ≤ l) :
    JSNum.ceilDiv (JSNum.int (n : ℤ)) (JSNum.int (l : ℤ))
      = JSNum.int (⌈(n : ℚ) / (l : ℚ)⌉) := by
  have h1 : ¬ ((l : ℤ) = 0) := by omega
  simp [JSNum.ceilDiv, h1]

theorem ceil_div_eq (n l : ℕ) (hl : 1 ≤ l) :
    ⌈(n : ℚ) / (l : ℚ)⌉ = (((n + l - 1) / l : ℕ) : ℤ) := by
  have hlq : (0 : ℚ) < (l : ℚ) := by exact_mod_cast hl
  rw [Int.ceil_eq_iff]
  have hdiv := Nat.div_add_mod (n + l - 1) l
  have hmod := Nat.mod_lt (n + l - 1) (show 0 < l by omega)
  set d := (n + l - 1) / l with hd
  set r := (n + l - 1) % l with hr
  have hn : n + l = l * d + r + 1 := by omega
  have hnq : (n : ℚ) + l = l * d + r + 1 := by exact_mod_cast hn
  have hrq : (r : ℚ) + 1 ≤ l := by exact_mod_cast hmod
  have hr0 : (0 : ℚ) ≤ r := by positivity
  constructor
  · rw [lt_div_iff₀ hlq]
    push_cast
    nlinarith
  · rw [div_le_iff₀ hlq]
    push_cast
    nlinarith

/-! ## The two handlers on integer page and limit -/

theorem getProducts_int {ν D : Type} (toNumber : String → ν)
    (db : Collection (ProductFilter ν) D) (q : ProductQuery) (docs : List D) (p l : ℤ)
    (hp : productPageNum q = JSNum.int p) (hl : productLimitNum q = JSNum.int l)
    (hm : db.matching (productFilter toNumber q) = Except.ok docs) :
    getProducts toNumber db q =
      match cursorWindow (db.sortBy (q.sort.getD "-createdAt") docs)
          (JSNum.int ((p - 1) * l)) (JSNum.int l) with
      | Except.error e => Response.failure 500 "Error al obtener productos" e
      | Except.ok products =>
          Response.success products.length
            { current := JSNum.int p
              total := JSNum.ceilDiv (JSNum.int docs.length) (JSNum.int l)
              perPage := JSNum.int l
              totalItems := docs.length
              hasNext := decide (p * l < docs.length)
              hasPrev := decide (0 < (p - 1) * l) }
            products := by
  simp only [getProducts, hp, hl, countDocuments_ok db _ docs hm, find_ok db _ _ _ _ docs hm,
    JSNum.sub, JSNum.mul, JSNum.lt, JSNum.gt]

theorem getCategorias_int {D : Type} (db : Collection CategoriaFilter D) (q : CategoriaQuery)
    (docs : List D) (p l : ℤ)
    (hp : categoriaPage q = JSNum.int p) (hl : categoriaLimit q = JSNum.int l)
    (hm : db.matching (categoriaFilter q) = Except.ok docs) :
    getCategorias db q =
      match cursorWindow (db.sortBy "nombre" docs) (JSNum.int ((p - 1) * l)) (JSNum.int l) with
      | Except.error e => Response.failure 500 "Error al obtener categorías" e
      | Except.ok categorias =>
          Response.success categorias.length
            { current := JSNum.int p
              total := JSNum.ceilDiv (JSNum.int docs.length) (JSNum.int l)
              perPage := JSNum.int l
              totalItems := docs.length
              hasNext := decide (p * l < docs.length)
              hasPrev := decide (0 < (p - 1) * l) }
            categorias := by
  simp only [getCategorias, hp, hl, countDocuments_ok db _ docs hm, find_ok db _ _ _ _ docs hm,
    JSNum.sub, JSNum.mul, JSNum.lt, JSNum.gt]

/-- The descriptor both handlers build for page `p ≥ 1`, limit `l ≥ 1` and `n`
matching documents. -/
theorem getProducts_page {ν D : Type} (toNumber : String → ν)
    (db : Collection (ProductFilter ν) D) (q : ProductQuery) (docs : List D) (p l : ℕ)
    (hp1 : 1 ≤ p) (hl1 : 1 ≤ l)
    (hp : productPageNum q = JSNum.int p) (hl : productLimitNum q = JSNum.int l)
    (hm : db.matching (productFilter toNumber q) = Except.ok docs) :
    getProducts toNumber db q =
      Response.success (((db.sortBy (q.sort.getD "-createdAt") docs).drop ((p - 1) * l)).take l).length
        { current := JSNum.int p
          total := JSNum.int (((docs.length + l - 1) / l : ℕ) : ℤ)
          perPage := JSNum.int l
          totalItems := docs.length
          hasNext := decide (p * l < docs.length)
          hasPrev := decide (0 < (p - 1) * l) }
        (((db.sortBy (q.sort.getD "-createdAt") docs).drop ((p - 1) * l)).take l) := by
  rw [getProducts_int toNumber db q docs p l hp hl hm, skip_nat p l hp1,
    cursorWindow_nat _ _ _ hl1, ceilDiv_nat _ _ hl1, ceil_div_eq _ _ hl1]
  simp only [Response.success.injEq, Pagination.mk.injEq, true_and, and_true, decide_eq_decide]
  constructor <;> norm_cast

theorem getCategorias_page {D : Type} (db : Collection CategoriaFilter D) (q : CategoriaQuery)
    (docs : List D) (p l : ℕ) (hp1 : 1 ≤ p) (hl1 : 1 ≤ l)
    (hp : categoriaPage q = JSNum.int p) (hl : categoriaLimit q = JSNum.int l)
    (hm : db.matching (categoriaFilter q) = Except.ok docs) :
    getCategorias db q =
      Response.success (((db.sortBy "nombre" docs).drop ((p - 1) * l)).take l).length
        { current := JSNum.int p
          total := JSNum.int (((docs.length + l - 1) / l : ℕ) : ℤ)
          perPage := JSNum.int l
          totalItems := docs.length
          hasNext := decide (p * l < docs.length)
          hasPrev := decide (0 < (p - 1) * l) }
        (((db.sortBy "nombre" docs).drop ((p - 1) * l)).take l) := by
  rw [getCategorias_int db q docs p l hp hl hm, skip_nat p l hp1,
    cursorWindow_nat _ _ _ hl1, ceilDiv_nat _ _ hl1, ceil_div_eq _ _ hl1]
  simp only [Response.success.injEq, Pagination.mk.injEq, true_and, and_true, decide_eq_decide]
  constructor <;> norm_cast

/-! ## Total pages -/

theorem ceil_isLeastPageCount (n l : ℕ) (hl : 1 ≤ l) :
    IsLeastPageCount ⌈(n : ℚ) / (l : ℚ)⌉ n l := by
  have hlq : (0 : ℚ) < (l : ℚ) := by exact_mod_cast hl
  refine ⟨?_, fun m hm => ?_⟩
  · have h := Int.le_ceil ((n : ℚ) / (l : ℚ))
    rw [div_le_iff₀ hlq] at h
    exact_mod_cast h
  · rw [Int.ceil_le, div_le_iff₀ hlq]
    exact_mod_cast hm

theorem ceil_zero_div (l : ℕ) : ⌈((0 : ℕ) : ℚ) / (l : ℚ)⌉ = 0 := by simp

/-- C4: for every page `p ≥ 1`, limit `l ≥ 1` and every list of matching
documents, the `total` field of the descriptor returned by `getProducts` and by
`getCategorias` is `ceil(totalItems / l)`, the least integer `n` with
`n * l ≥ totalItems`, and it is `0` when nothing matches. -/
theorem total_pages_eq_ceil {ν D E : Type} (toNumber : String → ν)
    (dbP : Collection (ProductFilter ν) D) (qP : ProductQuery) (docsP : List D)
    (dbC : Collection CategoriaFilter E) (qC : CategoriaQuery) (docsC : List E)
    (pP lP pC lC : ℕ) (hpP1 : 1 ≤ pP) (hlP1 : 1 ≤ lP) (hpC1 : 1 ≤ pC) (hlC1 : 1 ≤ lC)
    (hpP : productPageNum qP = JSNum.int pP) (hlP : productLimitNum qP = JSNum.int lP)
    (hmP : dbP.matching (productFilter toNumber qP) = Except.ok docsP)
    (hpC : categoriaPage qC = JSNum.int pC) (hlC : categoriaLimit qC = JSNum.int lC)
    (hmC : dbC.matching (categoriaFilter qC) = Except.ok docsC) :
    (∃ n : ℤ, (getProducts toNumber dbP qP).pagination?.map Pagination.total
          = some (JSNum.int n)
        ∧ n = ⌈(docsP.length : ℚ) / (lP : ℚ)⌉
        ∧ IsLeastPageCount n docsP.length lP
        ∧ (docsP.length = 0 → n = 0))
      ∧ (∃ n : ℤ, (getCategorias dbC qC).pagination?.map Pagination.total
          = some (JSNum.int n)
        ∧ n = ⌈(docsC.length : ℚ) / (lC : ℚ)⌉
        ∧ IsLeastPageCount n docsC.length lC
        ∧ (docsC.length = 0 → n = 0)) := by
  constructor
  · refine ⟨⌈(docsP.length : ℚ) / (lP : ℚ)⌉, ?_, rfl, ceil_isLeastPageCount _ _ hlP1, ?_⟩
    · rw [getProducts_page toNumber dbP qP docsP pP lP hpP1 hlP1 hpP hlP hmP,
        ceil_div_eq _ _ hlP1]
      rfl
    · intro h0
      rw [h0]
      exact ceil_zero_div lP
  · refine ⟨⌈(docsC.length : ℚ) / (lC : ℚ)⌉, ?_, rfl, ceil_isLeastPageCount _ _ hlC1, ?_⟩
    · rw [getCategorias_page dbC qC docsC pC lC hpC1 hlC1 hpC hlC hmC, ceil_div_eq _ _ hlC1]
      rfl
    · intro h0
      rw [h0]
      exact ceil_zero_div lC

theorem total_pages_eq_ceil_witness :
    (∃ n : ℤ, (getProducts id (memoryCollection [1, 2, 3, 4, 5, 6, 7] fun _ _ => some true)
            { page := some "2", limit := some "3" }).pagination?.map Pagination.total
          = some (JSNum.int n)
        ∧ n = ⌈(((7 : ℕ) : ℚ)) / ((3 : ℕ) : ℚ)⌉
        ∧ IsLeastPageCount n 7 3
        ∧ (7 = 0 → n = 0))
      ∧ (∃ n : ℤ, (getCategorias (memoryCollection ([] : List ℕ) fun _ _ => some true)
            { page := some "x", limit := some "4" }).pagination?.map Pagination.total
          = some (JSNum.int n)
        ∧ n = ⌈(((0 : ℕ) : ℚ)) / ((4 : ℕ) : ℚ)⌉
        ∧ IsLeastPageCount n 0 4
        ∧ (0 = 0 → n = 0)) :=
  total_pages_eq_ceil id (memoryCollection [1, 2, 3, 4, 5, 6, 7] fun _ _ => some true)
    { page := some "2", limit := some "3" } [1, 2, 3, 4, 5, 6, 7]
    (memoryCollection ([] : List ℕ) fun _ _ => some true)
    { page := some "x", limit := some "4" } []
    2 3 1 4 (by decide) (by decide) (by decide) (by decide)
    (by decide) (by decide) rfl (by decide) (by decide) rfl

/-! ## The returned window -/

theorem window_length {F D : Type} (db : Collection F D) (key : String) (docs : List D)
    (k l : ℕ) :
    (((db.sortBy key docs).drop k).take l).length = min l (docs.length - k) := by
  simp [List.length_take, List.length_drop, (db.sortBy_perm key docs).length_eq]

theorem window_getElem? {D : Type} (sorted : List D) (k l i : ℕ) :
    ((sorted.drop k).take l)[i]? = if i < l then sorted[k + i]? else none := by
  simp [List.getElem?_take, List.getElem?_drop]

/-- C5: for every page `p ≥ 1` and limit `l ≥ 1`, with `sorted` the matching
documents in sort order, `getProducts` and `getCategorias` return the
documents at positions `[(p-1)*l, (p-1)*l + l)` of `sorted`; `count` is the
length of that list, `min l (totalItems - (p-1)*l)` with truncated
subtraction. -/
theorem list_returns_page_window {ν D E : Type} (toNumber : String → ν)
    (dbP : Collection (ProductFilter ν) D) (qP : ProductQuery) (docsP : List D)
    (dbC : Collection CategoriaFilter E) (qC : CategoriaQuery) (docsC : List E)
    (pP lP pC lC : ℕ) (hpP1 : 1 ≤ pP) (hlP1 : 1 ≤ lP) (hpC1 : 1 ≤ pC) (hlC1 : 1 ≤ lC)
    (hpP : productPageNum qP = JSNum.int pP) (hlP : productLimitNum qP = JSNum.int lP)
    (hmP : dbP.matching (productFilter toNumber qP) = Except.ok docsP)
    (hpC : categoriaPage qC = JSNum.int pC) (hlC : categoriaLimit qC = JSNum.int lC)
    (hmC : dbC.matching (categoriaFilter qC) = Except.ok docsC) :
    (getProducts toNumber dbP qP =
        Response.success (min lP (docsP.length - (pP - 1) * lP))
          { current := JSNum.int pP
            total := JSNum.int ⌈(docsP.length : ℚ) / (lP : ℚ)⌉
            perPage := JSNum.int lP
            totalItems := docsP.length
            hasNext := decide (pP * lP < docsP.length)
            hasPrev := decide (0 < (pP - 1) * lP) }
          (((dbP.sortBy (qP.sort.getD "-createdAt") docsP).drop ((pP - 1) * lP)).take lP)
      ∧ ∀ i : ℕ,
          (((dbP.sortBy (qP.sort.getD "-createdAt") docsP).drop ((pP - 1) * lP)).take lP)[i]?
            = if i < lP then
                (dbP.sortBy (qP.sort.getD "-createdAt") docsP)[(pP - 1) * lP + i]?
              else none)
      ∧ (getCategorias dbC qC =
        Response.success (min lC (docsC.length - (pC - 1) * lC))
          { current := JSNum.int pC
            total := JSNum.int ⌈(docsC.length : ℚ) / (lC : ℚ)⌉
            perPage := JSNum.int lC
            totalItems := docsC.length
            hasNext := decide (pC * lC < docsC.length)
            hasPrev := decide (0 < (pC - 1) * lC) }
          (((dbC.sortBy "nombre" docsC).drop ((pC - 1) * lC)).take lC)
      ∧ ∀ i : ℕ,
          (((dbC.sortBy "nombre" docsC).drop ((pC - 1) * lC)).take lC)[i]?
            = if i < lC then (dbC.sortBy "nombre" docsC)[(pC - 1) * lC + i]? else none) := by
  refine ⟨⟨?_, fun i => window_getElem? _ _ _ i⟩, ?_, fun i => window_getElem? _ _ _ i⟩
  · rw [getProducts_page toNumber dbP qP docsP pP lP hpP1 hlP1 hpP hlP hmP, window_length,
      ceil_div_eq _ _ hlP1]
  · rw [getCategorias_page dbC qC docsC pC lC hpC1 hlC1 hpC hlC hmC, window_length,
      ceil_div_eq _ _ hlC1]

theorem list_returns_page_window_witness :
    getProducts id (memoryCollection [1, 2, 3, 4, 5, 6, 7, 8, 9, 10, 11, 12] fun _ _ => some true)
        { minPrecio := some "10", maxPrecio := some "20", page := some "2", limit := some "5" }
      = Response.success 5
          { current := JSNum.int 2
            total := JSNum.int 3
            perPage := JSNum.int 5
            totalItems := 12
            hasNext := true
            hasPrev := true }
          [6, 7, 8, 9, 10]
      ∧ getCategorias (memoryCollection [1, 2, 3, 4, 5, 6, 7, 8, 9, 10, 11, 12] fun _ _ => some true)
        { page := some "3", limit := some "5" }
      = Response.success 2
          { current := JSNum.int 3
            total := JSNum.int 3
            perPage := JSNum.int 5
            totalItems := 12
            hasNext := false
            hasPrev := true }
          [11, 12] := by
  have h := list_returns_page_window id
    (memoryCollection [1, 2, 3, 4, 5, 6, 7, 8, 9, 10, 11, 12] fun _ _ => some true)
    { minPrecio := some "10", maxPrecio := some "20", page := some "2", limit := some "5" }
    [1, 2, 3, 4, 5, 6, 7, 8, 9, 10, 11, 12]
    (memoryCollection [1, 2, 3, 4, 5, 6, 7, 8, 9, 10, 11, 12] fun _ _ => some true)
    { page := some "3", limit := some "5" } [1, 2, 3, 4, 5, 6, 7, 8, 9, 10, 11, 12]
    2 5 3 5 (by decide) (by decide) (by decide) (by decide)
    (by decide) (by decide) rfl (by decide) (by decide) rfl
  have hc : ⌈(((12 : ℕ) : ℚ)) / (((5 : ℕ) : ℚ))⌉ = 3 := by
    rw [ceil_div_eq 12 5 (by decide)]
    rfl
  refine ⟨?_, ?_⟩
  · rw [h.1.1]
    simp only [List.length_cons, List.length_nil, Nat.reduceAdd, hc]
    rfl
  · rw [h.2.1]
    simp only [List.length_cons, List.length_nil, Nat.reduceAdd, hc]
    rfl

/-! ## The descriptor fields -/

theorem getProducts_descriptor {ν D : Type} (toNumber : String → ν)
    (db : Collection (ProductFilter ν) D) (q : ProductQuery) (docs : List D) (p l : ℤ)
    (hp : productPageNum q = JSNum.int p) (hl : productLimitNum q = JSNum.int l)
    (hm : db.matching (productFilter toNumber q) = Except.ok docs) (pag : Pagination)
    (h : (getProducts toNumber db q).pagination? = some pag) :
    pag.current = JSNum.int p ∧ pag.perPage = JSNum.int l ∧ pag.totalItems = docs.length
      ∧ pag.hasNext = decide (p * l < docs.length)
      ∧ pag.hasPrev = decide ((p - 1) * l > 0) := by
  rw [getProducts_int toNumber db q docs p l hp hl hm] at h
  cases hw : cursorWindow (db.sortBy (q.sort.getD "-createdAt") docs)
      (JSNum.int ((p - 1) * l)) (JSNum.int l) with
  | error e => simp [hw, Response.pagination?] at h
  | ok products =>
    simp only [hw, Response.pagination?, Option.some.injEq] at h
    subst h
    simp

theorem getCategorias_descriptor {D : Type} (db : Collection CategoriaFilter D)
    (q : CategoriaQuery) (docs : List D) (p l : ℤ)
    (hp : categoriaPage q = JSNum.int p) (hl : categoriaLimit q = JSNum.int l)
    (hm : db.matching (categoriaFilter q) = Except.ok docs) (pag : Pagination)
    (h : (getCategorias db q).pagination? = some pag) :
    pag.current = JSNum.int p ∧ pag.perPage = JSNum.int l ∧ pag.totalItems = docs.length
      ∧ pag.hasNext = decide (p * l < docs.length)
      ∧ pag.hasPrev = decide ((p - 1) * l > 0) := by
  rw [getCategorias_int db q docs p l hp hl hm] at h
  cases hw : cursorWindow (db.sortBy "nombre" docs) (JSNum.int ((p - 1) * l)) (JSNum.int l) with
  | error e => simp [hw, Response.pagination?] at h
  | ok categorias =>
    simp only [hw, Response.pagination?, Option.some.injEq] at h
    subst h
    simp

/-- C6: for all integers `p`, `l` held by the handler as page and limit and
every list of matching documents, a descriptor returned by `getProducts` or by
`getCategorias` has `current = p`, `perPage = l`, `totalItems` the number of
matching documents, `hasNext = (p * l < totalItems)` and
`hasPrev = ((p - 1) * l > 0)`; the filter that selects the counted documents
does not depend on the `page` and `limit` parameters; and a descriptor is
returned whenever `p ≥ 1` and `l ≥ 1`. -/
theorem pagination_descriptor_fields {ν D E : Type} (toNumber : String → ν)
    (dbP : Collection (ProductFilter ν) D) (qP : ProductQuery) (docsP : List D)
    (dbC : Collection CategoriaFilter E) (qC : CategoriaQuery) (docsC : List E)
    (pP lP pC lC : ℤ)
    (hpP : productPageNum qP = JSNum.int pP) (hlP : productLimitNum qP = JSNum.int lP)
    (hmP : dbP.matching (productFilter toNumber qP) = Except.ok docsP)
    (hpC : categoriaPage qC = JSNum.int pC) (hlC : categoriaLimit qC = JSNum.int lC)
    (hmC : dbC.matching (categoriaFilter qC) = Except.ok docsC) :
    (∀ pag, (getProducts toNumber dbP qP).pagination? = some pag →
        pag.current = JSNum.int pP ∧ pag.perPage = JSNum.int lP
          ∧ pag.totalItems = docsP.length
          ∧ pag.hasNext = decide (pP * lP < docsP.length)
          ∧ pag.hasPrev = decide ((pP - 1) * lP > 0))
      ∧ (∀ pag, (getCategorias dbC qC).pagination? = some pag →
        pag.current = JSNum.int pC ∧ pag.perPage = JSNum.int lC
          ∧ pag.totalItems = docsC.length
          ∧ pag.hasNext = decide (pC * lC < docsC.length)
          ∧ pag.hasPrev = decide ((pC - 1) * lC > 0))
      ∧ (∀ page limit, productFilter toNumber { qP with page := page, limit := limit }
          = productFilter toNumber qP)
      ∧ (∀ page limit, categoriaFilter { qC with page := page, limit := limit }
          = categoriaFilter qC)
      ∧ (1 ≤ pP → 1 ≤ lP → ((getProducts toNumber dbP qP).pagination?).isSome = true)
      ∧ (1 ≤ pC → 1 ≤ lC → ((getCategorias dbC qC).pagination?).isSome = true) := by
  refine ⟨fun pag h => getProducts_descriptor toNumber dbP qP docsP pP lP hpP hlP hmP pag h,
    fun pag h => getCategorias_descriptor dbC qC docsC pC lC hpC hlC hmC pag h,
    fun _ _ => rfl, fun _ _ => rfl, ?_, ?_⟩
  · intro h1 h2
    obtain ⟨p, rfl⟩ : ∃ p : ℕ, pP = p := ⟨pP.toNat, by omega⟩
    obtain ⟨l, rfl⟩ : ∃ l : ℕ, lP = l := ⟨lP.toNat, by omega⟩
    rw [getProducts_page toNumber dbP qP docsP p l (by omega) (by omega) hpP hlP hmP]
    rfl
  · intro h1 h2
    obtain ⟨p, rfl⟩ : ∃ p : ℕ, pC = p := ⟨pC.toNat, by omega⟩
    obtain ⟨l, rfl⟩ : ∃ l : ℕ, lC = l := ⟨lC.toNat, by omega⟩
    rw [getCategorias_page dbC qC docsC p l (by omega) (by omega) hpC hlC hmC]
    rfl

theorem pagination_descriptor_fields_witness :
    (getProducts id (memoryCollection [1, 2, 3, 4, 5, 6, 7] fun _ _ => some true)
        { page := some "2", limit := some "3" }).pagination?
      = some { current := JSNum.int 2
               total := JSNum.int 3
               perPage := JSNum.int 3
               totalItems := 7
               hasNext := true
               hasPrev := true } := by
  have h := pagination_descriptor_fields id
    (memoryCollection [1, 2, 3, 4, 5, 6, 7] fun _ _ => some true)
    { page := some "2", limit := some "3" } [1, 2, 3, 4, 5, 6, 7]
    (memoryCollection [1, 2, 3] fun _ _ => some true)
    { page := some "1", limit := some "2" } [1, 2, 3]
    2 3 1 2 (by decide) (by decide) rfl (by decide) (by decide) rfl
  have hs := h.2.2.2.2.1 (by decide) (by decide)
  obtain ⟨pag, hpag⟩ := Option.isSome_iff_exists.mp hs
  obtain ⟨h1, h2, h3, h4, h5⟩ := h.1 pag hpag
  have ht : (getProducts id (memoryCollection [1, 2, 3, 4, 5, 6, 7] fun _ _ => some true)
      { page := some "2", limit := some "3" }).pagination?.map Pagination.total
        = some (JSNum.int 3) := by
    rw [getProducts_page id _ _ [1, 2, 3, 4, 5, 6, 7] 2 3 (by decide) (by decide)
      (by decide) (by decide) rfl]
    rfl
  rw [hpag] at ht ⊢
  cases pag
  simp only [Option.map_some', Option.some.injEq] at ht
  simp_all

/-! ## A page beyond the last one -/

theorem skip_ge_of_beyond_last (n p l : ℕ) (hl : 1 ≤ l)
    (hbeyond : ⌈(n : ℚ) / (l : ℚ)⌉ < (p : ℤ)) : n ≤ (p - 1) * l := by
  have hle : ⌈(n : ℚ) / (l : ℚ)⌉ ≤ ((p - 1 : ℕ) : ℤ) := by omega
  have h := (ceil_isLeastPageCount n l hl).1
  have h2 : (n : ℤ) ≤ ((p - 1 : ℕ) : ℤ) * (l : ℤ) :=
    le_trans h (Int.mul_le_mul_of_nonneg_right hle (by omega))
  exact_mod_cast h2

theorem window_beyond_last {F D : Type} (db : Collection F D) (key : String) (docs : List D)
    (k l : ℕ) (hk : docs.length ≤ k) : ((db.sortBy key docs).drop k).take l = [] := by
  have hlen : (db.sortBy key docs).length ≤ k := by
    rw [(db.sortBy_perm key docs).length_eq]
    exact hk
  rw [List.drop_eq_nil_of_le hlen, List.take_nil]

theorem productPageNum_one (q : ProductQuery) :
    productPageNum { q with page := some "1" } = JSNum.int ((1 : ℕ) : ℤ) := by
  simp only [productPageNum, Option.getD_some]
  decide

theorem categoriaPage_one (q : CategoriaQuery) :
    categoriaPage { q with page := some "1" } = JSNum.int ((1 : ℕ) : ℤ) := by
  simp only [categoriaPage, Option.getD_some]
  decide

/-- C7: for every limit `l ≥ 1` and every page `p` greater than
`ceil(totalItems / l)`, `getProducts` and `getCategorias` respond with success,
an empty data list and count `0`, and the `totalItems` and `total` fields of
the descriptor are those of the response to the same query with page 1. -/
theorem page_beyond_last_is_empty {ν D E : Type} (toNumber : String → ν)
    (dbP : Collection (ProductFilter ν) D) (qP : ProductQuery) (docsP : List D)
    (dbC : Collection CategoriaFilter E) (qC : CategoriaQuery) (docsC : List E)
    (pP lP pC lC : ℕ) (hlP1 : 1 ≤ lP) (hlC1 : 1 ≤ lC)
    (hbeyondP : ⌈(docsP.length : ℚ) / (lP : ℚ)⌉ < (pP : ℤ))
    (hbeyondC : ⌈(docsC.length : ℚ) / (lC : ℚ)⌉ < (pC : ℤ))
    (hpP : productPageNum qP = JSNum.int pP) (hlP : productLimitNum qP = JSNum.int lP)
    (hmP : dbP.matching (productFilter toNumber qP) = Except.ok docsP)
    (hpC : categoriaPage qC = JSNum.int pC) (hlC : categoriaLimit qC = JSNum.int lC)
    (hmC : dbC.matching (categoriaFilter qC) = Except.ok docsC) :
    (∃ pag count1 pag1 data1,
        getProducts toNumber dbP qP = Response.success 0 pag []
          ∧ getProducts toNumber dbP { qP with page := some "1" }
              = Response.success count1 pag1 data1
          ∧ pag.totalItems = docsP.length ∧ pag1.totalItems = pag.totalItems
          ∧ pag.total = JSNum.int ⌈(docsP.length : ℚ) / (lP : ℚ)⌉ ∧ pag1.total = pag.total)
      ∧ (∃ pag count1 pag1 data1,
        getCategorias dbC qC = Response.success 0 pag []
          ∧ getCategorias dbC { qC with page := some "1" }
              = Response.success count1 pag1 data1
          ∧ pag.totalItems = docsC.length ∧ pag1.totalItems = pag.totalItems
          ∧ pag.total = JSNum.int ⌈(docsC.length : ℚ) / (lC : ℚ)⌉ ∧ pag1.total = pag.total) := by
  have hceilP : (0 : ℤ) ≤ ⌈(docsP.length : ℚ) / (lP : ℚ)⌉ := Int.ceil_nonneg (by positivity)
  have hceilC : (0 : ℤ) ≤ ⌈(docsC.length : ℚ) / (lC : ℚ)⌉ := Int.ceil_nonneg (by positivity)
  constructor
  · have hk := skip_ge_of_beyond_last docsP.length pP lP hlP1 hbeyondP
    have hA := getProducts_page toNumber dbP qP docsP pP lP (by omega) hlP1 hpP hlP hmP
    have hB := getProducts_page toNumber dbP { qP with page := some "1" } docsP 1 lP
      (le_refl 1) hlP1 (productPageNum_one qP) hlP hmP
    rw [window_beyond_last dbP _ docsP _ lP hk] at hA
    refine ⟨_, _, _, _, hA, hB, rfl, rfl, ?_, rfl⟩
    rw [ceil_div_eq _ _ hlP1]
  · have hk := skip_ge_of_beyond_last docsC.length pC lC hlC1 hbeyondC
    have hA := getCategorias_page dbC qC docsC pC lC (by omega) hlC1 hpC hlC hmC
    have hB := getCategorias_page dbC { qC with page := some "1" } docsC 1 lC
      (le_refl 1) hlC1 (categoriaPage_one qC) hlC hmC
    rw [window_beyond_last dbC _ docsC _ lC hk] at hA
    refine ⟨_, _, _, _, hA, hB, rfl, rfl, ?_, rfl⟩
    rw [ceil_div_eq _ _ hlC1]

theorem page_beyond_last_is_empty_witness :
    (∃ pag count1 pag1 data1,
        getProducts id (memoryCollection [1, 2, 3, 4, 5, 6, 7] fun _ _ => some true)
            { page := some "4", limit := some "3" } = Response.success 0 pag []
          ∧ getProducts id (memoryCollection [1, 2, 3, 4, 5, 6, 7] fun _ _ => some true)
            { page := some "1", limit := some "3" } = Response.success count1 pag1 data1
          ∧ pag.totalItems = 7 ∧ pag1.totalItems = pag.totalItems
          ∧ pag.total = JSNum.int ⌈(((7 : ℕ) : ℚ)) / (((3 : ℕ) : ℚ))⌉ ∧ pag1.total = pag.total)
      ∧ (∃ pag count1 pag1 data1,
        getCategorias (memoryCollection ([] : List ℕ) fun _ _ => some true)
            { page := some "1" } = Response.success 0 pag []
          ∧ getCategorias (memoryCollection ([] : List ℕ) fun _ _ => some true)
            { page := some "1" } = Response.success count1 pag1 data1
          ∧ pag.totalItems = 0 ∧ pag1.totalItems = pag.totalItems
          ∧ pag.total = JSNum.int ⌈(((0 : ℕ) : ℚ)) / (((10 : ℕ) : ℚ))⌉ ∧ pag1.total = pag.total) :=
  page_beyond_last_is_empty id (memoryCollection [1, 2, 3, 4, 5, 6, 7] fun _ _ => some true)
    { page := some "4", limit := some "3" } [1, 2, 3, 4, 5, 6, 7]
    (memoryCollection ([] : List ℕ) fun _ _ => some true) { page := some "1" } []
    4 3 1 10 (by decide) (by decide)
    (by
      show ⌈(((7 : ℕ) : ℚ)) / (((3 : ℕ) : ℚ))⌉ < ((4 : ℕ) : ℤ)
      rw [ceil_div_eq 7 3 (by decide)]
      decide)
    (by
      show ⌈(((0 : ℕ) : ℚ)) / (((10 : ℕ) : ℚ))⌉ < ((1 : ℕ) : ℤ)
      rw [ceil_div_eq 0 10 (by decide)]
      decide)
    (by decide) (by decide) rfl (by decide) (by decide) rfl

/-! ## Coercion of `page` and `limit` -/

/-- C8: `getProducts` has no fallback for a `page` or `limit` that is not a
number.  For `page = "abc"` the page used is `NaN`, for `limit = ""` the limit
used is `NaN`; whatever the collection, the response then carries no
descriptor at all (the query is rejected and the handler answers 500), so in
particular none with page 1 or limit 10.  `getCategorias` on the same
parameters uses 1 and 10. -/
theorem getProducts_non_numeric_page_no_fallback :
    productPageNum { page := some "abc" } = JSNum.nan
      ∧ productLimitNum { limit := some "" } = JSNum.nan
      ∧ (∀ (D : Type) (db : Collection (ProductFilter String) D),
          (getProducts id db { page := some "abc" }).pagination? = none
            ∧ (getProducts id db { limit := some "" }).pagination? = none)
      ∧ getProducts id (memoryCollection [1, 2, 3] fun _ _ => some true) { page := some "abc" }
          = Response.failure 500 "Error al obtener productos" "skip and limit must be integers"
      ∧ categoriaPage { page := some "abc" } = JSNum.int 1
      ∧ categoriaLimit { limit := some "" } = JSNum.int 10 := by
  refine ⟨by decide, by decide, ?_, by decide, by decide, by decide⟩
  intro D db
  have hp : productPageNum { page := some "abc" } = JSNum.nan := by decide
  have hl : productLimitNum { limit := some "" } = JSNum.nan := by decide
  have hl10 : productLimitNum { page := some "abc" } = JSNum.int 10 := by decide
  have hp1 : productPageNum { limit := some "" } = JSNum.int 1 := by decide
  constructor
  · simp only [getProducts, hp, hl10, Collection.countDocuments, Collection.find]
    cases db.matching (productFilter id { page := some "abc" }) <;>
      simp [JSNum.sub, JSNum.mul, cursorWindow, Response.pagination?]
  · simp only [getProducts, hl, hp1, Collection.countDocuments, Collection.find]
    cases db.matching (productFilter id { limit := some "" }) <;>
      simp [JSNum.sub, JSNum.mul, cursorWindow, Response.pagination?]

theorem parseInt_undefined : parseInt "undefined" 0 = JSNum.nan := by decide

/-- A `page` or `limit` of `0` is falsy as well, so `getCategorias` replaces it
by the default: its `page` and `limit` are never `0`. -/
theorem categoriaPage_zero :
    categoriaPage { page := some "0" } = JSNum.int 1
      ∧ categoriaLimit { limit := some "0" } = JSNum.int 10 := by decide

theorem categoriaPage_default (q : CategoriaQuery) (h : NotAnInteger 0 q.page) :
    categoriaPage q = JSNum.int ((1 : ℕ) : ℤ) := by
  unfold categoriaPage
  cases hq : q.page with
  | none => simp [parseInt_undefined, JSNum.orElse, JSNum.truthy]
  | some s =>
    rw [hq] at h
    simp only [NotAnInteger] at h
    simp [h, JSNum.orElse, JSNum.truthy]

theorem categoriaLimit_default (q : CategoriaQuery) (h : NotAnInteger 0 q.limit) :
    categoriaLimit q = JSNum.int ((10 : ℕ) : ℤ) := by
  unfold categoriaLimit
  cases hq : q.limit with
  | none => simp [parseInt_undefined, JSNum.orElse, JSNum.truthy]
  | some s =>
    rw [hq] at h
    simp only [NotAnInteger] at h
    simp [h, JSNum.orElse, JSNum.truthy]

/-- C9: in `getCategorias`, a `page` that is absent or not coercible to an
integer gives page 1, and a `limit` that is absent or not coercible gives
limit 10; when both fall back and the store accepts the filter, the response
is the success response for page 1 and limit 10. -/
theorem getCategorias_page_limit_defaults {D : Type} (db : Collection CategoriaFilter D)
    (q : CategoriaQuery) :
    (NotAnInteger 0 q.page → categoriaPage q = JSNum.int 1)
      ∧ (NotAnInteger 0 q.limit → categoriaLimit q = JSNum.int 10)
      ∧ (NotAnInteger 0 q.page → NotAnInteger 0 q.limit →
          ∀ docs, db.matching (categoriaFilter q) = Except.ok docs →
            getCategorias db q =
              Response.success (min 10 docs.length)
                { current := JSNum.int 1
                  total := JSNum.int ⌈(docs.length : ℚ) / 10⌉
                  perPage := JSNum.int 10
                  totalItems := docs.length
                  hasNext := decide (10 < docs.length)
                  hasPrev := false }
                ((db.sortBy "nombre" docs).take 10)) := by
  refine ⟨categoriaPage_default q, categoriaLimit_default q, ?_⟩
  intro hp hl docs hm
  have h := getCategorias_page db q docs 1 10 (by decide) (by decide)
    (categoriaPage_default q hp) (categoriaLimit_default q hl) hm
  have hc : ⌈(docs.length : ℚ) / 10⌉ = (((docs.length + 10 - 1) / 10 : ℕ) : ℤ) := by
    have h10 := ceil_div_eq docs.length 10 (by decide)
    simpa using h10
  rw [h, window_length, hc]
  simp

theorem getCategorias_page_limit_defaults_witness :
    categoriaPage { page := some "abc" } = JSNum.int 1
      ∧ categoriaLimit { page := some "abc" } = JSNum.int 10
      ∧ (getCategorias (memoryCollection [1, 2, 3] fun _ _ => some true)
          { page := some "abc" }).data? = some [1, 2, 3] := by
  have h := getCategorias_page_limit_defaults
    (memoryCollection [1, 2, 3] fun _ _ => some true) { page := some "abc" }
  have hp : NotAnInteger 0 (some "abc") := by
    show parseInt "abc" 0 = JSNum.nan
    decide
  refine ⟨h.1 hp, h.2.1 trivial, ?_⟩
  rw [h.2.2 hp trivial [1, 2, 3] rfl]
  rfl

/-! ## The price range -/

theorem truthy_iff_isPresent (param : Option String) : truthy param = true ↔ IsPresent param := by
  cases param with
  | none => simp [truthy, IsPresent]
  | some s =>
    by_cases h : s = ""
    · subst h
      simp [truthy_some_empty, IsPresent]
    · simp [truthy_some_of_ne_empty s h, IsPresent, h]

theorem truthy_eq_false_iff (param : Option String) :
    truthy param = false ↔ ¬ IsPresent param := by
  rw [← truthy_iff_isPresent]
  simp

theorem bound_of_present {ν : Type} (toNumber : String → ν) (param : Option String) :
    (∀ s, param = some s → s ≠ "" →
        (if truthy param then param.map toNumber else none) = some (toNumber s))
      ∧ (¬ IsPresent param → (if truthy param then param.map toNumber else none) = none) := by
  cases param with
  | none => simp [truthy_eq_false_iff, IsPresent]
  | some a =>
    by_cases ha : a = ""
    · subst ha
      simp [truthy_some_empty]
    · simp [truthy_some_of_ne_empty a ha, IsPresent, ha]

theorem bound_holds_iff {ν : Type} (toNumber : String → ν) (param : Option String)
    (test : ν → Bool) :
    (match (if truthy param then param.map toNumber else none) with
      | some v => test v
      | none => true) = true
      ↔ ∀ s, param = some s → s ≠ "" → test (toNumber s) = true := by
  cases param with
  | none => simp [truthy_eq_false_iff, IsPresent]
  | some a =>
    by_cases ha : a = ""
    · subst ha
      simp [truthy_some_empty]
    · simp [truthy_some_of_ne_empty a ha, ha]

/-- C10: for every `getProducts` query, the filter has a `precio` entry
exactly when `minPrecio` or `maxPrecio` is present (non-empty); the entry has
`$gte = Number(minPrecio)` when `minPrecio` is present and no `$gte` key
otherwise, `$lte = Number(maxPrecio)` when `maxPrecio` is present and no
`$lte` key otherwise; so a price satisfies it exactly when it lies, bounds
included, above the present lower bound and below the present upper bound. -/
theorem getProducts_price_range {ν : Type} (toNumber : String → ν) (le : ν → ν → Bool)
    (q : ProductQuery) :
    (((productFilter toNumber q).precio).isSome = true
        ↔ IsPresent q.minPrecio ∨ IsPresent q.maxPrecio)
      ∧ ∀ r, (productFilter toNumber q).precio = some r →
          (∀ s, q.minPrecio = some s → s ≠ "" → r.gte = some (toNumber s))
            ∧ (¬ IsPresent q.minPrecio → r.gte = none)
            ∧ (∀ s, q.maxPrecio = some s → s ≠ "" → r.lte = some (toNumber s))
            ∧ (¬ IsPresent q.maxPrecio → r.lte = none)
            ∧ ∀ precio, r.holds le precio = true
                ↔ (∀ s, q.minPrecio = some s → s ≠ "" → le (toNumber s) precio = true)
                  ∧ (∀ s, q.maxPrecio = some s → s ≠ "" → le precio (toNumber s) = true) := by
  have hdef : (productFilter toNumber q).precio
      = if (truthy q.minPrecio || truthy q.maxPrecio) = true then
          some { gte := if truthy q.minPrecio then q.minPrecio.map toNumber else none
                 lte := if truthy q.maxPrecio then q.maxPrecio.map toNumber else none }
        else none := rfl
  rw [hdef]
  by_cases h : (truthy q.minPrecio || truthy q.maxPrecio) = true
  · have h2 := h
    rw [Bool.or_eq_true, truthy_iff_isPresent, truthy_iff_isPresent] at h2
    rw [if_pos h]
    refine ⟨by simp [h2], ?_⟩
    intro r hr
    simp only [Option.some.injEq] at hr
    subst hr
    refine ⟨(bound_of_present toNumber q.minPrecio).1, (bound_of_present toNumber q.minPrecio).2,
      (bound_of_present toNumber q.maxPrecio).1, (bound_of_present toNumber q.maxPrecio).2, ?_⟩
    intro precio
    simp only [PrecioRange.holds, Bool.and_eq_true]
    rw [bound_holds_iff toNumber q.minPrecio (fun lo => le lo precio),
      bound_holds_iff toNumber q.maxPrecio (fun hi => le precio hi)]
  · have h2 := h
    rw [Bool.or_eq_true, truthy_iff_isPresent, truthy_iff_isPresent] at h2
    rw [if_neg h]
    refine ⟨by simp [h2], ?_⟩
    intro r hr
    simp at hr

theorem getProducts_price_range_witness :
    (productFilter id { minPrecio := some "10", maxPrecio := some "" }).precio
        = some { gte := some "10", lte := none }
      ∧ (productFilter id { minPrecio := some "", maxPrecio := none }).precio = none := by
  have h := getProducts_price_range id (fun _ _ => true)
    { minPrecio := some "10", maxPrecio := some "" }
  have h0 := getProducts_price_range id (fun _ _ => true)
    { minPrecio := some "", maxPrecio := none }
  constructor
  · have hsome := h.1.mpr (Or.inl ⟨"10", rfl, by decide⟩)
    obtain ⟨r, hr⟩ := Option.isSome_iff_exists.mp hsome
    obtain ⟨h1, _, _, h4, _⟩ := h.2 r hr
    have hg := h1 "10" rfl (by decide)
    have hl := h4 (by rintro ⟨s, hs, hne⟩; cases hs; exact hne rfl)
    rw [hr]
    cases r
    simp_all
  · have hnone : ¬ (IsPresent (some "") ∨ IsPresent (none : Option String)) := by
      rintro (⟨s, hs, hne⟩ | ⟨s, hs, _⟩)
      · cases hs
        exact hne rfl
      · cases hs
    have := mt h0.1.mp hnone
    simpa using this

/-! ## The reference token scheme meets the contract -/

theorem unaryDecode_run (n acc : ℕ) (rest : List Char) :
    unaryDecode acc (List.replicate n 'a' ++ '.' :: rest) = (acc + n) :: unaryDecode 0 rest := by
  induction n generalizing acc with
  | zero => simp [unaryDecode]
  | succ k ih =>
    have h : ('a' = '.') = False := by decide
    have hstep : unaryDecode acc ('a' :: (List.replicate k 'a' ++ '.' :: rest))
        = unaryDecode (acc + 1) (List.replicate k 'a' ++ '.' :: rest) := by
      simp only [unaryDecode, h, if_false]
    have harith : acc + 1 + k = acc + (k + 1) := by omega
    rw [List.replicate_succ, List.cons_append, hstep, ih, harith]

theorem unaryDecode_encode (l : List ℕ) : unaryDecode 0 (unaryEncode l) = l := by
  induction l with
  | nil => rfl
  | cons n rest ih => simp [unaryEncode, unaryDecode_run, ih]

theorem optionOfCode_code (o : Option ℕ) : optionOfCode (optionCode o) = o := by
  cases o <;> rfl

theorem charCodes_length (s : String) : (charCodes s).length = s.toList.length := by
  simp [charCodes]

theorem ofNat_charCodes (s : String) : String.mk ((charCodes s).map Char.ofNat) = s := by
  cases s with
  | mk l =>
    have hid : (Char.ofNat ∘ Char.toNat) = id := by
      funext c
      simp [Char.ofNat_toNat]
    simp [charCodes, List.map_map, hid]

theorem readPayload_numbers (c : Claims) : readPayload (payloadNumbers c) = some c := by
  obtain ⟨id, iat, exp⟩ := c
  cases id with
  | none => simp [payloadNumbers, readPayload, optionOfCode_code]
  | some s =>
    have hlen := charCodes_length s
    simp only [payloadNumbers, List.cons_append, readPayload]
    rw [List.drop_left' hlen, List.take_left' hlen]
    simp [optionOfCode_code, ofNat_charCodes]

theorem readToken_numbers (secret : String) (c : Claims) :
    readToken secret (tokenNumbers secret c) = some c := by
  have hlen := charCodes_length secret
  simp only [tokenNumbers, List.cons_append, readToken]
  rw [List.drop_left' hlen, List.take_left' hlen]
  simp [readPayload_numbers]

theorem unaryEncode_no_space (l : List ℕ) : ' ' ∉ unaryEncode l := by
  induction l with
  | nil => simp [unaryEncode]
  | cons n rest ih =>
    simp only [unaryEncode, List.mem_append, List.mem_cons, not_or]
    refine ⟨fun h => ?_, by decide, ih⟩
    have := List.eq_of_mem_replicate h
    revert this
    decide

theorem referenceCodec_lawful : referenceCodec.Lawful where
  decode_encode := fun secret claims => by
    simp [referenceCodec, unaryDecode_encode, readToken_numbers]
  encode_no_space := fun secret claims => by
    simp [referenceCodec, unaryEncode_no_space]
  encode_ne_empty := fun secret claims => by
    simp [referenceCodec, tokenNumbers, unaryEncode]


/-! ## The `activo` filter -/

/-- C11: in `getCategorias`, an absent `activo` parameter leaves the filter
without an `activo` entry; a present one gives `activo = true` exactly when
it is the text `true` and `activo = false` for every other text, among them
`True`, `1` and the empty text. -/
theorem getCategorias_activo_tristate (q : CategoriaQuery) :
    (q.activo = none → (categoriaFilter q).activo = none)
      ∧ (∀ s, q.activo = some s →
          ((categoriaFilter q).activo = some true ↔ s = "true")
            ∧ (s ≠ "true" → (categoriaFilter q).activo = some false))
      ∧ ((categoriaFilter q).activo = none → q.activo = none)
      ∧ (categoriaFilter { q with activo := some "True" }).activo = some false
      ∧ (categoriaFilter { q with activo := some "1" }).activo = some false
      ∧ (categoriaFilter { q with activo := some "" }).activo = some false := by
  refine ⟨?_, ?_, ?_, ?_, ?_, ?_⟩
  · intro h
    simp [categoriaFilter, h]
  · intro s h
    constructor
    · simp [categoriaFilter, h]
    · intro hne
      simp [categoriaFilter, h, hne]
  · intro h
    cases hq : q.activo with
    | none => rfl
    | some s => simp [categoriaFilter, hq] at h
  · simp only [categoriaFilter, Option.map_some']
    decide
  · simp only [categoriaFilter, Option.map_some']
    decide
  · simp only [categoriaFilter, Option.map_some']
    decide

/-! ## The second segment of the Authorization header -/

theorem splitSpaces_cases (l : List Char) :
    ∃ seg tail, splitSpaces l = seg :: tail ∧ ' ' ∉ seg
      ∧ ((tail = [] ∧ l = seg) ∨ ∃ l2, l = seg ++ ' ' :: l2 ∧ tail = splitSpaces l2) := by
  induction l with
  | nil => exact ⟨[], [], rfl, by simp, Or.inl ⟨rfl, rfl⟩⟩
  | cons c rest ih =>
    by_cases hc : c = ' '
    · subst hc
      exact ⟨[], splitSpaces rest, by simp [splitSpaces], by simp, Or.inr ⟨rest, rfl, rfl⟩⟩
    · obtain ⟨seg, tail, hs, hseg, hcase⟩ := ih
      refine ⟨c :: seg, tail, by simp [splitSpaces, hc, hs], ?_, ?_⟩
      · simp only [List.mem_cons, not_or]
        exact ⟨fun h => hc h.symm, hseg⟩
      · rcases hcase with ⟨ht, hl⟩ | ⟨l2, hl, ht⟩
        · exact Or.inl ⟨ht, by rw [hl]⟩
        · exact Or.inr ⟨l2, by rw [hl]; rfl, ht⟩

theorem splitSpaces_segment (seg rest : List Char) (hseg : ' ' ∉ seg) :
    splitSpaces (seg ++ ' ' :: rest) = seg :: splitSpaces rest := by
  induction seg with
  | nil => simp [splitSpaces]
  | cons c t ih =>
    simp only [List.mem_cons, not_or] at hseg
    have hc : ¬ c = ' ' := fun h => hseg.1 h.symm
    simp [splitSpaces, hc, ih hseg.2]

theorem splitSpaces_last (seg : List Char) (hseg : ' ' ∉ seg) : splitSpaces seg = [seg] := by
  induction seg with
  | nil => rfl
  | cons c t ih =>
    simp only [List.mem_cons, not_or] at hseg
    have hc : ¬ c = ' ' := fun h => hseg.1 h.symm
    simp [splitSpaces, hc, ih hseg.2]

theorem splitSpaces_second (text token : List Char) :
    (splitSpaces text)[1]? = some token ↔ IsSecondSegment text token := by
  constructor
  · intro h
    obtain ⟨pre, tail, hs, hpre, hcase⟩ := splitSpaces_cases text
    rw [hs] at h
    rcases hcase with ⟨ht, _⟩ | ⟨l2, hl, ht⟩
    · subst ht
      simp at h
    · obtain ⟨seg, tail2, hs2, hseg, hcase2⟩ := splitSpaces_cases l2
      rw [ht, hs2] at h
      simp only [List.getElem?_cons_succ, List.getElem?_cons_zero, Option.some.injEq] at h
      subst h
      rcases hcase2 with ⟨_, hl2⟩ | ⟨l3, hl2, _⟩
      · exact ⟨pre, [], by rw [hl, hl2]; simp, hpre, hseg, Or.inl rfl⟩
      · exact ⟨pre, ' ' :: l3, by rw [hl, hl2]; simp, hpre, hseg, Or.inr ⟨l3, rfl⟩⟩
  · rintro ⟨pre, rest, htext, hpre, htok, hrest⟩
    have h1 : text = pre ++ ' ' :: (token ++ rest) := by rw [htext]; simp
    rw [h1, splitSpaces_segment pre _ hpre]
    rcases hrest with rfl | ⟨r, rfl⟩
    · simp [splitSpaces_last token htok]
    · simp [splitSpaces_segment token r htok]

theorem bearerToken_eq_some (header token : String) :
    bearerToken header = some token ↔ IsSecondSegment header.toList token.toList := by
  rw [← splitSpaces_second]
  unfold bearerToken
  cases h : (splitSpaces header.toList)[1]? with
  | none => simp
  | some seg =>
    simp only [Option.map_some', Option.some.injEq]
    constructor
    · intro hm
      rw [← hm]
      rfl
    · intro hm
      rw [hm]
      cases token
      rfl

/-! ## The middleware `protect` -/

theorem jwtVerify_ok_truthy (env : Env) (token : Option String) (now : ℕ) (claims : Claims)
    (h : jwtVerify env token now = Except.ok claims) : truthy token = true := by
  unfold jwtVerify at h
  by_cases ht : truthy token = true
  · exact ht
  · simp [ht] at h

theorem protectCatch_unauthorized (name : String) :
    ∃ message, protectCatch name = unauthorized message := by
  unfold protectCatch
  split
  · exact ⟨_, rfl⟩
  · split
    · exact ⟨_, rfl⟩
    · exact ⟨_, rfl⟩

theorem truthy_of_bearer (header : String) (h : "Bearer".toList <+: header.toList) :
    truthy (some header) = true := by
  apply truthy_some_of_ne_empty
  intro he
  subst he
  revert h
  decide

theorem jwtVerify_ok_iff (env : Env) (token : String) (now : ℕ) (claims : Claims) :
    jwtVerify env (some token) now = Except.ok claims ↔ Verifies env token now claims := by
  unfold jwtVerify Verifies
  by_cases ht : token = ""
  · subst ht
    simp [truthy_some_empty]
  · have htruthy : truthy (some token) = true := truthy_some_of_ne_empty token ht
    have hb : (some token).bind (env.codec.decode env.secret)
        = env.codec.decode env.secret token := rfl
    rw [if_pos htruthy, hb]
    cases hd : env.codec.decode env.secret token with
    | none => simp
    | some decoded =>
      cases he : decoded.exp with
      | none =>
        simp only [he, ne_eq, ht, not_false_eq_true, Option.some.injEq, true_and,
          Except.ok.injEq]
        constructor
        · rintro rfl
          exact ⟨rfl, fun exp h => by rw [he] at h; cases h⟩
        · rintro ⟨h, _⟩
          exact h
      | some exp =>
        simp only [he, ne_eq, ht, not_false_eq_true, Option.some.injEq, true_and]
        split
        · rename_i hle
          constructor
          · intro h
            cases h
          · rintro ⟨rfl, h⟩
            have := h exp he
            omega
        · rename_i hlt
          simp only [Except.ok.injEq]
          constructor
          · rintro rfl
            exact ⟨rfl, fun exp2 h => by rw [he] at h; cases h; omega⟩
          · rintro ⟨h, _⟩
            exact h

theorem findUserById_some_iff (env : Env) (users : List UserDoc) (cid : Option String)
    (user : UserDoc) :
    findUserById env users cid = Except.ok (some user)
      ↔ ∃ id, cid = some id ∧ ResolvesTo env users id user := by
  unfold ResolvesTo
  cases cid with
  | none => simp [findUserById]
  | some id =>
    simp only [findUserById, Option.some.injEq, exists_eq_left']
    by_cases hv : env.validId id = true
    · simp only [hv, if_true, Except.ok.injEq, true_and, List.find?_eq_some, beq_iff_eq,
        Bool.not_eq_eq_eq_not, Bool.not_true, beq_eq_false_iff_ne, ne_eq]
    · simp [hv]

theorem authorized_unfold (env : Env) (store : Store) (authorization : Option String) (now : ℕ)
    (user : UserDoc) (h : Authorized env store authorization now user) :
    ∃ header token claims, authorization = some header
      ∧ (truthy authorization && "Bearer".toList.isPrefixOf (authorization.getD "").toList) = true
      ∧ bearerToken header = some token
      ∧ jwtVerify env (some token) now = Except.ok claims
      ∧ findUserById env store.users claims.id = Except.ok (some user) := by
  obtain ⟨header, token, claims, id, ha, hb, hseg, hverifies, hid, hresolves⟩ := h
  have hv := (jwtVerify_ok_iff env token now claims).mpr hverifies
  have hu := (findUserById_some_iff env store.users claims.id user).mpr ⟨id, hid, hresolves⟩
  refine ⟨header, token, claims, ha, ?_, (bearerToken_eq_some header token).mpr hseg, hv, hu⟩
  subst ha
  simp only [Bool.and_eq_true, Option.getD_some]
  exact ⟨truthy_of_bearer header hb, List.isPrefixOf_iff_prefix.mpr hb⟩

theorem protect_cases (env : Env) (store : Store) (authorization : Option String) (now : ℕ) :
    (∃ user, Authorized env store authorization now user
        ∧ protect env store authorization now
          = [MiddlewareEffect.next (selectWithout "password" user.toJson)])
      ∨ ((¬ ∃ user, Authorized env store authorization now user)
        ∧ ∃ message, protect env store authorization now
          = [MiddlewareEffect.respond (unauthorized message)]) := by
  by_cases hb : (truthy authorization
      && "Bearer".toList.isPrefixOf (authorization.getD "").toList) = true
  · have hb2 := hb
    simp only [Bool.and_eq_true] at hb2
    obtain ⟨header, hheader⟩ : ∃ header, authorization = some header := by
      cases authorization with
      | none => simp [truthy] at hb2
      | some header => exact ⟨header, rfl⟩
    have hprefix : "Bearer".toList <+: header.toList := by
      have := hb2.2
      rw [hheader] at this
      exact List.isPrefixOf_iff_prefix.mp this
    have hget : authorization.getD "" = header := by rw [hheader]; rfl
    have hb3 : (truthy authorization && "Bearer".toList.isPrefixOf header.toList) = true := by
      rw [← hget]
      exact hb
    cases hv : jwtVerify env (bearerToken header) now with
    | error e =>
      right
      constructor
      · rintro ⟨user, hauth⟩
        obtain ⟨header2, token, claims, ha, _, ht, hv2, _⟩ :=
          authorized_unfold env store authorization now user hauth
        rw [hheader] at ha
        cases ha
        rw [ht, hv2] at hv
        cases hv
      · obtain ⟨message, hm⟩ := protectCatch_unauthorized e.name
        exact ⟨message, by simp only [protect, hget, hb3, if_true, hv, hm]⟩
    | ok decoded =>
      have htruthy := jwtVerify_ok_truthy env _ now decoded hv
      cases hu : findUserById env store.users decoded.id with
      | error name =>
        right
        constructor
        · rintro ⟨user, hauth⟩
          obtain ⟨header2, token, claims, ha, _, ht, hv2, hu2⟩ :=
            authorized_unfold env store authorization now user hauth
          rw [hheader] at ha
          cases ha
          rw [ht, hv2] at hv
          cases hv
          rw [hu2] at hu
          cases hu
        · obtain ⟨message, hm⟩ := protectCatch_unauthorized name
          exact ⟨message, by simp only [protect, hget, hb3, if_true, hv, hu, hm]⟩
      | ok found =>
        cases found with
        | none =>
          right
          constructor
          · rintro ⟨user, hauth⟩
            obtain ⟨header2, token, claims, ha, _, ht, hv2, hu2⟩ :=
              authorized_unfold env store authorization now user hauth
            rw [hheader] at ha
            cases ha
            rw [ht, hv2] at hv
            cases hv
            rw [hu2] at hu
            cases hu
          · exact ⟨"Usuario no encontrado", by simp only [protect, hget, hb3, if_true, hv, hu]⟩
        | some user =>
          left
          refine ⟨user, ?_, by simp only [protect, hget, hb3, if_true, hv, hu, htruthy]⟩
          obtain ⟨token, htoken⟩ : ∃ token, bearerToken header = some token := by
            cases ht : bearerToken header with
            | none => rw [ht] at htruthy; simp [truthy] at htruthy
            | some token => exact ⟨token, rfl⟩
          rw [htoken] at hv
          obtain ⟨id, hid, hresolves⟩ :=
            (findUserById_some_iff env store.users decoded.id user).mp hu
          exact ⟨header, token, decoded, id, hheader, hprefix,
            (bearerToken_eq_some header token).mp htoken,
            (jwtVerify_ok_iff env token now decoded).mp hv, hid, hresolves⟩
  · right
    constructor
    · rintro ⟨user, hauth⟩
      obtain ⟨_, _, _, _, hb2, _⟩ := authorized_unfold env store authorization now user hauth
      exact hb hb2
    · exact ⟨"No autorizado, no hay token", by simp only [protect, hb]; rfl⟩

/-- C12: `protect` calls the downstream handler exactly when the
Authorization header is present and starts with `Bearer`, the token after its
first space verifies against the secret (it is read under the secret and is
not expired) and the id of its payload is a well-formed id that a user of the
store has; the handler then receives that user without the password.  In
every other case `protect` responds, every response it sends has status 401
and `success: false`, and in every case it does exactly one of the two. -/
theorem protect_passes_iff_authorized (env : Env) (store : Store)
    (authorization : Option String) (now : ℕ) :
    (∀ reqUser, protect env store authorization now = [MiddlewareEffect.next reqUser]
        ↔ ∃ user, Authorized env store authorization now user
            ∧ reqUser = selectWithout "password" user.toJson)
      ∧ ((∃ reqUser, MiddlewareEffect.next reqUser ∈ protect env store authorization now)
        ↔ ∃ user, Authorized env store authorization now user)
      ∧ ((¬ ∃ user, Authorized env store authorization now user) →
          ∃ message, protect env store authorization now
            = [MiddlewareEffect.respond (unauthorized message)])
      ∧ (∀ response, MiddlewareEffect.respond response ∈ protect env store authorization now →
          response.status = 401 ∧ response.success = false)
      ∧ (protect env store authorization now).length = 1 := by
  rcases protect_cases env store authorization now with
    ⟨user, hauth, hp⟩ | ⟨hno, message, hp⟩
  · refine ⟨fun reqUser => ⟨fun h => ?_, ?_⟩, ⟨fun _ => ⟨user, hauth⟩, fun _ => ?_⟩,
      fun hno => absurd ⟨user, hauth⟩ hno, fun response h => by rw [hp] at h; simp at h,
      by rw [hp]; rfl⟩
    · rw [hp] at h
      simp only [List.cons.injEq, MiddlewareEffect.next.injEq, and_true] at h
      exact ⟨user, hauth, h.symm⟩
    · rintro ⟨user2, hauth2, rfl⟩
      obtain ⟨h1, t1, c1, ha1, _, ht1, hv1, hu1⟩ :=
        authorized_unfold env store authorization now user hauth
      obtain ⟨h2, t2, c2, ha2, _, ht2, hv2, hu2⟩ :=
        authorized_unfold env store authorization now user2 hauth2
      rw [ha1] at ha2
      cases ha2
      rw [ht1] at ht2
      cases ht2
      rw [hv1] at hv2
      cases hv2
      rw [hu1] at hu2
      cases hu2
      exact hp
    · exact ⟨selectWithout "password" user.toJson, by rw [hp]; simp⟩
  · refine ⟨fun reqUser => ⟨fun h => ?_, fun ⟨user, hauth, _⟩ => absurd ⟨user, hauth⟩ hno⟩,
      ⟨fun ⟨reqUser, h⟩ => ?_, fun h => absurd h hno⟩, fun _ => ⟨message, hp⟩,
      fun response h => ?_, by rw [hp]; rfl⟩
    · rw [hp] at h
      simp at h
    · rw [hp] at h
      simp at h
    · rw [hp] at h
      simp only [List.mem_singleton, MiddlewareEffect.respond.injEq] at h
      subst h
      exact ⟨rfl, rfl⟩

theorem authorized_of_bearer (env : Env) (hlaw : env.codec.Lawful) (store : Store)
    (claims : Claims) (id : String) (user : UserDoc) (now : ℕ)
    (hexp : ∀ exp, claims.exp = some exp → now < exp) (hid : claims.id = some id)
    (hresolves : ResolvesTo env store.users id user) :
    Authorized env store (some ("Bearer " ++ env.codec.encode env.secret claims)) now user := by
  have hspace := hlaw.encode_no_space env.secret claims
  have hne := hlaw.encode_ne_empty env.secret claims
  refine ⟨_, env.codec.encode env.secret claims, claims, id, rfl,
    ⟨' ' :: (env.codec.encode env.secret claims).toList, by simp [String.toList]⟩,
    ⟨"Bearer".toList, [], by simp [String.toList], by decide, hspace, Or.inl rfl⟩,
    ⟨?_, hlaw.decode_encode env.secret claims, hexp⟩, hid, hresolves⟩
  intro hempty
  rw [hempty] at hne
  exact hne rfl

theorem protect_passes_iff_authorized_witness :
    protect referenceEnv sampleStore
        (some ("Bearer " ++ referenceEnv.codec.encode referenceEnv.secret
          { id := some "0123456789abcdef01234560", iat := 100, exp := some 200 })) 150
      = [MiddlewareEffect.next
          (selectWithout "password"
            (UserDoc.toJson
              { _id := "0123456789abcdef01234560", username := "ana",
                email := "ana@example.com", password := "salt$secreto" }))] :=
  ((protect_passes_iff_authorized referenceEnv sampleStore
      (some ("Bearer " ++ referenceEnv.codec.encode referenceEnv.secret
        { id := some "0123456789abcdef01234560", iat := 100, exp := some 200 })) 150).1
    _).mpr
    ⟨{ _id := "0123456789abcdef01234560", username := "ana", email := "ana@example.com",
       password := "salt$secreto" },
     authorized_of_bearer referenceEnv referenceCodec_lawful sampleStore
       { id := some "0123456789abcdef01234560", iat := 100, exp := some 200 }
       "0123456789abcdef01234560" _ 150
       (fun exp h => by cases h; decide) rfl
       ⟨by decide, rfl, [], [], rfl, by simp⟩,
     rfl⟩

/-! ## Validity window of a generated token -/

theorem generateToken_eq (env : Env) (id : String) (issued : ℕ) :
    generateToken env id issued
      = Except.ok (env.codec.encode env.secret
          { id := some id, iat := issued, exp := some (issued + 30 * 86400) }) := by
  have h : msParse "30d" = some 2592000000 := by decide
  simp only [generateToken, jwtSign, h]

theorem jwtVerify_encoded (env : Env) (hlaw : env.codec.Lawful) (claims : Claims) (exp now : ℕ)
    (hexp : claims.exp = some exp) :
    jwtVerify env (some (env.codec.encode env.secret claims)) now
      = if exp ≤ now then Except.error JwtError.tokenExpiredError else Except.ok claims := by
  have ht : truthy (some (env.codec.encode env.secret claims)) = true := by
    simp only [truthy, bne_iff_ne, ne_eq]
    exact hlaw.encode_ne_empty env.secret claims
  have hd : (some (env.codec.encode env.secret claims)).bind (env.codec.decode env.secret)
      = some claims := hlaw.decode_encode env.secret claims
  simp only [jwtVerify, ht, if_true, hd, hexp]

theorem bearerToken_bearer (token : String) (h : ' ' ∉ token.toList) :
    bearerToken ("Bearer " ++ token) = some token := by
  rw [bearerToken_eq_some]
  refine ⟨"Bearer".toList, [], ?_, by decide, h, Or.inl rfl⟩
  simp [String.toList]

theorem protect_bearer (env : Env) (store : Store) (token : String) (now : ℕ)
    (hspace : ' ' ∉ token.toList) (hne : token.toList ≠ []) :
    protect env store (some ("Bearer " ++ token)) now =
      match jwtVerify env (some token) now with
      | Except.error e => [MiddlewareEffect.respond (protectCatch e.name)]
      | Except.ok decoded =>
          match findUserById env store.users decoded.id with
          | Except.error name => [MiddlewareEffect.respond (protectCatch name)]
          | Except.ok none => [MiddlewareEffect.respond (unauthorized "Usuario no encontrado")]
          | Except.ok (some user) =>
              [MiddlewareEffect.next (selectWithout "password" user.toJson)] := by
  have hprefix : "Bearer".toList.isPrefixOf ("Bearer " ++ token).toList = true := by
    rw [List.isPrefixOf_iff_prefix]
    exact ⟨' ' :: token.toList, by simp [String.toList]⟩
  have htruthy : truthy (some ("Bearer " ++ token)) = true := by
    simp [truthy, String.toList]
  have htok : truthy (some token) = true := by
    simp only [truthy, bne_iff_ne, ne_eq]
    exact hne
  simp only [protect, Option.getD_some, htruthy, hprefix, Bool.and_self, if_true,
    bearerToken_bearer token hspace, htok]

/-- C13: for every user id, the token `generateToken` issues at time `issued`
(seconds) verifies to that id at every time `now < issued + 30 * 86400`, and
`protect` then lets the request of that user through; from
`issued + 30 * 86400` on, `protect` rejects the same token with 401
`Token expirado`. -/
theorem generated_token_valid_30_days (env : Env) (hlaw : env.codec.Lawful) (store : Store)
    (id : String) (issued now : ℕ) :
    ∃ token, generateToken env id issued = Except.ok token
      ∧ (now < issued + 30 * 86400 →
          (∃ claims, jwtVerify env (some token) now = Except.ok claims ∧ claims.id = some id)
            ∧ ∀ user, findUserById env store.users (some id) = Except.ok (some user) →
                protect env store (some ("Bearer " ++ token)) now
                  = [MiddlewareEffect.next (selectWithout "password" user.toJson)])
      ∧ (issued + 30 * 86400 ≤ now →
          jwtVerify env (some token) now = Except.error JwtError.tokenExpiredError
            ∧ protect env store (some ("Bearer " ++ token)) now
              = [MiddlewareEffect.respond (unauthorized "Token expirado")]) := by
  refine ⟨_, generateToken_eq env id issued, ?_, ?_⟩
  · intro hnow
    have hv := jwtVerify_encoded env hlaw
      { id := some id, iat := issued, exp := some (issued + 30 * 86400) }
      (issued + 30 * 86400) now rfl
    rw [if_neg (by omega)] at hv
    refine ⟨⟨_, hv, rfl⟩, fun user hu => ?_⟩
    rw [protect_bearer env store _ now (hlaw.encode_no_space _ _) (hlaw.encode_ne_empty _ _), hv]
    simp only [hu]
  · intro hnow
    have hv := jwtVerify_encoded env hlaw
      { id := some id, iat := issued, exp := some (issued + 30 * 86400) }
      (issued + 30 * 86400) now rfl
    rw [if_pos hnow] at hv
    refine ⟨hv, ?_⟩
    rw [protect_bearer env store _ now (hlaw.encode_no_space _ _) (hlaw.encode_ne_empty _ _), hv]
    rfl

theorem generated_token_valid_30_days_witness :
    ∃ token, generateToken referenceEnv "0123456789abcdef01234567" 1000 = Except.ok token
      ∧ (2592999 < 1000 + 30 * 86400 →
          (∃ claims, jwtVerify referenceEnv (some token) 2592999 = Except.ok claims
              ∧ claims.id = some "0123456789abcdef01234567")
            ∧ ∀ user,
                findUserById referenceEnv
                    ({ users := [⟨"0123456789abcdef01234567", "ana", "ana@x.com", "k$pw"⟩] }
                      : Store).users
                    (some "0123456789abcdef01234567") = Except.ok (some user) →
                protect referenceEnv
                    { users := [⟨"0123456789abcdef01234567", "ana", "ana@x.com", "k$pw"⟩] }
                    (some ("Bearer " ++ token)) 2592999
                  = [MiddlewareEffect.next (selectWithout "password" user.toJson)])
      ∧ (1000 + 30 * 86400 ≤ 2592999 →
          jwtVerify referenceEnv (some token) 2592999
              = Except.error JwtError.tokenExpiredError
            ∧ protect referenceEnv
                { users := [⟨"0123456789abcdef01234567", "ana", "ana@x.com", "k$pw"⟩] }
                (some ("Bearer " ++ token)) 2592999
              = [MiddlewareEffect.respond (unauthorized "Token expirado")]) :=
  generated_token_valid_30_days referenceEnv referenceCodec_lawful
    { users := [⟨"0123456789abcdef01234567", "ana", "ana@x.com", "k$pw"⟩] }
    "0123456789abcdef01234567" 1000 2592999

/-! ## Login and registration -/

/-- C14: for a login request that passed validation, the response when no
user has the email and the response when a user has it but the password does
not match are the same response: status 401 with body
`success: false, message: 'Credenciales inválidas'` and nothing else. -/
theorem login_invalid_credentials_uniform (env : Env) (storeA storeB : Store) (body : LoginBody)
    (nowA nowB : ℕ) (user : UserDoc)
    (hA : storeA.users.find? (fun u => u.email == body.email) = none)
    (hB : storeB.users.find? (fun u => u.email == body.email) = some user)
    (hpw : env.compare body.password user.password = false) :
    login env storeA [] body nowA = login env storeB [] body nowB
      ∧ login env storeA [] body nowA
        = { status := 401, success := false, message := some "Credenciales inválidas",
            data := none, error := none, errors := [] } := by
  have h1 : login env storeA [] body nowA
      = { status := 401, success := false, message := some "Credenciales inválidas" } := by
    simp [login, hA]
  have h2 : login env storeB [] body nowB
      = { status := 401, success := false, message := some "Credenciales inválidas" } := by
    simp [login, hB, hpw]
  exact ⟨by rw [h1, h2], h1⟩

theorem login_invalid_credentials_uniform_witness :
    login referenceEnv {} [] ⟨"ana@x.com", "wrong"⟩ 7
        = login referenceEnv
            { users := [⟨"0123456789abcdef01234567", "ana", "ana@x.com", "k$secret1"⟩] }
            [] ⟨"ana@x.com", "wrong"⟩ 9
      ∧ login referenceEnv {} [] ⟨"ana@x.com", "wrong"⟩ 7
        = { status := 401, success := false, message := some "Credenciales inválidas",
            data := none, error := none, errors := [] } :=
  login_invalid_credentials_uniform referenceEnv {}
    { users := [⟨"0123456789abcdef01234567", "ana", "ana@x.com", "k$secret1"⟩] }
    ⟨"ana@x.com", "wrong"⟩ 7 9 ⟨"0123456789abcdef01234567", "ana", "ana@x.com", "k$secret1"⟩
    (by decide) (by decide) (by decide)

/-- C15: for a register request that passed validation, whose email is that
of an existing user and whose username no existing user has, the response is
400 with the message `El email ya está registrado` and the store is
unchanged. -/
theorem register_duplicate_email (env : Env) (store : Store) (body : RegisterBody)
    (newId salt : String) (now : ℕ)
    (hemail : ∃ u ∈ store.users, u.email = body.email)
    (huser : ∀ u ∈ store.users, u.username ≠ body.username) :
    register env store [] body newId salt now
      = ({ status := 400, success := false, message := some "El email ya está registrado",
           data := none, error := none, errors := [] }, store) := by
  obtain ⟨u, hu, hue⟩ := hemail
  cases hf : store.users.find? (fun u => u.email == body.email || u.username == body.username) with
  | none =>
    have := List.find?_eq_none.mp hf u hu
    simp [hue] at this
  | some found =>
    have hmem := List.mem_of_find?_eq_some hf
    have hprop := List.find?_some hf
    have hname := huser found hmem
    have hfe : found.email = body.email := by
      simpa [hname] using hprop
    simp [register, hf, hfe]

theorem register_duplicate_email_witness :
    register referenceEnv
        { users := [⟨"0123456789abcdef01234567", "ana", "ana@x.com", "k$secret1"⟩] }
        [] ⟨"bob", "ana@x.com", "secret2"⟩ "0123456789abcdef01234568" "k" 5
      = ({ status := 400, success := false, message := some "El email ya está registrado",
           data := none, error := none, errors := [] },
         { users := [⟨"0123456789abcdef01234567", "ana", "ana@x.com", "k$secret1"⟩] }) :=
  register_duplicate_email referenceEnv
    { users := [⟨"0123456789abcdef01234567", "ana", "ana@x.com", "k$secret1"⟩] }
    ⟨"bob", "ana@x.com", "secret2"⟩ "0123456789abcdef01234568" "k" 5
    ⟨⟨"0123456789abcdef01234567", "ana", "ana@x.com", "k$secret1"⟩, by simp, rfl⟩
    (by decide)

/-! ## Passwords -/

theorem selectWithout_keys (key : String) (o : JsonObject) :
    key ∉ JsonObject.keys (selectWithout key o) := by
  simp only [JsonObject.keys, selectWithout, List.mem_map, List.mem_filter, not_exists, not_and]
  rintro ⟨k, v⟩ ⟨_, hk⟩ hkey
  simp only at hkey
  subst hkey
  simp at hk

theorem authData_keys (user : UserDoc) (token : String) :
    "password" ∉ JsonObject.keys (authData user token) := by
  simp only [JsonObject.keys, authData, List.map_cons, List.map_nil]
  decide

theorem register_cases (env : Env) (store : Store) (errors : List String) (body : RegisterBody)
    (newId salt : String) (now : ℕ) :
    ((register env store errors body newId salt now).1.success = false
        ∧ (register env store errors body newId salt now).1.data = none
        ∧ (register env store errors body newId salt now).2 = store)
      ∨ ∃ token,
          register env store errors body newId salt now
            = ({ status := 201, success := true,
                 message := some "Usuario registrado exitosamente",
                 data := some (Payload.object
                   (authData ⟨newId, body.username, body.email, env.hash body.password salt⟩
                     token)) },
               { store with
                 users := store.users
                   ++ [⟨newId, body.username, body.email, env.hash body.password salt⟩] }) := by
  by_cases he : errors ≠ []
  · left
    simp [register, he, validationFailure]
  · cases hf : store.users.find?
        (fun u => u.email == body.email || u.username == body.username) with
    | some found =>
      left
      simp [register, he, hf]
    | none =>
      by_cases hv : userSchemaValid env body = true
      · right
        exact ⟨env.codec.encode env.secret
            { id := some newId, iat := now, exp := some (now + 30 * 86400) },
          by simp only [register, he, if_false, hf, hv, if_true, generateToken_eq]⟩
      · left
        simp [register, he, hf, hv, serverError]

/-- C16: when a register request succeeds, the store gains exactly one user
record, whose `password` is the hash of the plaintext with the salt (and so,
the hash never being its own input, not the plaintext); and the `data` of
every response of `register`, `login` and `getProfile` has no `password` key. -/
theorem password_stored_hashed_never_returned (env : Env)
    (hhash : ∀ password salt, env.hash password salt ≠ password)
    (store : Store) (errors : List String) (body : RegisterBody) (newId salt : String) (now : ℕ)
    (loginBody : LoginBody) (reqUser : JsonObject) :
    ((register env store errors body newId salt now).1.success = true →
        ∃ record,
          (register env store errors body newId salt now).2
              = { store with users := store.users ++ [record] }
            ∧ record.password = env.hash body.password salt
            ∧ record.password ≠ body.password
            ∧ record.username = body.username ∧ record.email = body.email)
      ∧ (∀ o, (register env store errors body newId salt now).1.data = some (Payload.object o) →
          "password" ∉ JsonObject.keys o)
      ∧ (∀ o, (login env store errors loginBody now).data = some (Payload.object o) →
          "password" ∉ JsonObject.keys o)
      ∧ (∀ o, (getProfile env store reqUser).data = some (Payload.object o) →
          "password" ∉ JsonObject.keys o) := by
  refine ⟨?_, ?_, ?_, ?_⟩
  · intro hok
    rcases register_cases env store errors body newId salt now with ⟨hs, _, _⟩ | ⟨token, hr⟩
    · rw [hs] at hok
      cases hok
    · exact ⟨_, by rw [hr], rfl, hhash _ _, rfl, rfl⟩
  · intro o ho
    rcases register_cases env store errors body newId salt now with ⟨_, hd, _⟩ | ⟨token, hr⟩
    · rw [hd] at ho
      cases ho
    · rw [hr] at ho
      simp only [Option.some.injEq, Payload.object.injEq] at ho
      rw [← ho]
      exact authData_keys _ _
  · intro o ho
    unfold login at ho
    split at ho
    · simp [validationFailure] at ho
    · split at ho
      · simp at ho
      · split at ho
        · rw [generateToken_eq] at ho
          simp only [Option.some.injEq, Payload.object.injEq] at ho
          rw [← ho]
          exact authData_keys _ _
        · simp at ho
  · intro o ho
    unfold getProfile at ho
    split at ho
    · simp [serverError] at ho
    · simp at ho
    · simp only [Option.some.injEq, Payload.object.injEq] at ho
      rw [← ho]
      exact selectWithout_keys _ _

theorem referenceEnv_hash_ne (password salt : String) :
    referenceEnv.hash password salt ≠ password := by
  intro h
  have hlen := congrArg String.length h
  simp only [referenceEnv, String.length_append] at hlen
  have h1 : ("$" : String).length = 1 := by decide
  omega

theorem password_stored_hashed_never_returned_witness :
    (register referenceEnv {} [] ⟨"ana", "ana@x.com", "secret1"⟩
        "0123456789abcdef01234567" "k" 5).2
      = { users := [⟨"0123456789abcdef01234567", "ana", "ana@x.com", "k$secret1"⟩] } := by
  have h := (password_stored_hashed_never_returned referenceEnv referenceEnv_hash_ne {} []
    ⟨"ana", "ana@x.com", "secret1"⟩ "0123456789abcdef01234567" "k" 5
    ⟨"ana@x.com", "secret1"⟩ []).1
  have hok : (register referenceEnv {} [] ⟨"ana", "ana@x.com", "secret1"⟩
      "0123456789abcdef01234567" "k" 5).1.success = true := by
    rcases register_cases referenceEnv {} [] ⟨"ana", "ana@x.com", "secret1"⟩
        "0123456789abcdef01234567" "k" 5 with ⟨_, _, hst⟩ | ⟨token, hr⟩
    · exfalso
      have hv : userSchemaValid referenceEnv ⟨"ana", "ana@x.com", "secret1"⟩ = true := by decide
      simp only [register, ne_eq, not_true_eq_false, if_false, List.find?_nil, hv, if_true,
        generateToken_eq] at hst
      simp at hst
    · rw [hr]
  obtain ⟨record, hstore, hpw, _, hname, hemail⟩ := h hok
  rw [hstore]
  have hid : record._id = "0123456789abcdef01234567" := by
    rcases register_cases referenceEnv {} [] ⟨"ana", "ana@x.com", "secret1"⟩
        "0123456789abcdef01234567" "k" 5 with ⟨hs, _, _⟩ | ⟨token, hr⟩
    · rw [hs] at hok
      cases hok
    · rw [hr] at hstore
      simp only [Store.mk.injEq, List.nil_append, List.cons.injEq, and_true, true_and] at hstore
      rw [← hstore]
  cases record
  simp only at hpw hname hemail hid
  subst hpw hname hemail hid
  rfl

/-! ## Category and product writes -/

theorem findCategoriaByNombre_isSome (categorias : List CategoriaDoc) (nombre : String)
    (h : ∃ c ∈ categorias, c.nombre = nombre) :
    ∃ found, findCategoriaByNombre categorias (some nombre) = some found := by
  obtain ⟨c, hc, hn⟩ := h
  cases hf : categorias.find? (fun c => c.nombre == nombre) with
  | none =>
    have := List.find?_eq_none.mp hf c hc
    simp [hn] at this
  | some found => exact ⟨found, by simp [findCategoriaByNombre, hf]⟩

/-- C17: for a createCategoria request that passed validation and whose
`nombre` is that of a category of the store, the response is 400 with the
message `Ya existe una categoría con ese nombre` and the store is unchanged. -/
theorem createCategoria_duplicate_nombre (env : Env) (store : Store) (body : CategoriaBody)
    (userId newId nombre : String) (hbody : body.nombre = some nombre)
    (hdup : ∃ c ∈ store.categorias, c.nombre = nombre) :
    createCategoria env store [] body userId newId
      = ({ status := 400, success := false,
           message := some "Ya existe una categoría con ese nombre",
           data := none, error := none, errors := [] }, store) := by
  obtain ⟨found, hf⟩ := findCategoriaByNombre_isSome store.categorias nombre hdup
  simp [createCategoria, hbody, hf, badRequest]

theorem createCategoria_duplicate_nombre_witness :
    createCategoria referenceEnv
        { categorias := [{ _id := "0123456789abcdef0123456a", nombre := "Ropa", createdBy := "u" }] }
        [] { nombre := some "Ropa", descripcion := some "otra" } "u" "0123456789abcdef0123456b"
      = ({ status := 400, success := false,
           message := some "Ya existe una categoría con ese nombre",
           data := none, error := none, errors := [] },
         { categorias :=
            [{ _id := "0123456789abcdef0123456a", nombre := "Ropa", createdBy := "u" }] }) :=
  createCategoria_duplicate_nombre referenceEnv
    { categorias := [{ _id := "0123456789abcdef0123456a", nombre := "Ropa", createdBy := "u" }] }
    { nombre := some "Ropa", descripcion := some "otra" } "u" "0123456789abcdef0123456b" "Ropa"
    rfl ⟨{ _id := "0123456789abcdef0123456a", nombre := "Ropa", createdBy := "u" }, by simp, rfl⟩

/-- C19: for a createProduct request that passed validation, whose
`categoria` is a well-formed identifier (the route's `notEmpty` and
`isMongoId` checks) that no category of the store has, the response is 400
`La categoría seleccionada no existe` and the store is unchanged. -/
theorem createProduct_unknown_categoria (env : Env) (store : Store) (body : ProductBody)
    (userId newId categoria : String) (hbody : body.categoria = some categoria)
    (hne : categoria ≠ "") (hvalid : env.validId categoria = true)
    (hnone : ∀ c ∈ store.categorias, c._id ≠ categoria) :
    createProduct env store [] body userId newId
      = ({ status := 400, success := false,
           message := some "La categoría seleccionada no existe",
           data := none, error := none, errors := [] }, store) := by
  have hf : store.categorias.find? (fun c => c._id == categoria) = none := by
    rw [List.find?_eq_none]
    intro c hc
    simpa using hnone c hc
  have ht : truthy (some categoria) = true := truthy_some_of_ne_empty categoria hne
  simp [createProduct, hbody, ht, findCategoriaById, hvalid, hf, badRequest]

theorem createProduct_unknown_categoria_witness :
    createProduct referenceEnv
        { categorias := [{ _id := "0123456789abcdef0123456a", nombre := "Ropa", createdBy := "u" }] }
        [] { nombre := some "Camisa", descripcion := some "una camisa azul", precio := some "10",
             stock := some "2", categoria := some "0123456789abcdef0123456b" }
        "u" "0123456789abcdef0123456c"
      = ({ status := 400, success := false,
           message := some "La categoría seleccionada no existe",
           data := none, error := none, errors := [] },
         { categorias :=
            [{ _id := "0123456789abcdef0123456a", nombre := "Ropa", createdBy := "u" }] }) :=
  createProduct_unknown_categoria referenceEnv
    { categorias := [{ _id := "0123456789abcdef0123456a", nombre := "Ropa", createdBy := "u" }] }
    { nombre := some "Camisa", descripcion := some "una camisa azul", precio := some "10",
      stock := some "2", categoria := some "0123456789abcdef0123456b" }
    "u" "0123456789abcdef0123456c" "0123456789abcdef0123456b" rfl (by decide) (by decide)
    (by decide)

theorem findCategoriaById_id (env : Env) (categorias : List CategoriaDoc) (id : String)
    (categoria : CategoriaDoc)
    (h : findCategoriaById env categorias id = Except.ok (some categoria)) :
    categoria._id = id ∧ categoria ∈ categorias
      ∧ categorias.find? (fun c => c._id == id) = some categoria := by
  unfold findCategoriaById at h
  split at h
  · simp only [Except.ok.injEq] at h
    have hp := List.find?_some h
    exact ⟨by simpa using hp, List.mem_of_find?_eq_some h, h⟩
  · cases h

theorem deleteBlockedMessage_contains (n : ℕ) :
    (toString n).toList <:+: (deleteBlockedMessage n).toList := by
  refine ⟨"No se puede eliminar la categoría porque tiene ".toList,
    " producto(s) asociado(s). Primero elimina o reasigna los productos.".toList, ?_⟩
  simp [deleteBlockedMessage, String.toList]

theorem eraseP_eq_erase_of_find? {α : Type} [DecidableEq α] (p : α → Bool) (l : List α) (c : α)
    (h : l.find? p = some c) : l.eraseP p = l.erase c := by
  induction l with
  | nil => cases h
  | cons x rest ih =>
    by_cases hx : p x = true
    · have hc : x = c := by simpa [List.find?_cons, hx] using h
      subst hc
      simp [hx]
    · have hrest : rest.find? p = some c := by simpa [List.find?_cons, hx] using h
      have hpc : p c = true := List.find?_some hrest
      have hne : ¬ (x == c) = true := by
        intro hxc
        have : x = c := by simpa using hxc
        rw [this] at hx
        exact hx hpc
      rw [List.eraseP_cons_of_neg hx, List.erase_cons_tail hne, ih hrest]

/-- C20: for a deleteCategoria request on an existing category, with `n` the
number of products that refer to it: if `n ≥ 1` the response is 400, its
message contains the decimal text of `n`, and the store is unchanged; if
`n = 0` the response is a success carrying the id and the store loses that
category, one record, the other collections unchanged. -/
theorem deleteCategoria_guarded_by_products (env : Env) (store : Store) (id : String)
    (categoria : CategoriaDoc) (n : ℕ)
    (hfound : findCategoriaById env store.categorias id = Except.ok (some categoria))
    (hn : (store.productos.filter fun p => p.categoria == id).length = n) :
    (1 ≤ n →
        deleteCategoria env store id
            = ({ status := 400, success := false, message := some (deleteBlockedMessage n),
                 data := none, error := none, errors := [] }, store)
          ∧ (toString n).toList <:+: (deleteBlockedMessage n).toList)
      ∧ (n = 0 →
        deleteCategoria env store id
            = ({ status := 200, success := true,
                 message := some "Categoría eliminada exitosamente",
                 data := some (Payload.object [("id", JsonAtom.str id)]),
                 error := none, errors := [] },
               { store with categorias := store.categorias.erase categoria })
          ∧ (store.categorias.erase categoria).length + 1 = store.categorias.length) := by
  obtain ⟨hid, hmem, hfind⟩ := findCategoriaById_id env store.categorias id categoria hfound
  subst hn
  constructor
  · intro h1
    refine ⟨?_, deleteBlockedMessage_contains _⟩
    have hpos : (store.productos.filter fun p => p.categoria == id).length > 0 := by omega
    simp only [deleteCategoria, hfound, hpos, if_true, badRequest]
  · intro h0
    have hpos : ¬ (store.productos.filter fun p => p.categoria == id).length > 0 := by omega
    constructor
    · simp only [deleteCategoria, hfound, hpos, if_false, hid,
        eraseP_eq_erase_of_find? _ _ _ hfind]
    · rw [List.length_erase_of_mem hmem]
      have : 0 < store.categorias.length := List.length_pos_of_mem hmem
      omega

theorem deleteCategoria_guarded_by_products_witness :
    deleteCategoria referenceEnv
        { categorias :=
            [{ _id := "0123456789abcdef0123456a", nombre := "Ropa", createdBy := "u" }]
          productos :=
            [{ _id := "0123456789abcdef0123456c", nombre := "Camisa",
               descripcion := "una camisa azul", precio := "10", stock := "2",
               categoria := "0123456789abcdef0123456a", createdBy := "u" }] }
        "0123456789abcdef0123456a"
      = ({ status := 400, success := false, message := some (deleteBlockedMessage 1),
           data := none, error := none, errors := [] },
         { categorias :=
            [{ _id := "0123456789abcdef0123456a", nombre := "Ropa", createdBy := "u" }]
           productos :=
            [{ _id := "0123456789abcdef0123456c", nombre := "Camisa",
               descripcion := "una camisa azul", precio := "10", stock := "2",
               categoria := "0123456789abcdef0123456a", createdBy := "u" }] })
      ∧ (toString 1).toList <:+: (deleteBlockedMessage 1).toList
      ∧ deleteCategoria referenceEnv
        { categorias :=
            [{ _id := "0123456789abcdef0123456a", nombre := "Ropa", createdBy := "u" }] }
        "0123456789abcdef0123456a"
      = ({ status := 200, success := true,
           message := some "Categoría eliminada exitosamente",
           data := some (Payload.object [("id", JsonAtom.str "0123456789abcdef0123456a")]),
           error := none, errors := [] }, { categorias := [] }) :=
  ⟨((deleteCategoria_guarded_by_products referenceEnv
      { categorias := [{ _id := "0123456789abcdef0123456a", nombre := "Ropa", createdBy := "u" }]
        productos :=
          [{ _id := "0123456789abcdef0123456c", nombre := "Camisa",
             descripcion := "una camisa azul", precio := "10", stock := "2",
             categoria := "0123456789abcdef0123456a", createdBy := "u" }] }
      "0123456789abcdef0123456a"
      { _id := "0123456789abcdef0123456a", nombre := "Ropa", createdBy := "u" } 1
      rfl (by decide)).1 (by decide)).1,
    ((deleteCategoria_guarded_by_products referenceEnv
      { categorias := [{ _id := "0123456789abcdef0123456a", nombre := "Ropa", createdBy := "u" }]
        productos :=
          [{ _id := "0123456789abcdef0123456c", nombre := "Camisa",
             descripcion := "una camisa azul", precio := "10", stock := "2",
             categoria := "0123456789abcdef0123456a", createdBy := "u" }] }
      "0123456789abcdef0123456a"
      { _id := "0123456789abcdef0123456a", nombre := "Ropa", createdBy := "u" } 1
      rfl (by decide)).1 (by decide)).2,
    ((deleteCategoria_guarded_by_products referenceEnv
      { categorias := [{ _id := "0123456789abcdef0123456a", nombre := "Ropa", createdBy := "u" }] }
      "0123456789abcdef0123456a"
      { _id := "0123456789abcdef0123456a", nombre := "Ropa", createdBy := "u" } 0
      rfl (by decide)).2 rfl).1⟩

/-! ## Uniqueness of category names -/

theorem not_mem_of_findCategoriaByNombre_none (categorias : List CategoriaDoc) (nombre : String)
    (h : findCategoriaByNombre categorias (some nombre) = none) :
    nombre ∉ categorias.map fun c => c.nombre := by
  simp only [findCategoriaByNombre, List.find?_eq_none] at h
  simp only [List.mem_map, not_exists, not_and]
  intro c hc hn
  exact h c hc (by simp [hn])

theorem replaceFirst_cons_pos {α : Type} (p : α → Bool) (new x : α) (rest : List α)
    (h : p x = true) : replaceFirst p new (x :: rest) = new :: rest := by
  simp [replaceFirst, h]

theorem replaceFirst_cons_neg {α : Type} (p : α → Bool) (new x : α) (rest : List α)
    (h : ¬ p x = true) : replaceFirst p new (x :: rest) = x :: replaceFirst p new rest := by
  simp [replaceFirst, h]

theorem mem_replaceFirst {α : Type} (p : α → Bool) (new y : α) (l : List α)
    (h : y ∈ replaceFirst p new l) : y = new ∨ y ∈ l := by
  induction l with
  | nil => simp [replaceFirst] at h
  | cons x rest ih =>
    by_cases hx : p x = true
    · rw [replaceFirst_cons_pos p new x rest hx, List.mem_cons] at h
      cases h with
      | inl h1 => exact Or.inl h1
      | inr h1 => exact Or.inr (List.mem_cons_of_mem _ h1)
    · rw [replaceFirst_cons_neg p new x rest hx, List.mem_cons] at h
      cases h with
      | inl h1 => exact Or.inr (by rw [h1]; exact List.mem_cons_self _ _)
      | inr h1 =>
        cases ih h1 with
        | inl h2 => exact Or.inl h2
        | inr h2 => exact Or.inr (List.mem_cons_of_mem _ h2)

theorem replaceFirst_self {α : Type} (p : α → Bool) (c : α) (l : List α)
    (h : l.find? p = some c) : replaceFirst p c l = l := by
  induction l with
  | nil => rfl
  | cons x rest ih =>
    by_cases hx : p x = true
    · have hc : x = c := by simpa [List.find?_cons, hx] using h
      rw [replaceFirst_cons_pos p c x rest hx, hc]
    · have hrest : rest.find? p = some c := by simpa [List.find?_cons, hx] using h
      rw [replaceFirst_cons_neg p c x rest hx, ih hrest]

theorem nodup_map_replaceFirst {α β : Type} (f : α → β) (p : α → Bool) (new : α) (l : List α)
    (hnodup : (l.map f).Nodup)
    (hnew : f new ∉ l.map f ∨ ∃ c, l.find? p = some c ∧ f c = f new) :
    ((replaceFirst p new l).map f).Nodup := by
  induction l with
  | nil => simp [replaceFirst]
  | cons x rest ih =>
    simp only [List.map_cons, List.nodup_cons] at hnodup
    obtain ⟨hx, hrest⟩ := hnodup
    by_cases hp : p x = true
    · rw [replaceFirst_cons_pos p new x rest hp, List.map_cons, List.nodup_cons]
      refine ⟨?_, hrest⟩
      rcases hnew with hnew | ⟨c, hc, hfc⟩
      · intro hmem
        exact hnew (by simp only [List.map_cons]; exact List.mem_cons_of_mem _ hmem)
      · have hcx : x = c := by simpa [List.find?_cons, hp] using hc
        rw [← hfc, ← hcx]
        exact hx
    · have hnew2 : f new ∉ rest.map f ∨ ∃ c, rest.find? p = some c ∧ f c = f new := by
        rcases hnew with hnew | ⟨c, hc, hfc⟩
        · left
          intro hmem
          exact hnew (by simp only [List.map_cons]; exact List.mem_cons_of_mem _ hmem)
        · right
          exact ⟨c, by simpa [List.find?_cons, hp] using hc, hfc⟩
      have hne : f x ≠ f new := by
        rcases hnew with hnew | ⟨c, hc, hfc⟩
        · intro heq
          exact hnew (by simp [heq])
        · intro heq
          have hcrest : rest.find? p = some c := by simpa [List.find?_cons, hp] using hc
          have hcmem := List.mem_of_find?_eq_some hcrest
          exact hx (by rw [heq, ← hfc]; exact List.mem_map_of_mem f hcmem)
      rw [replaceFirst_cons_neg p new x rest hp, List.map_cons, List.nodup_cons]
      refine ⟨?_, ih hrest hnew2⟩
      intro hmem
      obtain ⟨y, hy, hfy⟩ := List.mem_map.mp hmem
      rcases mem_replaceFirst p new y rest hy with h1 | h1
      · rw [h1] at hfy
        exact hne hfy.symm
      · exact hx (by rw [← hfy]; exact List.mem_map_of_mem f h1)

theorem createCategoria_preserves (env : Env) (store : Store) (body : CategoriaBody)
    (userId newId : String) (h : NombresDistinct store) :
    NombresDistinct (createCategoria env store [] body userId newId).2 := by
  unfold createCategoria
  simp only [ne_eq, not_true_eq_false, if_false]
  cases hf : findCategoriaByNombre store.categorias body.nombre with
  | some found => exact h
  | none =>
    cases hb : body.nombre with
    | none => exact h
    | some nombre =>
      simp only
      split
      · split
        · exact h
        · rw [hb] at hf
          have hnot := not_mem_of_findCategoriaByNombre_none store.categorias nombre hf
          simp only [NombresDistinct, List.map_append, List.map_cons, List.map_nil]
          rw [List.nodup_append]
          refine ⟨h, by simp, ?_⟩
          intro a ha hb2
          simp only [List.mem_singleton] at hb2
          rw [hb2] at ha
          exact hnot ha
      · exact h

theorem updateCategoria_preserves (env : Env) (store : Store) (id : String)
    (body : CategoriaBody) (h : NombresDistinct store) :
    NombresDistinct (updateCategoria env store [] id body).2 := by
  unfold updateCategoria
  simp only [ne_eq, not_true_eq_false, if_false]
  cases hfound : findCategoriaById env store.categorias id with
  | error e => exact h
  | ok found =>
    cases found with
    | none => exact h
    | some categoria =>
      obtain ⟨hid, hmem, hfind⟩ := findCategoriaById_id env store.categorias id categoria hfound
      simp only
      split
      · exact h
      · rename_i hcheck
        split
        · rename_i hvalid
          split
          · exact h
          · simp only [NombresDistinct]
            apply nodup_map_replaceFirst (fun c : CategoriaDoc => c.nombre) _ _ _ h
            cases hb : body.nombre with
            | none =>
              right
              exact ⟨categoria, by rw [hid]; exact hfind, by simp [CategoriaDoc.assign, hb]⟩
            | some nombre =>
              by_cases hsame : nombre = categoria.nombre
              · right
                exact ⟨categoria, by rw [hid]; exact hfind,
                  by simp [CategoriaDoc.assign, hb, hsame]⟩
              · left
                have hupd : (categoria.assign body).nombre = nombre := by
                  simp [CategoriaDoc.assign, hb]
                rw [hupd]
                by_cases hempty : nombre = ""
                · exfalso
                  rw [hupd] at hvalid
                  subst hempty
                  simp only [Bool.and_eq_true, Bool.or_eq_true, beq_iff_eq] at hvalid
                  rcases hvalid.1 with h1 | h1
                  · exact hsame h1
                  · revert h1
                    decide
                · have ht : truthy (some nombre) = true := truthy_some_of_ne_empty nombre hempty
                  rw [hb] at hcheck
                  have hnone : findCategoriaByNombre store.categorias (some nombre) = none := by
                    cases hq : findCategoriaByNombre store.categorias (some nombre) with
                    | none => rfl
                    | some other =>
                      exfalso
                      apply hcheck
                      simp [ht, hq, hsame]
                  exact not_mem_of_findCategoriaByNombre_none _ _ hnone
        · exact h

theorem deleteCategoria_preserves (env : Env) (store : Store) (id : String)
    (h : NombresDistinct store) : NombresDistinct (deleteCategoria env store id).2 := by
  unfold deleteCategoria
  split
  · exact h
  · exact h
  · simp only
    split
    · exact h
    · exact List.Nodup.sublist ((List.eraseP_sublist _).map _) h

theorem handle_preserves (env : Env) (store : Store) (request : CategoriaWrite)
    (h : NombresDistinct store) : NombresDistinct (request.handle env store).2 := by
  cases request with
  | create body userId newId => exact createCategoria_preserves env store body userId newId h
  | update id body => exact updateCategoria_preserves env store id body h
  | delete id => exact deleteCategoria_preserves env store id h

theorem runCategoriaWrites_preserves (env : Env) (requests : List CategoriaWrite) (store : Store)
    (h : NombresDistinct store) : NombresDistinct (runCategoriaWrites env store requests) := by
  induction requests generalizing store with
  | nil => exact h
  | cons request rest ih => exact ih _ (handle_preserves env store request h)

theorem assign_own_nombre (categoria : CategoriaDoc) :
    categoria.assign { nombre := some categoria.nombre } = categoria := by
  cases categoria
  simp only [CategoriaDoc.assign, Option.getD_some, Option.getD_none]

/-- C18: from a store whose category names are pairwise distinct, every
sequence of validated createCategoria, updateCategoria and deleteCategoria
requests handled one at a time leaves them pairwise distinct, whether or not
the store enforces its unique index; a rename to the name of another category
is refused with 400 and changes nothing, a rename to the category's own name
succeeds. -/
theorem categoria_nombres_stay_distinct (env : Env) (store : Store)
    (hdistinct : NombresDistinct store) :
    (∀ requests, NombresDistinct (runCategoriaWrites env store requests))
      ∧ (∀ id categoria other body,
          findCategoriaById env store.categorias id = Except.ok (some categoria) →
          other ∈ store.categorias → other.nombre ≠ categoria.nombre → other.nombre ≠ "" →
          body.nombre = some other.nombre →
          updateCategoria env store [] id body
            = ({ status := 400, success := false,
                 message := some "Ya existe una categoría con ese nombre",
                 data := none, error := none, errors := [] }, store))
      ∧ (∀ id categoria,
          findCategoriaById env store.categorias id = Except.ok (some categoria) →
          (updateCategoria env store [] id { nombre := some categoria.nombre }).1.status = 200
            ∧ (updateCategoria env store [] id { nombre := some categoria.nombre }).2 = store) := by
  refine ⟨fun requests => runCategoriaWrites_preserves env requests store hdistinct, ?_, ?_⟩
  · intro id categoria other body hfound hother hne hempty hbody
    obtain ⟨found, hf⟩ :=
      findCategoriaByNombre_isSome store.categorias other.nombre ⟨other, hother, rfl⟩
    have ht : truthy (some other.nombre) = true := truthy_some_of_ne_empty _ hempty
    simp [updateCategoria, hfound, hbody, ht, hf, hne, badRequest]
  · intro id categoria hfound
    obtain ⟨hid, hmem, hfind⟩ := findCategoriaById_id env store.categorias id categoria hfound
    have hfind2 : store.categorias.find? (fun c => c._id == categoria._id) = some categoria := by
      rw [hid]
      exact hfind
    have hres : updateCategoria env store [] id { nombre := some categoria.nombre }
        = ({ status := 200, success := true,
             message := some "Categoría actualizada exitosamente",
             data := some (Payload.object (categoria.toJson store.users)) }, store) := by
      simp only [updateCategoria, ne_eq, not_true_eq_false, if_false, hfound,
        assign_own_nombre, bne_self_eq_false, Bool.and_false, Bool.false_and, Bool.false_eq_true,
        beq_self_eq_true, Bool.true_or, Bool.and_self, if_true,
        replaceFirst_self _ _ _ hfind2]
    rw [hres]
    exact ⟨rfl, rfl⟩

theorem categoria_nombres_stay_distinct_witness :
    NombresDistinct (runCategoriaWrites referenceEnv
      { categorias :=
          [{ _id := "0123456789abcdef0123456a", nombre := "Ropa", createdBy := "u" },
           { _id := "0123456789abcdef0123456b", nombre := "Hogar", createdBy := "u" }] }
      [CategoriaWrite.create { nombre := some "Ropa" } "u" "0123456789abcdef0123456c",
       CategoriaWrite.update "0123456789abcdef0123456b" { nombre := some "Ropa" },
       CategoriaWrite.update "0123456789abcdef0123456b" { nombre := some "Jardin" },
       CategoriaWrite.delete "0123456789abcdef0123456a"]) :=
  (categoria_nombres_stay_distinct referenceEnv
    { categorias :=
        [{ _id := "0123456789abcdef0123456a", nombre := "Ropa", createdBy := "u" },
         { _id := "0123456789abcdef0123456b", nombre := "Hogar", createdBy := "u" }] }
    (by unfold NombresDistinct; decide)).1 _

/-! ## The page numbers of the pagination control -/

theorem getPageNumbers_small (current total : ℤ) (h2 : 2 ≤ total) (h5 : total ≤ 5) :
    getPageNumbers current total = [PageItem.page 1, PageItem.page 2]
      ∨ getPageNumbers current total = [PageItem.page 1, PageItem.page 2, PageItem.page 3]
      ∨ getPageNumbers current total
          = [PageItem.page 1, PageItem.page 2, PageItem.page 3, PageItem.page 4]
      ∨ getPageNumbers current total
          = [PageItem.page 1, PageItem.page 2, PageItem.page 3, PageItem.page 4,
             PageItem.page 5] := by
  have h : total = 2 ∨ total = 3 ∨ total = 4 ∨ total = 5 := by omega
  rcases h with h | h | h | h <;> subst h
  · left; rfl
  · right; left; rfl
  · right; right; left; rfl
  · right; right; right; rfl

/-- C25: for every `total ≥ 2` and every `current` with
`1 ≤ current ≤ total`, `getPageNumbers` returns at most 5 page numbers. -/
theorem getPageNumbers_at_most_five (current total : ℤ) (htotal : 2 ≤ total)
    (_hlow : 1 ≤ current) (_hhigh : current ≤ total) :
    (pageNumbers (getPageNumbers current total)).length ≤ 5 := by
  by_cases h5 : total ≤ 5
  · rcases getPageNumbers_small current total htotal h5 with h | h | h | h <;>
      rw [h] <;> simp [pageNumbers]
  · unfold getPageNumbers
    rw [if_neg h5]
    split
    · simp [pageNumbers]
    · split <;> simp [pageNumbers]

theorem getPageNumbers_at_most_five_witness :
    (pageNumbers (getPageNumbers 7 20)).length ≤ 5
      ∧ pageNumbers (getPageNumbers 7 20) = [1, 6, 7, 8, 20] :=
  ⟨getPageNumbers_at_most_five 7 20 (by decide) (by decide) (by decide), by decide⟩

/-- C26: for every `total ≥ 2` and every `current` with
`1 ≤ current ≤ total`, the page numbers returned by `getPageNumbers` are
strictly increasing, lie in `[1, total]` and include `1`, `current` and
`total`; and every marker stands between two page numbers that differ by at
least 2. -/
theorem getPageNumbers_well_formed (current total : ℤ) (htotal : 2 ≤ total)
    (hlow : 1 ≤ current) (hhigh : current ≤ total) :
    (pageNumbers (getPageNumbers current total)).Pairwise (fun a b => a < b)
      ∧ (∀ n ∈ pageNumbers (getPageNumbers current total), 1 ≤ n ∧ n ≤ total)
      ∧ 1 ∈ pageNumbers (getPageNumbers current total)
      ∧ current ∈ pageNumbers (getPageNumbers current total)
      ∧ total ∈ pageNumbers (getPageNumbers current total)
      ∧ MarkersHidePages (getPageNumbers current total) := by
  by_cases h5 : total ≤ 5
  · have h : total = 2 ∨ total = 3 ∨ total = 4 ∨ total = 5 := by omega
    rcases h with h | h | h | h <;> subst h
    · have hg : getPageNumbers current 2 = [PageItem.page 1, PageItem.page 2] := rfl
      rw [hg]
      refine ⟨?_, ?_, ?_, ?_, ?_, ?_⟩ <;>
        simp [pageNumbers, MarkersHidePages, MarkersAfter] <;> omega
    · have hg : getPageNumbers current 3
          = [PageItem.page 1, PageItem.page 2, PageItem.page 3] := rfl
      rw [hg]
      refine ⟨?_, ?_, ?_, ?_, ?_, ?_⟩ <;>
        simp [pageNumbers, MarkersHidePages, MarkersAfter] <;> omega
    · have hg : getPageNumbers current 4
          = [PageItem.page 1, PageItem.page 2, PageItem.page 3, PageItem.page 4] := rfl
      rw [hg]
      refine ⟨?_, ?_, ?_, ?_, ?_, ?_⟩ <;>
        simp [pageNumbers, MarkersHidePages, MarkersAfter] <;> omega
    · have hg : getPageNumbers current 5
          = [PageItem.page 1, PageItem.page 2, PageItem.page 3, PageItem.page 4,
             PageItem.page 5] := rfl
      rw [hg]
      refine ⟨?_, ?_, ?_, ?_, ?_, ?_⟩ <;>
        simp [pageNumbers, MarkersHidePages, MarkersAfter] <;> omega
  · unfold getPageNumbers
    rw [if_neg h5]
    split
    · refine ⟨?_, ?_, ?_, ?_, ?_, ?_⟩ <;>
        simp [pageNumbers, MarkersHidePages, MarkersAfter] <;> omega
    · split
      · refine ⟨?_, ?_, ?_, ?_, ?_, ?_⟩ <;>
          simp [pageNumbers, MarkersHidePages, MarkersAfter] <;> omega
      · refine ⟨?_, ?_, ?_, ?_, ?_, ?_⟩ <;>
          simp [pageNumbers, MarkersHidePages, MarkersAfter] <;> omega

theorem getPageNumbers_well_formed_witness :
    getPageNumbers 7 20
        = [PageItem.page 1, PageItem.ellipsis, PageItem.page 6, PageItem.page 7,
           PageItem.page 8, PageItem.ellipsis, PageItem.page 20]
      ∧ MarkersHidePages (getPageNumbers 7 20) :=
  ⟨by decide,
    (getPageNumbers_well_formed 7 20 (by decide) (by decide) (by decide)).2.2.2.2.2⟩

/-! ## The flags of the descriptor -/

theorem mul_lt_iff_lt_pages (p l t : ℕ) (hl : 1 ≤ l) : p * l < t ↔ p < (t + l - 1) / l := by
  have h : p + 1 ≤ (t + l - 1) / l ↔ (p + 1) * l ≤ t + l - 1 :=
    Nat.le_div_iff_mul_le (show 0 < l by omega)
  have hmul : (p + 1) * l = p * l + l := by ring
  constructor
  · intro hlt
    have : p + 1 ≤ (t + l - 1) / l := h.mpr (by rw [hmul]; omega)
    omega
  · intro hlt
    have h2 := h.mp (by omega)
    rw [hmul] at h2
    omega

theorem flagsAgree_of_descriptor (p l t : ℕ) (hp : 1 ≤ p) (hl : 1 ≤ l) :
    FlagsAgree
      { current := JSNum.int p
        total := JSNum.int (((t + l - 1) / l : ℕ) : ℤ)
        perPage := JSNum.int l
        totalItems := t
        hasNext := decide (p * l < t)
        hasPrev := decide (0 < (p - 1) * l) } p l t := by
  have hceil := ceil_div_eq t l hl
  have hiff := mul_lt_iff_lt_pages p l t hl
  have hprev : 0 < (p - 1) * l ↔ 1 < p := by
    constructor
    · intro h
      by_contra hcon
      have : p - 1 = 0 := by omega
      rw [this] at h
      simp at h
    · intro h
      exact Nat.mul_pos (by omega) (by omega)
  unfold FlagsAgree
  rw [hceil]
  refine ⟨rfl, rfl, ?_, ?_, ?_, ?_, ?_, ?_⟩
  · simp only [decide_eq_true_eq, hiff]
    exact Nat.cast_lt.symm
  · simp only [decide_eq_true_eq]
  · simp only [decide_eq_true_eq, hprev]
  · intro hd
    simp only [nextDisabled, beq_iff_eq, JSNum.int.injEq, Nat.cast_inj] at hd
    simp only [decide_eq_false_iff_not, hiff]
    omega
  · intro hle
    have hle2 : p ≤ (t + l - 1) / l := by exact_mod_cast hle
    simp only [nextDisabled, beq_iff_eq, JSNum.int.injEq, Nat.cast_inj,
      decide_eq_false_iff_not, hiff]
    omega
  · simp only [prevDisabled, beq_iff_eq, JSNum.int.injEq, decide_eq_false_iff_not, hprev]
    constructor
    · intro h
      have : p = 1 := by exact_mod_cast h
      omega
    · intro h
      have : p = 1 := by omega
      rw [this]
      rfl

/-- C27: for every page `p ≥ 1`, limit `l ≥ 1` and every list of matching
documents, the descriptor of `getProducts` and of `getCategorias` has
`hasNext` true exactly when `current` is below the `total` field, that is
`p * l < totalItems` iff `p < ceil(totalItems / l)`, and `hasPrev` true
exactly when `p > 1`; the "next" button, disabled when `current` equals
`total`, is then disabled only when `hasNext` is false, and the "previous"
button exactly when `hasPrev` is false. -/
theorem descriptor_flags_agree {ν D E : Type} (toNumber : String → ν)
    (dbP : Collection (ProductFilter ν) D) (qP : ProductQuery) (docsP : List D)
    (dbC : Collection CategoriaFilter E) (qC : CategoriaQuery) (docsC : List E)
    (pP lP pC lC : ℕ) (hpP1 : 1 ≤ pP) (hlP1 : 1 ≤ lP) (hpC1 : 1 ≤ pC) (hlC1 : 1 ≤ lC)
    (hpP : productPageNum qP = JSNum.int pP) (hlP : productLimitNum qP = JSNum.int lP)
    (hmP : dbP.matching (productFilter toNumber qP) = Except.ok docsP)
    (hpC : categoriaPage qC = JSNum.int pC) (hlC : categoriaLimit qC = JSNum.int lC)
    (hmC : dbC.matching (categoriaFilter qC) = Except.ok docsC) :
    (∃ pag, (getProducts toNumber dbP qP).pagination? = some pag
        ∧ FlagsAgree pag pP lP docsP.length)
      ∧ (∃ pag, (getCategorias dbC qC).pagination? = some pag
        ∧ FlagsAgree pag pC lC docsC.length) := by
  constructor
  · rw [getProducts_page toNumber dbP qP docsP pP lP hpP1 hlP1 hpP hlP hmP]
    exact ⟨_, rfl, flagsAgree_of_descriptor pP lP docsP.length hpP1 hlP1⟩
  · rw [getCategorias_page dbC qC docsC pC lC hpC1 hlC1 hpC hlC hmC]
    exact ⟨_, rfl, flagsAgree_of_descriptor pC lC docsC.length hpC1 hlC1⟩

theorem descriptor_flags_agree_witness :
    (∃ pag, (getProducts id (memoryCollection [1, 2, 3, 4, 5, 6, 7] fun _ _ => some true)
          { page := some "3", limit := some "3" }).pagination? = some pag
        ∧ FlagsAgree pag 3 3 7)
      ∧ (∃ pag, (getCategorias (memoryCollection [1, 2, 3, 4, 5, 6, 7] fun _ _ => some true)
          { page := some "1", limit := some "3" }).pagination? = some pag
        ∧ FlagsAgree pag 1 3 7) :=
  descriptor_flags_agree id (memoryCollection [1, 2, 3, 4, 5, 6, 7] fun _ _ => some true)
    { page := some "3", limit := some "3" } [1, 2, 3, 4, 5, 6, 7]
    (memoryCollection [1, 2, 3, 4, 5, 6, 7] fun _ _ => some true)
    { page := some "1", limit := some "3" } [1, 2, 3, 4, 5, 6, 7]
    3 3 1 3 (by decide) (by decide) (by decide) (by decide)
    (by decide) (by decide) rfl (by decide) (by decide) rfl

/-! ## The pages together -/

theorem chunks_take {α : Type} (sorted : List α) (l k : ℕ) :
    ((List.range k).flatMap fun i => (sorted.drop (i * l)).take l) = sorted.take (k * l) := by
  induction k with
  | zero => simp
  | succ k ih =>
    rw [List.range_succ, List.flatMap_append, ih]
    simp only [List.flatMap_cons, List.flatMap_nil, List.append_nil]
    rw [Nat.succ_mul, List.take_add]

theorem chunks_all {α : Type} (sorted : List α) (l : ℕ) (hl : 1 ≤ l) :
    ((List.range ((sorted.length + l - 1) / l)).flatMap fun i => (sorted.drop (i * l)).take l)
      = sorted := by
  rw [chunks_take]
  apply List.take_of_length_le
  have h := Nat.div_add_mod (sorted.length + l - 1) l
  have hmod := Nat.mod_lt (sorted.length + l - 1) (show 0 < l by omega)
  rw [Nat.mul_comm] at h
  omega

/-- C28: for every limit `l ≥ 1`, a fixed filter and sort and an unchanged
store, the data lists that `getProducts` (and `getCategorias`) return for the
pages `1, 2, ..., ceil(totalItems / l)`, concatenated in that order, are
exactly the sorted list of the matching documents; `pageText p` is any text
the handler reads as page `p`. -/
theorem pages_concatenate_to_all {ν D E : Type} (toNumber : String → ν)
    (dbP : Collection (ProductFilter ν) D) (qP : ProductQuery) (docsP : List D)
    (dbC : Collection CategoriaFilter E) (qC : CategoriaQuery) (docsC : List E)
    (lP lC : ℕ) (pageText : ℕ → String) (hlP1 : 1 ≤ lP) (hlC1 : 1 ≤ lC)
    (hlP : productLimitNum qP = JSNum.int lP)
    (hmP : dbP.matching (productFilter toNumber qP) = Except.ok docsP)
    (hlC : categoriaLimit qC = JSNum.int lC)
    (hmC : dbC.matching (categoriaFilter qC) = Except.ok docsC)
    (hpagesP : ∀ p, 1 ≤ p → p ≤ (docsP.length + lP - 1) / lP →
      productPageNum { qP with page := some (pageText p) } = JSNum.int p)
    (hpagesC : ∀ p, 1 ≤ p → p ≤ (docsC.length + lC - 1) / lC →
      categoriaPage { qC with page := some (pageText p) } = JSNum.int p) :
    (((docsP.length + lP - 1) / lP : ℕ) : ℤ) = ⌈(docsP.length : ℚ) / (lP : ℚ)⌉
      ∧ ((List.range ((docsP.length + lP - 1) / lP)).flatMap fun i =>
          ((getProducts toNumber dbP { qP with page := some (pageText (i + 1)) }).data?).getD [])
        = dbP.sortBy (qP.sort.getD "-createdAt") docsP
      ∧ (((docsC.length + lC - 1) / lC : ℕ) : ℤ) = ⌈(docsC.length : ℚ) / (lC : ℚ)⌉
      ∧ ((List.range ((docsC.length + lC - 1) / lC)).flatMap fun i =>
          ((getCategorias dbC { qC with page := some (pageText (i + 1)) }).data?).getD [])
        = dbC.sortBy "nombre" docsC := by
  have hlenP := (dbP.sortBy_perm (qP.sort.getD "-createdAt") docsP).length_eq
  have hlenC := (dbC.sortBy_perm "nombre" docsC).length_eq
  refine ⟨(ceil_div_eq _ _ hlP1).symm, ?_, (ceil_div_eq _ _ hlC1).symm, ?_⟩
  · have hall := chunks_all (dbP.sortBy (qP.sort.getD "-createdAt") docsP) lP hlP1
    rw [hlenP] at hall
    rw [← hall]
    apply List.flatMap_congr
    intro i hi
    have hi2 : i < (docsP.length + lP - 1) / lP := List.mem_range.mp hi
    rw [getProducts_page toNumber dbP { qP with page := some (pageText (i + 1)) } docsP (i + 1) lP
      (by omega) hlP1 (hpagesP (i + 1) (by omega) (by omega)) hlP hmP]
    simp [Response.data?, hall]
  · have hall := chunks_all (dbC.sortBy "nombre" docsC) lC hlC1
    rw [hlenC] at hall
    rw [← hall]
    apply List.flatMap_congr
    intro i hi
    have hi2 : i < (docsC.length + lC - 1) / lC := List.mem_range.mp hi
    rw [getCategorias_page dbC { qC with page := some (pageText (i + 1)) } docsC (i + 1) lC
      (by omega) hlC1 (hpagesC (i + 1) (by omega) (by omega)) hlC hmC]
    simp [Response.data?, hall]

theorem pages_concatenate_to_all_witness :
    ((List.range 3).flatMap fun i =>
        ((getProducts id (memoryCollection [1, 2, 3, 4, 5, 6, 7] fun _ _ => some true)
          { limit := some "3",
            page := some ((fun p => if p = 1 then "1" else if p = 2 then "2" else "3")
              (i + 1)) }).data?).getD [])
      = [1, 2, 3, 4, 5, 6, 7] :=
  (pages_concatenate_to_all id (memoryCollection [1, 2, 3, 4, 5, 6, 7] fun _ _ => some true)
    { limit := some "3" } [1, 2, 3, 4, 5, 6, 7]
    (memoryCollection [1, 2, 3, 4, 5, 6, 7] fun _ _ => some true)
    { limit := some "3" } [1, 2, 3, 4, 5, 6, 7] 3 3
    (fun p => if p = 1 then "1" else if p = 2 then "2" else "3")
    (by decide) (by decide) (by decide) rfl (by decide) rfl
    (by
      intro p h1 h2
      have h3 : p ≤ 3 := h2
      have hp : p = 1 ∨ p = 2 ∨ p = 3 := by omega
      rcases hp with hp | hp | hp <;> subst hp <;> decide)
    (by
      intro p h1 h2
      have h3 : p ≤ 3 := h2
      have hp : p = 1 ∨ p = 2 ∨ p = 3 := by omega
      rcases hp with hp | hp | hp <;> subst hp <;> decide)).2.1

/-! ## The two coercions compared -/

theorem stripHexPrefix_cases (body : List Char) :
    stripHexPrefix body = (false, body)
      ∨ ∃ rest, (body = '0' :: 'x' :: rest ∨ body = '0' :: 'X' :: rest)
          ∧ stripHexPrefix body = (true, rest) := by
  unfold stripHexPrefix
  split
  · exact Or.inr ⟨_, Or.inl rfl, rfl⟩
  · exact Or.inr ⟨_, Or.inr rfl, rfl⟩
  · exact Or.inl rfl

theorem parseInt_no_radix (s : String) (n : ℤ) (h : parseInt s 10 = JSNum.int n) (hn : n ≠ 0) :
    parseInt s 0 = JSNum.int n := by
  unfold parseInt at h ⊢
  rcases hsign : splitSign (s.toList.dropWhile isStrWhiteSpace) with ⟨sgn, body⟩
  simp only [hsign] at h ⊢
  rcases stripHexPrefix_cases body with hs | ⟨rest, hbody, _⟩
  · simpa [hs] using h
  · exfalso
    have hd : takeDigits 10 body = [0] := by
      rcases hbody with hb | hb <;> subst hb <;> simp [takeDigits, digitValue]
    have h0 : roundToDouble 0 = JSNum.int 0 := rfl
    simp [hd, digitsValue, h0, applySign] at h
    exact hn h.symm

theorem categoriaPage_of_productPageNum (qP : ProductQuery) (qC : CategoriaQuery) (p : ℤ)
    (hpage : qC.page = qP.page) (hp1 : 1 ≤ p) (hpP : productPageNum qP = JSNum.int p) :
    categoriaPage qC = JSNum.int p := by
  unfold productPageNum at hpP
  unfold categoriaPage
  rw [hpage]
  cases hq : qP.page with
  | none =>
    rw [hq] at hpP
    have h1 : parseInt "1" 10 = JSNum.int 1 := by decide
    simp only [Option.getD_none, h1, JSNum.int.injEq] at hpP
    subst hpP
    simp [parseInt_undefined, JSNum.orElse, JSNum.truthy]
  | some text =>
    rw [hq] at hpP
    simp only [Option.getD_some] at hpP ⊢
    rw [parseInt_no_radix text p hpP (by omega)]
    have hne : (p != 0) = true := by simp; omega
    simp [JSNum.orElse, JSNum.truthy, hne]

theorem categoriaLimit_of_productLimitNum (qP : ProductQuery) (qC : CategoriaQuery) (l : ℤ)
    (hlimit : qC.limit = qP.limit) (hl1 : 1 ≤ l) (hlP : productLimitNum qP = JSNum.int l) :
    categoriaLimit qC = JSNum.int l := by
  unfold productLimitNum at hlP
  unfold categoriaLimit
  rw [hlimit]
  cases hq : qP.limit with
  | none =>
    rw [hq] at hlP
    have h1 : parseInt "10" 10 = JSNum.int 10 := by decide
    simp only [Option.getD_none, h1, JSNum.int.injEq] at hlP
    subst hlP
    simp [parseInt_undefined, JSNum.orElse, JSNum.truthy]
  | some text =>
    rw [hq] at hlP
    simp only [Option.getD_some] at hlP ⊢
    rw [parseInt_no_radix text l hlP (by omega)]
    have hne : (l != 0) = true := by simp; omega
    simp [JSNum.orElse, JSNum.truthy, hne]

/-- C29: for every `page` and `limit` parameter that `getProducts` reads
(`parseInt` with radix 10, default 1 and 10) as integers `p ≥ 1` and `l ≥ 1`,
`getCategorias` (`parseInt` without radix, then `|| 1` and `|| 10`) resolves
the same page and limit, and for the same number of matching documents the
two handlers return the same pagination descriptor. -/
theorem list_endpoints_same_pagination {ν D E : Type} (toNumber : String → ν)
    (dbP : Collection (ProductFilter ν) D) (qP : ProductQuery) (docsP : List D)
    (dbC : Collection CategoriaFilter E) (qC : CategoriaQuery) (docsC : List E)
    (p l : ℤ) (hpage : qC.page = qP.page) (hlimit : qC.limit = qP.limit)
    (hp1 : 1 ≤ p) (hl1 : 1 ≤ l)
    (hpP : productPageNum qP = JSNum.int p) (hlP : productLimitNum qP = JSNum.int l)
    (hmP : dbP.matching (productFilter toNumber qP) = Except.ok docsP)
    (hmC : dbC.matching (categoriaFilter qC) = Except.ok docsC)
    (hlen : docsC.length = docsP.length) :
    categoriaPage qC = JSNum.int p ∧ categoriaLimit qC = JSNum.int l
      ∧ ∃ pag, (getProducts toNumber dbP qP).pagination? = some pag
          ∧ (getCategorias dbC qC).pagination? = some pag := by
  have hpC := categoriaPage_of_productPageNum qP qC p hpage hp1 hpP
  have hlC := categoriaLimit_of_productLimitNum qP qC l hlimit hl1 hlP
  refine ⟨hpC, hlC, ?_⟩
  obtain ⟨pn, rfl⟩ : ∃ pn : ℕ, p = pn := ⟨p.toNat, by omega⟩
  obtain ⟨ln, rfl⟩ : ∃ ln : ℕ, l = ln := ⟨l.toNat, by omega⟩
  rw [getProducts_page toNumber dbP qP docsP pn ln (by omega) (by omega) hpP hlP hmP,
    getCategorias_page dbC qC docsC pn ln (by omega) (by omega) hpC hlC hmC, hlen]
  exact ⟨_, rfl, rfl⟩

theorem list_endpoints_same_pagination_witness :
    categoriaPage { page := some " +2abc", limit := some "3" } = JSNum.int 2
      ∧ categoriaLimit { page := some " +2abc", limit := some "3" } = JSNum.int 3
      ∧ ∃ pag, (getProducts id (memoryCollection [1, 2, 3, 4, 5, 6, 7] fun _ _ => some true)
            { page := some " +2abc", limit := some "3" }).pagination? = some pag
          ∧ (getCategorias (memoryCollection [8, 7, 6, 5, 4, 3, 2] fun _ _ => some true)
            { page := some " +2abc", limit := some "3" }).pagination? = some pag :=
  list_endpoints_same_pagination id
    (memoryCollection [1, 2, 3, 4, 5, 6, 7] fun _ _ => some true)
    { page := some " +2abc", limit := some "3" } [1, 2, 3, 4, 5, 6, 7]
    (memoryCollection [8, 7, 6, 5, 4, 3, 2] fun _ _ => some true)
    { page := some " +2abc", limit := some "3" } [8, 7, 6, 5, 4, 3, 2]
    2 3 rfl rfl (by decide) (by decide) (by decide) (by decide) rfl rfl rfl

/-! ## The page and limit of `getCategorias` are never zero -/

theorem orElse_truthy (x : JSNum) (d : ℤ) (hd : d ≠ 0) :
    (x.orElse (JSNum.int d)).truthy = true := by
  unfold JSNum.orElse
  split
  · assumption
  · simp [JSNum.truthy, hd]

theorem truthy_cases (x : JSNum) (h : x.truthy = true) :
    (∃ n : ℤ, n ≠ 0 ∧ x = JSNum.int n) ∨ x = JSNum.posInf ∨ x = JSNum.negInf := by
  cases x with
  | int n => exact Or.inl ⟨n, by simpa [JSNum.truthy] using h, rfl⟩
  | nan => simp [JSNum.truthy] at h
  | posInf => exact Or.inr (Or.inl rfl)
  | negInf => exact Or.inr (Or.inr rfl)

theorem ceilDiv_truthy (total : ℕ) (x : JSNum) (h : x.truthy = true) :
    ∃ pages : ℤ, JSNum.ceilDiv (JSNum.int total) x = JSNum.int pages
      ∧ ∀ limit : ℤ, x = JSNum.int limit → pages = ⌈(total : ℚ) / (limit : ℚ)⌉ := by
  rcases truthy_cases x h with ⟨n, hn, rfl⟩ | rfl | rfl
  · refine ⟨⌈(total : ℚ) / (n : ℚ)⌉, by simp [JSNum.ceilDiv, hn], ?_⟩
    intro limit hl
    cases hl
    rfl
  · exact ⟨0, rfl, fun limit hl => by cases hl⟩
  · exact ⟨0, rfl, fun limit hl => by cases hl⟩

set_option maxRecDepth 100000 in
/-- C30, as the code has it: a `limit` of 400 digits is read by `parseInt` as
`Infinity`, which `|| 10` keeps: the limit resolved by `getCategorias` is not
an integer. -/
theorem getCategorias_limit_overflow :
    categoriaLimit { limit := some (String.mk (List.replicate 400 '9')) } = JSNum.posInf
      ∧ categoriaPage { page := some (String.mk ('-' :: List.replicate 400 '9')) }
        = JSNum.negInf := by
  decide

/-- C30, amended: for every query, the page and the limit resolved by
`getCategorias` are never `NaN` and never 0: each is an integer different
from 0, or an infinity (a run of digits too long for a double).  So
`Math.ceil(total / limit)` never divides by zero and is a finite integer for
every total, the ceiling of the quotient when the limit is an integer, and the
`total` field of every descriptor the handler returns is a finite integer. -/
theorem getCategorias_page_limit_nonzero (q : CategoriaQuery) :
    ((∃ page : ℤ, page ≠ 0 ∧ categoriaPage q = JSNum.int page)
        ∨ categoriaPage q = JSNum.posInf ∨ categoriaPage q = JSNum.negInf)
      ∧ ((∃ limit : ℤ, limit ≠ 0 ∧ categoriaLimit q = JSNum.int limit)
        ∨ categoriaLimit q = JSNum.posInf ∨ categoriaLimit q = JSNum.negInf)
      ∧ (∀ total : ℕ,
          ∃ pages : ℤ, JSNum.ceilDiv (JSNum.int total) (categoriaLimit q) = JSNum.int pages
            ∧ ∀ limit : ℤ, categoriaLimit q = JSNum.int limit →
                pages = ⌈(total : ℚ) / (limit : ℚ)⌉)
      ∧ ∀ (D : Type) (db : Collection CategoriaFilter D) (pag : Pagination),
          (getCategorias db q).pagination? = some pag →
            ∃ pages : ℤ, pag.total = JSNum.int pages := by
  have hpage : (categoriaPage q).truthy = true := orElse_truthy _ 1 (by decide)
  have hlimit : (categoriaLimit q).truthy = true := orElse_truthy _ 10 (by decide)
  refine ⟨truthy_cases _ hpage, truthy_cases _ hlimit,
    fun total => ceilDiv_truthy total _ hlimit, ?_⟩
  intro D db pag hpag
  unfold getCategorias at hpag
  simp only at hpag
  split at hpag
  · simp [Response.pagination?] at hpag
  · split at hpag
    · simp [Response.pagination?] at hpag
    · simp only [Response.pagination?, Option.some.injEq] at hpag
      subst hpag
      obtain ⟨pages, hpages, _⟩ := ceilDiv_truthy _ _ hlimit
      exact ⟨pages, hpages⟩

/-! ## Referential integrity -/

theorem findProductById_id (env : Env) (productos : List ProductDoc) (id : String)
    (product : ProductDoc)
    (h : findProductById env productos id = Except.ok (some product)) :
    product._id = id ∧ product ∈ productos
      ∧ productos.find? (fun p => p._id == id) = some product := by
  unfold findProductById at h
  split at h
  · simp only [Except.ok.injEq] at h
    have hp := List.find?_some h
    exact ⟨by simpa using hp, List.mem_of_find?_eq_some h, h⟩
  · cases h

theorem createCategoria_integrity (env : Env) (store : Store) (body : CategoriaBody)
    (userId newId : String) (h : ReferentialIntegrity store) :
    ReferentialIntegrity (createCategoria env store [] body userId newId).2 := by
  unfold createCategoria
  simp only [ne_eq, not_true_eq_false, if_false]
  split
  · exact h
  · split
    · exact h
    · split
      · split
        · exact h
        · intro p hp
          obtain ⟨c, hc, hid⟩ := h p hp
          exact ⟨c, List.mem_append_left _ hc, hid⟩
      · exact h

theorem mem_replaceFirst_id {α β : Type} [DecidableEq β] (f : α → β) (new x : α) (l : List α)
    (hx : x ∈ l) : ∃ y ∈ replaceFirst (fun c => f c == f new) new l, f y = f x := by
  induction l with
  | nil => cases hx
  | cons a rest ih =>
    by_cases ha : (f a == f new) = true
    · rw [replaceFirst_cons_pos _ new a rest ha]
      rcases List.mem_cons.mp hx with hxa | hxr
      · refine ⟨new, List.mem_cons_self _ _, ?_⟩
        rw [hxa]
        exact (by simpa using ha : f a = f new).symm
      · exact ⟨x, List.mem_cons_of_mem _ hxr, rfl⟩
    · rw [replaceFirst_cons_neg _ new a rest ha]
      rcases List.mem_cons.mp hx with hxa | hxr
      · exact ⟨a, List.mem_cons_self _ _, by rw [hxa]⟩
      · obtain ⟨y, hy, hfy⟩ := ih hxr
        exact ⟨y, List.mem_cons_of_mem _ hy, hfy⟩

theorem updateCategoria_integrity (env : Env) (store : Store) (id : String)
    (body : CategoriaBody) (h : ReferentialIntegrity store) :
    ReferentialIntegrity (updateCategoria env store [] id body).2 := by
  unfold updateCategoria
  simp only [ne_eq, not_true_eq_false, if_false]
  split
  · exact h
  · exact h
  · rename_i categoria hfound
    split
    · exact h
    · split
      · split
        · exact h
        · intro p hp
          obtain ⟨c, hc, hid⟩ := h p hp
          have hassign : (categoria.assign body)._id = categoria._id := rfl
          obtain ⟨y, hy, hfy⟩ := mem_replaceFirst_id (fun c : CategoriaDoc => c._id)
            (categoria.assign body) c store.categorias hc
          simp only [hassign] at hy
          exact ⟨y, hy, hfy.trans hid⟩
      · exact h

theorem deleteCategoria_integrity (env : Env) (store : Store) (id : String)
    (h : ReferentialIntegrity store) : ReferentialIntegrity (deleteCategoria env store id).2 := by
  unfold deleteCategoria
  split
  · exact h
  · exact h
  · rename_i categoria hfound
    obtain ⟨hid, hmem, hfind⟩ := findCategoriaById_id env store.categorias id categoria hfound
    simp only
    split
    · exact h
    · rename_i hcount
      intro p hp
      obtain ⟨c, hc, hcid⟩ := h p hp
      have hne : p.categoria ≠ id := by
        intro hpid
        apply hcount
        have : p ∈ store.productos.filter fun p => p.categoria == id :=
          List.mem_filter.mpr ⟨hp, by simpa using hpid⟩
        exact List.length_pos_of_mem this
      refine ⟨c, ?_, hcid⟩
      have hnot : ¬ ((fun c : CategoriaDoc => c._id == categoria._id) c = true) := by
        simp only [beq_iff_eq]
        rw [hcid, hid]
        exact hne
      have hiff : c ∈ store.categorias.eraseP (fun c : CategoriaDoc => c._id == categoria._id)
          ↔ c ∈ store.categorias := List.mem_eraseP_of_neg hnot
      exact hiff.mpr hc


theorem createProduct_integrity (env : Env) (store : Store) (body : ProductBody)
    (userId newId : String) (h : ReferentialIntegrity store) :
    ReferentialIntegrity (createProduct env store [] body userId newId).2 := by
  unfold createProduct
  simp only [ne_eq, not_true_eq_false, if_false]
  split
  · rename_i htruthy
    split
    · exact h
    · exact h
    · rename_i categoria hfound
      obtain ⟨hid, hmem, hfind⟩ :=
        findCategoriaById_id env store.categorias _ categoria hfound
      unfold insertProduct
      split
      · intro p hp
        simp only [List.mem_append, List.mem_singleton] at hp
        cases hp with
        | inl hold => exact h p hold
        | inr hnew =>
          subst hnew
          exact ⟨categoria, hmem, hid⟩
      · exact h
  · rename_i htruthy
    unfold insertProduct
    split
    · rename_i hvalid
      exfalso
      apply htruthy
      unfold productSchemaValid at hvalid
      cases hc : body.categoria with
      | none => simp [hc] at hvalid
      | some categoria =>
        simp only [hc, Bool.and_eq_true, bne_iff_ne, ne_eq] at hvalid
        exact truthy_some_of_ne_empty categoria hvalid.2.1
    · exact h

theorem updateProduct_integrity (env : Env) (store : Store) (id : String)
    (body : ProductBody) (h : ReferentialIntegrity store) :
    ReferentialIntegrity (updateProduct env store [] id body).2 := by
  unfold updateProduct
  simp only [ne_eq, not_true_eq_false, if_false]
  split
  · exact h
  · exact h
  · rename_i product hfound
    obtain ⟨hid, hmem, hfind⟩ := findProductById_id env store.productos id product hfound
    split
    · exact h
    · exact h
    · rename_i hexiste
      split
      · intro p hp
        cases mem_replaceFirst _ _ p store.productos hp with
        | inr hold => exact h p hold
        | inl hnew =>
          subst hnew
          cases hc : body.categoria with
          | none =>
            obtain ⟨c, hcm, hcid⟩ := h product hmem
            exact ⟨c, hcm, by simpa [ProductDoc.assign, hc] using hcid⟩
          | some categoria =>
            rw [hc] at hexiste
            unfold categoriaExiste at hexiste
            cases hfc : findCategoriaById env store.categorias categoria with
            | error e => simp [hfc] at hexiste
            | ok found =>
              cases found with
              | none => simp [hfc] at hexiste
              | some c =>
                obtain ⟨hcid, hcm, _⟩ := findCategoriaById_id env store.categorias categoria c hfc
                exact ⟨c, hcm, by simpa [ProductDoc.assign, hc] using hcid⟩
      · exact h

theorem deleteProduct_integrity (env : Env) (store : Store) (id : String)
    (h : ReferentialIntegrity store) : ReferentialIntegrity (deleteProduct env store id).2 := by
  unfold deleteProduct
  split
  · exact h
  · exact h
  · intro p hp
    exact h p (List.mem_of_mem_eraseP hp)

theorem handle_integrity (env : Env) (store : Store) (request : WriteRequest)
    (h : ReferentialIntegrity store) : ReferentialIntegrity (request.handle env store).2 := by
  cases request with
  | productCreate body userId newId => exact createProduct_integrity env store body userId newId h
  | productUpdate id body => exact updateProduct_integrity env store id body h
  | productDelete id => exact deleteProduct_integrity env store id h
  | categoriaCreate body userId newId =>
    exact createCategoria_integrity env store body userId newId h
  | categoriaUpdate id body => exact updateCategoria_integrity env store id body h
  | categoriaDelete id => exact deleteCategoria_integrity env store id h

/-- C21: from a store in which every product's `categoria` is the `_id` of a
category of the store, every sequence of validated createProduct,
updateProduct, deleteProduct, createCategoria, updateCategoria and
deleteCategoria requests, handled one at a time, leaves a store in which every
product's `categoria` is the `_id` of a category of the store. -/
theorem referential_integrity_invariant (env : Env) (requests : List WriteRequest)
    (store : Store) (h : ReferentialIntegrity store) :
    ReferentialIntegrity (runWrites env store requests) := by
  induction requests generalizing store with
  | nil => exact h
  | cons request rest ih => exact ih _ (handle_integrity env store request h)

theorem referential_integrity_invariant_witness :
    ReferentialIntegrity (runWrites referenceEnv sampleStore
      [WriteRequest.categoriaDelete "0123456789abcdef0123456a",
       WriteRequest.productUpdate "0123456789abcdef0123456d"
         { categoria := some "0123456789abcdef0123456b" },
       WriteRequest.categoriaCreate { nombre := some "Hogar" } "0123456789abcdef01234560"
         "0123456789abcdef0123456b",
       WriteRequest.productUpdate "0123456789abcdef0123456d"
         { categoria := some "0123456789abcdef0123456b" },
       WriteRequest.categoriaDelete "0123456789abcdef0123456a",
       WriteRequest.productCreate
         { nombre := some "Mesa", descripcion := some "una mesa de madera", precio := some "80",
           stock := some "1", categoria := some "0123456789abcdef0123456b" }
         "0123456789abcdef01234560" "0123456789abcdef0123456e",
       WriteRequest.productDelete "0123456789abcdef0123456d"]) :=
  referential_integrity_invariant referenceEnv _ sampleStore
    (by unfold ReferentialIntegrity; decide)

/-! ## Updates touch the supplied fields -/

theorem find?_replaceFirst {α : Type} (p : α → Bool) (new x : α) (l : List α)
    (hnew : p new = true) (h : l.find? p = some x) :
    (replaceFirst p new l).find? p = some new := by
  induction l with
  | nil => cases h
  | cons a rest ih =>
    by_cases ha : p a = true
    · rw [replaceFirst_cons_pos p new a rest ha]
      simp [List.find?_cons, hnew]
    · have hrest : rest.find? p = some x := by simpa [List.find?_cons, ha] using h
      rw [replaceFirst_cons_neg p new a rest ha]
      simp [List.find?_cons, ha, ih hrest]

theorem jsTrim_empty : jsTrim "" = "" := by decide

theorem productAssign_updated (product : ProductDoc) (body : ProductBody) :
    ProductUpdated body product (product.assign body) := by
  refine ⟨rfl, rfl, ?_, ?_, ?_, ?_, ?_, ?_, ?_⟩
  · cases h : body.nombre <;> simp [FieldTakes, ProductDoc.assign, h]
  · cases h : body.descripcion <;> simp [FieldTakes, ProductDoc.assign, h]
  · cases h : body.precio <;> simp [FieldTakes, ProductDoc.assign, h]
  · cases h : body.stock <;> simp [FieldTakes, ProductDoc.assign, h]
  · cases h : body.categoria <;> simp [FieldTakes, ProductDoc.assign, h]
  · cases h : body.imagen with
    | none => simp [ImagenTakes, ProductDoc.assign, h]
    | some imagen =>
      simp only [ImagenTakes, ProductDoc.assign, h]
      by_cases ht : jsTrim imagen = ""
      · simp [ht]
      · have hne : imagen ≠ "" := by
          intro he
          rw [he] at ht
          exact ht jsTrim_empty
        simp [ht, truthy_some_of_ne_empty imagen hne]
  · cases h : body.activo <;> simp [FieldTakes, ProductDoc.assign, h]

theorem categoriaAssign_updated (categoria : CategoriaDoc) (body : CategoriaBody) :
    CategoriaUpdated body categoria (categoria.assign body) := by
  refine ⟨rfl, rfl, ?_, ?_, ?_, ?_⟩
  · cases h : body.nombre <;> simp [FieldTakes, CategoriaDoc.assign, h]
  · cases h : body.descripcion <;> simp [FieldTakes, CategoriaDoc.assign, h]
  · cases h : body.icono <;> simp [FieldTakes, CategoriaDoc.assign, h]
  · cases h : body.activo <;> simp [FieldTakes, CategoriaDoc.assign, h]

theorem updateProduct_cases (env : Env) (store : Store) (errors : List String) (id : String)
    (body : ProductBody) (product : ProductDoc)
    (hfound : findProductById env store.productos id = Except.ok (some product)) :
    ((updateProduct env store errors id body).1.status = 200
        ∧ (updateProduct env store errors id body).2
            = { store with
                productos := replaceFirst (fun p => p._id == product._id)
                  (product.assign body) store.productos })
      ∨ ((updateProduct env store errors id body).1.status ≠ 200
        ∧ (updateProduct env store errors id body).2 = store) := by
  unfold updateProduct
  rw [hfound]
  split
  · exact Or.inr ⟨by simp [validationFailure], rfl⟩
  · simp only
    split
    · exact Or.inr ⟨by simp [notFound], rfl⟩
    · exact Or.inr ⟨by simp [badRequest], rfl⟩
    · split
      · exact Or.inl ⟨rfl, rfl⟩
      · exact Or.inr ⟨by simp [serverError], rfl⟩

theorem updateCategoria_cases (env : Env) (store : Store) (errors : List String) (id : String)
    (body : CategoriaBody) (categoria : CategoriaDoc)
    (hfound : findCategoriaById env store.categorias id = Except.ok (some categoria)) :
    ((updateCategoria env store errors id body).1.status = 200
        ∧ (updateCategoria env store errors id body).2
            = { store with
                categorias := replaceFirst (fun c => c._id == categoria._id)
                  (categoria.assign body) store.categorias })
      ∨ ((updateCategoria env store errors id body).1.status ≠ 200
        ∧ (updateCategoria env store errors id body).2 = store) := by
  unfold updateCategoria
  rw [hfound]
  split
  · exact Or.inr ⟨by simp [validationFailure], rfl⟩
  · simp only
    split
    · exact Or.inr ⟨by simp [badRequest], rfl⟩
    · split
      · split
        · exact Or.inr ⟨by simp [serverError], rfl⟩
        · exact Or.inl ⟨rfl, rfl⟩
      · exact Or.inr ⟨by simp [serverError], rfl⟩


theorem findProductById_replaceFirst (env : Env) (productos : List ProductDoc) (id : String)
    (product updated : ProductDoc) (hid : updated._id = product._id)
    (hfound : findProductById env productos id = Except.ok (some product)) :
    findProductById env (replaceFirst (fun p => p._id == product._id) updated productos) id
      = Except.ok (some updated) := by
  obtain ⟨hpid, _, hfind⟩ := findProductById_id env productos id product hfound
  unfold findProductById at hfound ⊢
  split at hfound
  · rename_i hvalid
    rw [if_pos hvalid, hpid]
    rw [find?_replaceFirst (fun p => p._id == id) updated product productos
      (by simp [hid, hpid]) hfind]
  · cases hfound

theorem findCategoriaById_replaceFirst (env : Env) (categorias : List CategoriaDoc) (id : String)
    (categoria updated : CategoriaDoc) (hid : updated._id = categoria._id)
    (hfound : findCategoriaById env categorias id = Except.ok (some categoria)) :
    findCategoriaById env (replaceFirst (fun c => c._id == categoria._id) updated categorias) id
      = Except.ok (some updated) := by
  obtain ⟨hcid, _, hfind⟩ := findCategoriaById_id env categorias id categoria hfound
  unfold findCategoriaById at hfound ⊢
  split at hfound
  · rename_i hvalid
    rw [if_pos hvalid, hcid]
    rw [find?_replaceFirst (fun c => c._id == id) updated categoria categorias
      (by simp [hid, hcid]) hfind]
  · cases hfound

/-- C22, as the code has it: an `updateProduct` answered 200 with an empty
`imagen` in the body does not store the supplied value: the field of the
record is left `null`. -/
theorem updateProduct_empty_imagen_not_stored :
    (updateProduct referenceEnv sampleStore [] "0123456789abcdef0123456d"
        { imagen := some "" }).1.status = 200
      ∧ (updateProduct referenceEnv sampleStore [] "0123456789abcdef0123456d"
          { imagen := some "" }).2.productos = [{ sampleProduct with imagen := none }]
      ∧ sampleProduct.imagen = some "https://example.com/camisa.png" := by
  decide

/-- C22, amended: for every `updateProduct` and `updateCategoria` request on
an existing record that is answered 200, the record is replaced by one in
which every field absent from the body keeps its previous value and every
supplied field has the supplied value, except that a supplied `imagen` that is
empty or blank clears the field; `_id` and `createdBy` are kept whatever the
body contains, and no other document changes.  A request answered with another
status leaves the store as it was. -/
theorem update_assigns_supplied_fields (env : Env) (store : Store) (errors : List String)
    (id : String) :
    (∀ (body : ProductBody) (product : ProductDoc),
        findProductById env store.productos id = Except.ok (some product) →
        ((updateProduct env store errors id body).1.status = 200 →
            ∃ updated : ProductDoc,
              (updateProduct env store errors id body).2
                  = { store with
                      productos :=
                        replaceFirst (fun p => p._id == product._id) updated store.productos }
                ∧ findProductById env (updateProduct env store errors id body).2.productos id
                    = Except.ok (some updated)
                ∧ ProductUpdated body product updated)
          ∧ ((updateProduct env store errors id body).1.status ≠ 200 →
              (updateProduct env store errors id body).2 = store))
      ∧ (∀ (body : CategoriaBody) (categoria : CategoriaDoc),
        findCategoriaById env store.categorias id = Except.ok (some categoria) →
        ((updateCategoria env store errors id body).1.status = 200 →
            ∃ updated : CategoriaDoc,
              (updateCategoria env store errors id body).2
                  = { store with
                      categorias :=
                        replaceFirst (fun c => c._id == categoria._id) updated
                          store.categorias }
                ∧ findCategoriaById env (updateCategoria env store errors id body).2.categorias id
                    = Except.ok (some updated)
                ∧ CategoriaUpdated body categoria updated)
          ∧ ((updateCategoria env store errors id body).1.status ≠ 200 →
              (updateCategoria env store errors id body).2 = store)) := by
  constructor
  · intro body product hfound
    rcases updateProduct_cases env store errors id body product hfound with ⟨hs, hstore⟩ | ⟨hs, hstore⟩
    · refine ⟨fun _ => ⟨product.assign body, hstore, ?_, productAssign_updated product body⟩,
        fun hne => absurd hs hne⟩
      rw [hstore]
      exact findProductById_replaceFirst env store.productos id product _ rfl hfound
    · exact ⟨fun h200 => absurd h200 hs, fun _ => hstore⟩
  · intro body categoria hfound
    rcases updateCategoria_cases env store errors id body categoria hfound with
      ⟨hs, hstore⟩ | ⟨hs, hstore⟩
    · refine ⟨fun _ => ⟨categoria.assign body, hstore, ?_, categoriaAssign_updated categoria body⟩,
        fun hne => absurd hs hne⟩
      rw [hstore]
      exact findCategoriaById_replaceFirst env store.categorias id categoria _ rfl hfound
    · exact ⟨fun h200 => absurd h200 hs, fun _ => hstore⟩

theorem update_assigns_supplied_fields_witness :
    ∃ updated : ProductDoc,
      (updateProduct referenceEnv sampleStore [] "0123456789abcdef0123456d"
          { nombre := some "Camisa roja", imagen := some "  ",
            createdBy := some "0123456789abcdef01234569" }).2
          = { sampleStore with
              productos :=
                replaceFirst (fun p => p._id == sampleProduct._id) updated
                  sampleStore.productos }
        ∧ findProductById referenceEnv
            (updateProduct referenceEnv sampleStore [] "0123456789abcdef0123456d"
              { nombre := some "Camisa roja", imagen := some "  ",
                createdBy := some "0123456789abcdef01234569" }).2.productos
            "0123456789abcdef0123456d" = Except.ok (some updated)
        ∧ ProductUpdated
            { nombre := some "Camisa roja", imagen := some "  ",
              createdBy := some "0123456789abcdef01234569" } sampleProduct updated :=
  ((update_assigns_supplied_fields referenceEnv sampleStore [] "0123456789abcdef0123456d").1
    { nombre := some "Camisa roja", imagen := some "  ",
      createdBy := some "0123456789abcdef01234569" } sampleProduct rfl).1 (by decide)

/-! ## The PUT routes validate the whole body -/

theorem productValidation_ne_nil (v : Validators) (body : ProductBody)
    (h : body.nombre = none ∨ body.descripcion = none ∨ body.precio = none ∨ body.stock = none
      ∨ body.categoria = none) :
    productValidation v body ≠ [] := by
  rcases h with h | h | h | h | h
  · have hmem : "El nombre es requerido" ∈ productValidation v body := by
      simp [productValidation, h, fieldText, jsTrim_empty, check]
    exact List.ne_nil_of_mem hmem
  · have hmem : "La descripción es requerida" ∈ productValidation v body := by
      simp [productValidation, h, fieldText, jsTrim_empty, check]
    exact List.ne_nil_of_mem hmem
  · have hmem : "El precio es requerido" ∈ productValidation v body := by
      simp [productValidation, h, fieldText, check]
    exact List.ne_nil_of_mem hmem
  · have hmem : "El stock es requerido" ∈ productValidation v body := by
      simp [productValidation, h, fieldText, check]
    exact List.ne_nil_of_mem hmem
  · have hmem : "La categoría es requerida" ∈ productValidation v body := by
      simp [productValidation, h, fieldText, check]
    exact List.ne_nil_of_mem hmem

theorem categoriaValidation_ne_nil (body : CategoriaBody) (h : body.nombre = none) :
    categoriaValidation body ≠ [] := by
  have hmem : "El nombre es requerido" ∈ categoriaValidation body := by
    simp [categoriaValidation, h, fieldText, jsTrim_empty, check]
  exact List.ne_nil_of_mem hmem

/-- C23: a PUT on an existing product, or on an existing category, whose body
supplies only a valid `activo` does not succeed: the validation chain of the
route answers 400 with the messages of the missing fields and nothing
changes, although the handlers `updateProduct` and `updateCategoria`, given an
empty validation result, apply the same body with status 200. -/
theorem put_only_activo_rejected :
    (PutRequest.product "0123456789abcdef0123456d" { activo := some false }).handle
        referenceEnv referenceValidators sampleStore
      = ({ status := 400, success := false, message := some "Errores de validación",
           data := none, error := none,
           errors :=
            ["El nombre es requerido", "El nombre debe tener entre 2 y 100 caracteres",
             "La descripción es requerida",
             "La descripción debe tener entre 10 y 500 caracteres",
             "El precio es requerido", "El precio debe ser un número mayor o igual a 0",
             "El stock es requerido",
             "El stock debe ser un número entero mayor o igual a 0",
             "La categoría es requerida", "ID de categoría no válido"] }, sampleStore)
      ∧ (updateProduct referenceEnv sampleStore [] "0123456789abcdef0123456d"
          { activo := some false }).1.status = 200
      ∧ (PutRequest.categoria "0123456789abcdef0123456a" { activo := some false }).handle
          referenceEnv referenceValidators sampleStore
        = ({ status := 400, success := false, message := some "Errores de validación",
             data := none, error := none,
             errors :=
              ["El nombre es requerido", "El nombre debe tener entre 2 y 50 caracteres"] },
           sampleStore)
      ∧ (updateCategoria referenceEnv sampleStore [] "0123456789abcdef0123456a"
          { activo := some false }).1.status = 200 := by
  decide

/-- The extent of the rejection: for every PUT on a product whose body omits
`nombre`, `descripcion`, `precio`, `stock` or `categoria`, and every PUT on a
category whose body omits `nombre`, whatever the other fields are, the chain
records at least one error, the response is 400 `Errores de validación` with
those errors, and the store is unchanged. -/
theorem put_omitting_required_rejected (env : Env) (v : Validators) (store : Store)
    (request : PutRequest) (h : request.OmitsRequired) :
    request.validation v ≠ []
      ∧ request.handle env v store
        = ({ status := 400, success := false, message := some "Errores de validación",
             data := none, error := none, errors := request.validation v }, store) := by
  cases request with
  | product id body =>
    have hne := productValidation_ne_nil v body h
    refine ⟨hne, ?_⟩
    simp only [PutRequest.handle, PutRequest.validation, updateProduct, ne_eq, hne,
      not_false_eq_true, if_true, validationFailure]
  | categoria id body =>
    have hne := categoriaValidation_ne_nil body h
    refine ⟨hne, ?_⟩
    simp only [PutRequest.handle, PutRequest.validation, updateCategoria, ne_eq, hne,
      not_false_eq_true, if_true, validationFailure]

/-! ## Error responses -/

/-- C24: the `catch` blocks of `getProducts` and `getCategorias` send the
message of the error caught whatever the mode of the process (the handlers do
not read `NODE_ENV`): for every message with which the store rejects the
query, the response is status 500 with that message as `error`.  The handler
of uncaught errors of server.js sends the message in development mode only,
and its response in production mode is the same for every message. -/
theorem catch_block_sends_error_message {D : Type} (message : String) :
    (∀ q : ProductQuery,
        getProducts id (failingCollection message : Collection (ProductFilter String) D) q
          = Response.failure 500 "Error al obtener productos" message)
      ∧ (∀ q : CategoriaQuery,
        getCategorias (failingCollection message : Collection CategoriaFilter D) q
          = Response.failure 500 "Error al obtener categorías" message)
      ∧ globalErrorHandler (some "production") message
        = { status := 500, success := false, message := some "Error interno del servidor",
            data := none, error := none, errors := [] }
      ∧ globalErrorHandler (some "development") message
        = { status := 500, success := false, message := some "Error interno del servidor",
            data := none, error := some message, errors := [] } :=
  ⟨fun _ => rfl, fun _ => rfl, rfl, rfl⟩

end Lorebel
